import Mathlib

/-!
# Tag reconciliation and state waits in the service adapters

A shallow embedding of the tag functions generated in `tags_gen.go` for the
ecrpublic, swf, lightsail, lambda, ivschat and pinpoint services (`updateTags`,
`createTags`, `getTagsIn`, `listTags`) with the tag-set operations they call,
of the lookup, the status query, the two state waits and the read and delete
handlers of the redshiftserverless endpoint access resource, and of the destroy
check of the DMS replication subnet group test.

Go maps are embedded as association lists with unique keys; a `range` over a
map visits the entries in list order (Go fixes no order, so no statement
below depends on a particular one).  Remote calls are embedded with explicit
state passing: a `World` holds the state of the remote service and the log of
the requests sent to it.  The poll loop of a state wait counts its queries and
sleeps and keeps a logical clock.
-/

/-! ## Definitions -/

/-- Go `map[string]string`: finitely many entries with pairwise distinct keys. -/
structure GoMap where
  entries : List (String × String)
  nodup : (entries.map Prod.fst).Nodup

namespace GoMap

/-- The empty map (a nil Go map reads as empty). -/
def empty : GoMap := ⟨[], List.nodup_nil⟩

/-- Go `v, ok := m[k]`: `some v` when the key is present. -/
def lookup (m : GoMap) (k : String) : Option String :=
  (m.entries.find? (fun e => e.1 == k)).map Prod.snd

/-- Go `len(m)`. -/
def len (m : GoMap) : Nat := m.entries.length

/-- The entries of a map that satisfy `p`, as a map. -/
def filter (p : String × String → Bool) (m : GoMap) : GoMap :=
  ⟨m.entries.filter p, (List.Sublist.map Prod.fst (List.filter_sublist m.entries)).nodup m.nodup⟩

/-- Go `delete(m, k)`. -/
def delete (m : GoMap) (k : String) : GoMap :=
  m.filter (fun e => !(e.1 == k))

/-- Go `m[k] = v`. -/
def set (m : GoMap) (k v : String) : GoMap :=
  ⟨(k, v) :: (m.delete k).entries, by
    refine List.nodup_cons.mpr ⟨?_, (m.delete k).nodup⟩
    simp [delete, filter, List.mem_map, List.mem_filter]⟩

end GoMap

/-- Modelled from the spec: `tftags.KeyValueTags` (package `internal/tags` is
not among the sources).  The spec's TagSet: a mapping from tag key to tag
value, keys unique, insertion order irrelevant. -/
abbrev KeyValueTags := GoMap

/-- Modelled from the spec: the ProtectedKeySet, a predicate evaluated per key;
it stands for the system-tag test that `IgnoreSystem(names.<Service>)` applies
(neither `IgnoreSystem` nor the `names` constants are among the sources). -/
abbrev ProtectedKeySet := String → Bool

namespace KeyValueTags

/-- Modelled from the spec: `tftags.New(ctx, nil)`, the empty tag set. -/
def New : KeyValueTags := GoMap.empty

/-- Modelled from the spec: `KeyValueTags.Removed` (absent from the sources):
"for every key in observed not in desired ... add to toRemove". -/
def Removed (tags newTags : KeyValueTags) : KeyValueTags :=
  tags.filter (fun e => (newTags.lookup e.1).isNone)

/-- Modelled from the spec: `KeyValueTags.Updated` (absent from the sources):
"for every key in desired whose value differs from observed[key] (including
keys absent from observed) ... add to toUpdate with the desired value". -/
def Updated (tags newTags : KeyValueTags) : KeyValueTags :=
  newTags.filter (fun e => !(tags.lookup e.1 == some e.2))

/-- Modelled from the spec: `KeyValueTags.IgnoreSystem` (absent from the
sources): the tags whose key is not protected. -/
def IgnoreSystem (tags : KeyValueTags) (isProtected : ProtectedKeySet) : KeyValueTags :=
  tags.filter (fun e => !(isProtected e.1))

/-- Modelled from the spec: `KeyValueTags.Keys` (absent from the sources): the
keys of the tag set. -/
def Keys (tags : KeyValueTags) : List String := tags.entries.map Prod.fst

/-- Modelled from the spec: `KeyValueTags.Map` (absent from the sources): the
tag set as a Go `map[string]string`. -/
def Map (tags : KeyValueTags) : GoMap := tags

end KeyValueTags

/-- Go `error` values: an error reported by the remote service, or an error
built by `fmt.Errorf` with `%w`, which carries its message and the wrapped cause.
The other constructors are the error types the endpoint-access code tells apart:
`*awstypes.ResourceNotFoundException`, `*retry.NotFoundError` (with its
`LastError` and the endpoint name of its `LastRequest`), the error of
`tfresource.NewEmptyResultError`, and the two errors of a state wait, a timeout
and a failure status, each with the last observed status. -/
inductive GoError where
  | api (msg : String)
  | wrapped (msg : String) (cause : GoError)
  | resourceNotFound (msg : String)
  | notFound (lastError : GoError) (lastRequest : String)
  | emptyResult (lastRequest : String)
  | timeout (lastState : String)
  | unexpectedState (state : String)
deriving DecidableEq, Repr

namespace GoError

/-- Go `err.Error()`.  No statement below depends on the message of a library
error type. -/
def Error : GoError → String
  | api msg => msg
  | wrapped msg _ => msg
  | resourceNotFound msg => msg
  | notFound _ _ => "couldn't find resource"
  | emptyResult _ => "empty result"
  | timeout lastState => "timeout while waiting for state (last state: " ++ lastState ++ ")"
  | unexpectedState state => "unexpected state " ++ state

/-- Go `errors.Unwrap(err)`. -/
def Unwrap : GoError → Option GoError
  | wrapped _ cause => some cause
  | notFound lastError _ => some lastError
  | _ => none

end GoError

namespace fmt

/-- Go `fmt.Errorf(format, identifier, err)` for a format string of the shape
`<before>%s<between>%w`: the message is the format with the identifier and the
message of `err` filled in, and the result wraps `err`. -/
def Errorf (before between identifier : String) (err : GoError) : GoError :=
  GoError.wrapped (before ++ identifier ++ between ++ err.Error) err

end fmt

/-- The SDK request struct `UntagResourceInput`.  The resource field is named
`ResourceArn` (ecrpublic, swf, ivschat, pinpoint), `Resource` (lambda) or
`ResourceName` (lightsail). -/
structure UntagResourceInput where
  ResourceArn : String
  TagKeys : List String
deriving DecidableEq, Repr

/-- The SDK request struct `TagResourceInput`, with the service's tag payload
type `τ` (the field is `Tags`, or `TagsModel` for pinpoint). -/
structure TagResourceInput (τ : Type) where
  ResourceArn : String
  Tags : τ
deriving Repr

/-- A request sent to the remote tag API. -/
inductive Request (τ : Type) where
  | UntagResource (input : UntagResourceInput)
  | TagResource (input : TagResourceInput τ)
deriving Repr

/-- What `updateTags` acts on: the state of the remote service and the requests
sent so far, oldest first. -/
structure World (τ σ : Type) where
  remote : σ
  requests : List (Request τ)

/-- The SDK client `*<service>.Client`: how the remote service answers each of
the two tag operations (an error or nil, and its next state). -/
structure Client (τ σ : Type) where
  untag : UntagResourceInput → σ → Option GoError × σ
  tag : TagResourceInput τ → σ → Option GoError × σ

namespace Client

/-- The call `conn.UntagResource(ctx, &input, optFns...)`; the output value is
discarded by every caller, so only the error is returned. -/
def UntagResource {τ σ : Type} (conn : Client τ σ) (input : UntagResourceInput)
    (w : World τ σ) : Option GoError × World τ σ :=
  ((conn.untag input w.remote).1,
    ⟨(conn.untag input w.remote).2, w.requests ++ [Request.UntagResource input]⟩)

/-- The call `conn.TagResource(ctx, &input, optFns...)`. -/
def TagResource {τ σ : Type} (conn : Client τ σ) (input : TagResourceInput τ)
    (w : World τ σ) : Option GoError × World τ σ :=
  ((conn.tag input w.remote).1,
    ⟨(conn.tag input w.remote).2, w.requests ++ [Request.TagResource input]⟩)

end Client

namespace ecrpublic

/-- The SDK type `awstypes.Tag`. -/
structure Tag where
  Key : Option String
  Value : Option String
deriving DecidableEq, Repr

/-- `Tags` returns ecrpublic service tags: one `Tag` per entry of `tags.Map()`. -/
def Tags (tags : KeyValueTags) : List Tag :=
  tags.Map.entries.map (fun e => { Key := some e.1, Value := some e.2 })

/-- `updateTags` updates ecrpublic service tags.  `oldTags` and `newTags` are
`tftags.New(ctx, oldTagsMap)` and `tftags.New(ctx, newTagsMap)`; `isProtected`
is the system-key test of `names.ECRPublic`. -/
def updateTags {σ : Type} (conn : Client (List Tag) σ) (isProtected : ProtectedKeySet)
    (identifier : String) (oldTags newTags : KeyValueTags) (w : World (List Tag) σ) :
    Option GoError × World (List Tag) σ :=
  let removedTags := (oldTags.Removed newTags).IgnoreSystem isProtected
  let untagged :=
    if 0 < removedTags.len then
      conn.UntagResource { ResourceArn := identifier, TagKeys := removedTags.Keys } w
    else (none, w)
  match untagged with
  | (some err, w1) => (some (fmt.Errorf "untagging resource (" "): " identifier err), w1)
  | (none, w1) =>
    let updatedTags := (oldTags.Updated newTags).IgnoreSystem isProtected
    if 0 < updatedTags.len then
      match conn.TagResource { ResourceArn := identifier, Tags := Tags updatedTags } w1 with
      | (some err, w2) => (some (fmt.Errorf "tagging resource (" "): " identifier err), w2)
      | (none, w2) => (none, w2)
    else (none, w1)

end ecrpublic

namespace swf

/-- The SDK type `awstypes.ResourceTag`. -/
structure ResourceTag where
  Key : Option String
  Value : Option String
deriving DecidableEq, Repr

/-- `Tags` returns swf service tags: one `ResourceTag` per entry of `tags.Map()`. -/
def Tags (tags : KeyValueTags) : List ResourceTag :=
  tags.Map.entries.map (fun e => { Key := some e.1, Value := some e.2 })

/-- `updateTags` updates swf service tags.  `oldTags` and `newTags` are
`tftags.New(ctx, oldTagsMap)` and `tftags.New(ctx, newTagsMap)`; `isProtected`
is the system-key test of `names.SWF`. -/
def updateTags {σ : Type} (conn : Client (List ResourceTag) σ) (isProtected : ProtectedKeySet)
    (identifier : String) (oldTags newTags : KeyValueTags) (w : World (List ResourceTag) σ) :
    Option GoError × World (List ResourceTag) σ :=
  let removedTags := (oldTags.Removed newTags).IgnoreSystem isProtected
  let untagged :=
    if 0 < removedTags.len then
      conn.UntagResource { ResourceArn := identifier, TagKeys := removedTags.Keys } w
    else (none, w)
  match untagged with
  | (some err, w1) => (some (fmt.Errorf "untagging resource (" "): " identifier err), w1)
  | (none, w1) =>
    let updatedTags := (oldTags.Updated newTags).IgnoreSystem isProtected
    if 0 < updatedTags.len then
      match conn.TagResource { ResourceArn := identifier, Tags := Tags updatedTags } w1 with
      | (some err, w2) => (some (fmt.Errorf "tagging resource (" "): " identifier err), w2)
      | (none, w2) => (none, w2)
    else (none, w1)

end swf

namespace lightsail

/-- The SDK type `awstypes.Tag`. -/
structure Tag where
  Key : Option String
  Value : Option String
deriving DecidableEq, Repr

/-- `Tags` returns lightsail service tags: one `Tag` per entry of `tags.Map()`. -/
def Tags (tags : KeyValueTags) : List Tag :=
  tags.Map.entries.map (fun e => { Key := some e.1, Value := some e.2 })

/-- `updateTags` updates lightsail service tags.  `oldTags` and `newTags` are
`tftags.New(ctx, oldTagsMap)` and `tftags.New(ctx, newTagsMap)`; `isProtected`
is the system-key test of `names.Lightsail`. -/
def updateTags {σ : Type} (conn : Client (List Tag) σ) (isProtected : ProtectedKeySet)
    (identifier : String) (oldTags newTags : KeyValueTags) (w : World (List Tag) σ) :
    Option GoError × World (List Tag) σ :=
  let removedTags := (oldTags.Removed newTags).IgnoreSystem isProtected
  let untagged :=
    if 0 < removedTags.len then
      conn.UntagResource { ResourceArn := identifier, TagKeys := removedTags.Keys } w
    else (none, w)
  match untagged with
  | (some err, w1) => (some (fmt.Errorf "untagging resource (" "): " identifier err), w1)
  | (none, w1) =>
    let updatedTags := (oldTags.Updated newTags).IgnoreSystem isProtected
    if 0 < updatedTags.len then
      match conn.TagResource { ResourceArn := identifier, Tags := Tags updatedTags } w1 with
      | (some err, w2) => (some (fmt.Errorf "tagging resource (" "): " identifier err), w2)
      | (none, w2) => (none, w2)
    else (none, w1)

end lightsail

namespace lambda

/-- `Tags` returns lambda service tags: the tag set as a `map[string]string`. -/
def Tags (tags : KeyValueTags) : GoMap :=
  tags.Map

/-- `updateTags` updates lambda service tags.  `oldTags` and `newTags` are
`tftags.New(ctx, oldTagsMap)` and `tftags.New(ctx, newTagsMap)`; `isProtected`
is the system-key test of `names.Lambda`. -/
def updateTags {σ : Type} (conn : Client GoMap σ) (isProtected : ProtectedKeySet)
    (identifier : String) (oldTags newTags : KeyValueTags) (w : World GoMap σ) :
    Option GoError × World GoMap σ :=
  let removedTags := (oldTags.Removed newTags).IgnoreSystem isProtected
  let untagged :=
    if 0 < removedTags.len then
      conn.UntagResource { ResourceArn := identifier, TagKeys := removedTags.Keys } w
    else (none, w)
  match untagged with
  | (some err, w1) => (some (fmt.Errorf "untagging resource (" "): " identifier err), w1)
  | (none, w1) =>
    let updatedTags := (oldTags.Updated newTags).IgnoreSystem isProtected
    if 0 < updatedTags.len then
      match conn.TagResource { ResourceArn := identifier, Tags := Tags updatedTags } w1 with
      | (some err, w2) => (some (fmt.Errorf "tagging resource (" "): " identifier err), w2)
      | (none, w2) => (none, w2)
    else (none, w1)

end lambda

namespace ivschat

/-- `Tags` returns ivschat service tags: the tag set as a `map[string]string`. -/
def Tags (tags : KeyValueTags) : GoMap :=
  tags.Map

/-- `updateTags` updates ivschat service tags.  `oldTags` and `newTags` are
`tftags.New(ctx, oldTagsMap)` and `tftags.New(ctx, newTagsMap)`; `isProtected`
is the system-key test of `names.IVSChat`. -/
def updateTags {σ : Type} (conn : Client GoMap σ) (isProtected : ProtectedKeySet)
    (identifier : String) (oldTags newTags : KeyValueTags) (w : World GoMap σ) :
    Option GoError × World GoMap σ :=
  let removedTags := (oldTags.Removed newTags).IgnoreSystem isProtected
  let untagged :=
    if 0 < removedTags.len then
      conn.UntagResource { ResourceArn := identifier, TagKeys := removedTags.Keys } w
    else (none, w)
  match untagged with
  | (some err, w1) => (some (fmt.Errorf "untagging resource (" "): " identifier err), w1)
  | (none, w1) =>
    let updatedTags := (oldTags.Updated newTags).IgnoreSystem isProtected
    if 0 < updatedTags.len then
      match conn.TagResource { ResourceArn := identifier, Tags := Tags updatedTags } w1 with
      | (some err, w2) => (some (fmt.Errorf "tagging resource (" "): " identifier err), w2)
      | (none, w2) => (none, w2)
    else (none, w1)

end ivschat

namespace KeyValueTags

/-- Modelled from the spec: `KeyValueTags.IgnoreAWS` (absent from the sources):
the tags whose key does not carry the reserved vendor lead `aws:`. -/
def IgnoreAWS (tags : KeyValueTags) : KeyValueTags :=
  tags.filter (fun e => !(e.1.startsWith "aws:"))

end KeyValueTags

namespace pinpoint

/-- The SDK type `awstypes.TagsModel`. -/
structure TagsModel where
  Tags : GoMap

/-- `Tags` returns pinpoint service tags: the tag set as a `map[string]string`. -/
def Tags (tags : KeyValueTags) : GoMap :=
  tags.Map

/-- `updateTags` updates pinpoint service tags.  `oldTags` and `newTags` are
`tftags.New(ctx, oldTagsMap)` and `tftags.New(ctx, newTagsMap)`; `isProtected`
is the system-key test of `names.Pinpoint`. -/
def updateTags {σ : Type} (conn : Client TagsModel σ) (isProtected : ProtectedKeySet)
    (identifier : String) (oldTags newTags : KeyValueTags) (w : World TagsModel σ) :
    Option GoError × World TagsModel σ :=
  let removedTags := (oldTags.Removed newTags).IgnoreSystem isProtected
  let untagged :=
    if 0 < removedTags.len then
      conn.UntagResource { ResourceArn := identifier, TagKeys := removedTags.Keys } w
    else (none, w)
  match untagged with
  | (some err, w1) => (some (fmt.Errorf "untagging resource (" "): " identifier err), w1)
  | (none, w1) =>
    let updatedTags := (oldTags.Updated newTags).IgnoreSystem isProtected
    if 0 < updatedTags.len then
      match conn.TagResource
          { ResourceArn := identifier, Tags := { Tags := Tags updatedTags.IgnoreAWS } } w1 with
      | (some err, w2) => (some (fmt.Errorf "tagging resource (" "): " identifier err), w2)
      | (none, w2) => (none, w2)
    else (none, w1)

end pinpoint

/-! ### The remote tag store

The Tag API as the spec describes it: `remove` deletes a batch of tags by key,
`update` upserts a batch of tags.  Used to state what a run of `updateTags`
leaves in the remote system. -/

/-- The remote `remove(keys)`: delete each key in turn. -/
def remoteUntag (store : GoMap) (keys : List String) : GoMap :=
  keys.foldl GoMap.delete store

/-- The remote `update(tags)`: upsert each pair in turn. -/
def remoteTag (store : GoMap) (tags : List (String × String)) : GoMap :=
  tags.foldl (fun m e => m.set e.1 e.2) store

/-- Key and value of an ecrpublic `Tag` as the service reads them
(`aws.ToString`: a nil pointer reads as the empty string). -/
def ecrpublic.Tag.toPair (t : ecrpublic.Tag) : String × String :=
  (t.Key.getD "", t.Value.getD "")

/-- An ecrpublic client whose remote state is the resource's tag map and whose
two operations always succeed. -/
def ecrpublic.storeClient : Client (List ecrpublic.Tag) GoMap where
  untag := fun input store => (none, remoteUntag store input.TagKeys)
  tag := fun input store => (none, remoteTag store (input.Tags.map ecrpublic.Tag.toPair))

/-- An ecrpublic client on the remote store whose `UntagResource` succeeds and
whose `TagResource` fails with `err`, leaving the store as it is. -/
def ecrpublic.tagFailingClient (err : GoError) : Client (List ecrpublic.Tag) GoMap where
  untag := fun input store => (none, remoteUntag store input.TagKeys)
  tag := fun _ store => (some err, store)

/-- A client without state that answers every `UntagResource` with
`untagResult` and every `TagResource` with `tagResult`. -/
def fixedClient (τ : Type) (untagResult tagResult : Option GoError) : Client τ Unit where
  untag := fun _ s => (untagResult, s)
  tag := fun _ s => (tagResult, s)

/-- The tag keys a swf request carries (`aws.ToString` of each `Key` for
`TagResource`). -/
def swf.requestKeys : Request (List swf.ResourceTag) → List String
  | Request.UntagResource input => input.TagKeys
  | Request.TagResource input => input.Tags.map (fun t => t.Key.getD "")

/-! ### Reference definition of the delta

The spec's `reconcile`, key by key, in the words of the spec. -/

/-- Reference `toRemove`: the key is in observed, not in desired and not
protected. -/
def specToRemove (observed desired : KeyValueTags) (isProtected : ProtectedKeySet)
    (k : String) : Bool :=
  (observed.lookup k).isSome && (desired.lookup k).isNone && !(isProtected k)

/-- Reference `toUpdate`: `k -> desired[k]` for the keys of desired that are not
protected and whose desired value differs from `observed[k]` or that are absent
from observed. -/
def specToUpdate (observed desired : KeyValueTags) (isProtected : ProtectedKeySet)
    (k : String) : Option String :=
  match desired.lookup k with
  | none => none
  | some v =>
    if isProtected k = false ∧ (observed.lookup k = none ∨ observed.lookup k ≠ some v) then some v
    else none

/-! ### The tag sets of the spec's examples -/

/-- The tag set `{a:1, b:2}`. -/
def tagsAB : KeyValueTags := ⟨[("a", "1"), ("b", "2")], by decide⟩

/-- The tag set `{a:1, c:3}`. -/
def tagsAC : KeyValueTags := ⟨[("a", "1"), ("c", "3")], by decide⟩

/-- The tag set `{b:2, a:1}`: the entries of `tagsAB`, met in the other order. -/
def tagsBA : KeyValueTags := ⟨[("b", "2"), ("a", "1")], by decide⟩

/-- The tag set `{a:1, sys:internal}`. -/
def tagsASys : KeyValueTags := ⟨[("a", "1"), ("sys", "internal")], by decide⟩

/-- The protected-key predicate that protects exactly the key `sys`. -/
def protectSys : ProtectedKeySet := fun k => k == "sys"

/-- The protected-key predicate that protects no key. -/
def protectNone : ProtectedKeySet := fun _ => false

/-! ### Endpoint access: lookup, status query and state waits

The functions of `internal/service/redshiftserverless/endpoint_access.go`.  The
state of the remote service is passed explicitly; a function that can
dereference a nil pointer, or whose loop is bounded by fuel, returns an
`Except Fault`. -/

/-- How a run can end without a result: a nil pointer is dereferenced (the Go
runtime panics), or the bound on the number of poll iterations is used up. -/
inductive Fault where
  | nilDereference
  | outOfFuel
deriving DecidableEq, Repr

namespace time

/-- Go `time.Second`, in nanoseconds. -/
def Second : Nat := 1000000000

/-- Go `time.Minute`. -/
def Minute : Nat := 60 * Second

end time

/-- Whether the error is, or wraps, a `*awstypes.ResourceNotFoundException`. -/
def GoError.isResourceNotFound : GoError → Bool
  | GoError.resourceNotFound _ => true
  | GoError.wrapped _ cause => cause.isResourceNotFound
  | _ => false

/-- Whether the error is, or wraps, a `*retry.NotFoundError`. -/
def GoError.isNotFound : GoError → Bool
  | GoError.notFound _ _ => true
  | GoError.wrapped _ cause => cause.isNotFound
  | _ => false

namespace errs

/-- Modelled from the spec: `errs.IsA[*awstypes.ResourceNotFoundException]`
(package `internal/errs` is not among the sources): whether the error reports
the absence of the target object as a `ResourceNotFoundException`; false for nil. -/
def IsAResourceNotFoundException : Option GoError → Bool
  | none => false
  | some err => err.isResourceNotFound

end errs

namespace tfresource

/-- Modelled from the spec: `tfresource.NotFound` (package `internal/tfresource`
is not among the sources): whether the error is of the spec's `NotFound` class,
the absence of the target object, that is a `retry.NotFoundError`; false for nil. -/
def NotFound : Option GoError → Bool
  | none => false
  | some err => err.isNotFound

/-- Modelled from the spec: `tfresource.NewEmptyResultError` (not among the
sources): the error for a response without a result, for the request by name. -/
def NewEmptyResultError (lastRequest : String) : GoError :=
  GoError.emptyResult lastRequest

end tfresource

namespace redshiftserverless

/-- The SDK type `awstypes.VpcEndpoint` (its identifiers; the network interfaces
are left out). -/
structure VpcEndpoint where
  VpcEndpointId : Option String
  VpcId : Option String
deriving DecidableEq, Repr

/-- The SDK type `awstypes.VpcSecurityGroupMembership`. -/
structure VpcSecurityGroupMembership where
  Status : Option String
  VpcSecurityGroupId : Option String
deriving DecidableEq, Repr

/-- The SDK type `awstypes.EndpointAccess` (the fields the resource reads). -/
structure EndpointAccess where
  Address : Option String
  EndpointArn : Option String
  EndpointName : Option String
  EndpointStatus : Option String
  Port : Option Int
  SubnetIds : List String
  WorkgroupName : Option String
  VpcEndpoint : Option VpcEndpoint := none
  VpcSecurityGroups : List VpcSecurityGroupMembership := []
deriving DecidableEq, Repr

/-- The SDK request struct `GetEndpointAccessInput`. -/
structure GetEndpointAccessInput where
  EndpointName : Option String
deriving DecidableEq, Repr

/-- The SDK response struct `GetEndpointAccessOutput`. -/
structure GetEndpointAccessOutput where
  Endpoint : Option EndpointAccess
deriving DecidableEq, Repr

/-- The SDK request struct `DeleteEndpointAccessInput`. -/
structure DeleteEndpointAccessInput where
  EndpointName : Option String
deriving DecidableEq, Repr

/-- The SDK client `*redshiftserverless.Client`: how the remote service answers
`GetEndpointAccess` (a response pointer and an error) and `DeleteEndpointAccess`
(an error), and its next state. -/
structure Client (σ : Type) where
  GetEndpointAccess : GetEndpointAccessInput → σ →
    (Option GetEndpointAccessOutput × Option GoError) × σ
  DeleteEndpointAccess : DeleteEndpointAccessInput → σ → Option GoError × σ

/-- `findEndpointAccessByName`. -/
def findEndpointAccessByName {σ : Type} (conn : Client σ) (name : String) (s : σ) :
    (Option EndpointAccess × Option GoError) × σ :=
  let input : GetEndpointAccessInput := { EndpointName := some name }
  match conn.GetEndpointAccess input s with
  | ((output, err), s1) =>
    match err with
    | some e =>
      if errs.IsAResourceNotFoundException (some e) then
        ((none, some (GoError.notFound e name)), s1)
      else
        ((none, some e), s1)
    | none =>
      match output with
      | none => ((none, some (tfresource.NewEmptyResultError name)), s1)
      | some out => ((out.Endpoint, none), s1)

/-- A Go `any` as the state wait handles it: the nil interface, a pointer
`*awstypes.EndpointAccess` (which may be a nil pointer), or a value of another
type. -/
inductive AnyValue where
  | nil
  | endpointAccess (output : Option EndpointAccess)
  | other (description : String)
deriving DecidableEq, Repr

/-- `retry.StateRefreshFunc`: one status query, giving the value, the status
string and the error, or a fault. -/
abbrev StateRefreshFunc (σ : Type) :=
  σ → Except Fault (AnyValue × String × Option GoError) × σ

/-- `statusEndpointAccess`.  Reading `output.EndpointStatus` through a nil
`output` is a nil dereference. -/
def statusEndpointAccess {σ : Type} (conn : Client σ) (name : String) : StateRefreshFunc σ :=
  fun s =>
    match findEndpointAccessByName conn name s with
    | ((output, err), s1) =>
      if tfresource.NotFound err then
        (Except.ok (AnyValue.nil, "", none), s1)
      else
        match err with
        | some e => (Except.ok (AnyValue.nil, "", some e), s1)
        | none =>
          match output with
          | none => (Except.error Fault.nilDereference, s1)
          | some endpoint =>
            (Except.ok (AnyValue.endpointAccess (some endpoint),
              endpoint.EndpointStatus.getD "", none), s1)

/-- `retry.StateChangeConf`, with the fields the two waits set. -/
structure StateChangeConf (σ : Type) where
  Pending : List String
  Target : List String
  Refresh : StateRefreshFunc σ
  Timeout : Nat

end redshiftserverless

namespace redshiftserverless

/-- Modelled from the spec: the PollOutcome of a polling session (the state wait
of package `retry` is not among the sources): `Converged(lastObservedValue)`,
`TimedOut(lastObservedStatus)` or `Failed(error)`. -/
inductive PollOutcome where
  | Converged (value : AnyValue)
  | TimedOut (lastStatus : String)
  | Failed (err : GoError)
deriving DecidableEq, Repr

/-- Modelled from the spec: what a PollSpec holds besides `pending`, `target` and
`timeout`, which the code does not set: the backoff policy (the delay before the
next query, by the number of sleeps so far, each delay positive), the errors
classified as transient, and the recognized terminal-failure statuses. -/
structure PollPolicy where
  backoff : Nat → Nat
  backoff_pos : ∀ i, 0 < backoff i
  isTransient : GoError → Bool
  isFailure : String → Bool

/-- The state of a polling session: the remote service, the number of queries
issued, the number of sleeps taken, and the time elapsed since the first query. -/
structure PollWorld (σ : Type) where
  remote : σ
  queries : Nat
  sleeps : Nat
  elapsed : Nat

/-- Modelled from the spec: what one query result means for the session: it ends
with an outcome, or the poller sleeps and queries again. -/
inductive PollDecision where
  | stop (outcome : PollOutcome)
  | again (status : String)
deriving DecidableEq, Repr

/-- Modelled from the spec: section 4.1, one query result at a time.  A
not-found error with delete-oriented semantics (empty target) is success; any
other error is retried when transient and is `Failed(error)` when permanent.  A
status in `target`, or with an empty target a status that is neither pending nor
a failure status, is `Converged(value)`; a recognized failure status (not in
pending or target) is `Failed`; a pending status is retried.  The spec leaves
open a status that is none of these; it is taken as `Failed`, like a failure
status. -/
def classify {σ : Type} (policy : PollPolicy) (conf : StateChangeConf σ)
    (value : AnyValue) (status : String) (err : Option GoError) : PollDecision :=
  match err with
  | some e =>
    if tfresource.NotFound (some e) && conf.Target.isEmpty then
      PollDecision.stop (PollOutcome.Converged AnyValue.nil)
    else if policy.isTransient e then PollDecision.again status
    else PollDecision.stop (PollOutcome.Failed e)
  | none =>
    if conf.Target.contains status
        || (conf.Target.isEmpty && !conf.Pending.contains status && !policy.isFailure status) then
      PollDecision.stop (PollOutcome.Converged value)
    else if policy.isFailure status && !conf.Pending.contains status
        && !conf.Target.contains status then
      PollDecision.stop (PollOutcome.Failed (GoError.unexpectedState status))
    else if conf.Pending.contains status then PollDecision.again status
    else PollDecision.stop (PollOutcome.Failed (GoError.unexpectedState status))

/-- Modelled from the spec: the loop of `await` (section 4.1): query at once; on
a result to retry, return `TimedOut(status)` when the elapsed time has reached
the timeout, else sleep for the current backoff interval and repeat.  `fuel`
bounds the number of queries.  No cancellation is modelled. -/
def awaitLoop {σ : Type} (policy : PollPolicy) (conf : StateChangeConf σ) :
    Nat → PollWorld σ → Except Fault (PollOutcome × PollWorld σ)
  | 0, _ => Except.error Fault.outOfFuel
  | fuel + 1, w =>
    match conf.Refresh w.remote with
    | (Except.error fault, _) => Except.error fault
    | (Except.ok (value, status, err), remote) =>
      match classify policy conf value status err with
      | PollDecision.stop outcome =>
        Except.ok (outcome, { w with remote := remote, queries := w.queries + 1 })
      | PollDecision.again lastStatus =>
        if conf.Timeout ≤ w.elapsed then
          Except.ok (PollOutcome.TimedOut lastStatus,
            { w with remote := remote, queries := w.queries + 1 })
        else
          awaitLoop policy conf fuel
            { remote := remote, queries := w.queries + 1, sleeps := w.sleeps + 1,
              elapsed := w.elapsed + policy.backoff w.sleeps }

/-- Modelled from the spec: a PollOutcome as the pair a Go state wait returns:
the value with a nil error, or a nil value with the timeout error or the failure. -/
def PollOutcome.toGo : PollOutcome → AnyValue × Option GoError
  | PollOutcome.Converged value => (value, none)
  | PollOutcome.TimedOut lastStatus => (AnyValue.nil, some (GoError.timeout lastStatus))
  | PollOutcome.Failed err => (AnyValue.nil, some err)

/-- What a state wait returns: the raw output, the error, and the state the
session ends in. -/
abbrev StateWait (σ : Type) :=
  StateChangeConf σ → σ → Except Fault ((AnyValue × Option GoError) × PollWorld σ)

/-- Modelled from the spec: `StateChangeConf.WaitForStateContext` (package `retry`
is not among the sources) as the spec's `await`: the session starts at elapsed
time zero with the first query; as every delay is positive, `Timeout + 1` queries
are enough. -/
def WaitForStateContext {σ : Type} (policy : PollPolicy) : StateWait σ :=
  fun conf s =>
    match awaitLoop policy conf (conf.Timeout + 1)
        { remote := s, queries := 0, sleeps := 0, elapsed := 0 } with
    | Except.error fault => Except.error fault
    | Except.ok (outcome, w) => Except.ok (outcome.toGo, w)

/-- The `stateConf` of `waitEndpointAccessActive`. -/
def activeStateConf {σ : Type} (conn : Client σ) (name : String) : StateChangeConf σ :=
  { Pending := ["CREATING", "MODIFYING"]
    Target := ["ACTIVE"]
    Refresh := statusEndpointAccess conn name
    Timeout := 10 * time.Minute }

/-- The `stateConf` of `waitEndpointAccessDeleted`. -/
def deletedStateConf {σ : Type} (conn : Client σ) (name : String) : StateChangeConf σ :=
  { Pending := ["DELETING"]
    Target := []
    Refresh := statusEndpointAccess conn name
    Timeout := 10 * time.Minute }

/-- `waitEndpointAccessActive`, over the state wait `wait` that
`stateConf.WaitForStateContext(ctx)` runs. -/
def waitEndpointAccessActive {σ : Type} (wait : StateWait σ) (conn : Client σ) (name : String)
    (s : σ) : Except Fault ((Option EndpointAccess × Option GoError) × PollWorld σ) :=
  match wait (activeStateConf conn name) s with
  | Except.error fault => Except.error fault
  | Except.ok ((outputRaw, err), w) =>
    match outputRaw with
    | AnyValue.endpointAccess output => Except.ok ((output, err), w)
    | _ => Except.ok ((none, err), w)

/-- `waitEndpointAccessDeleted`, over the state wait `wait` that
`stateConf.WaitForStateContext(ctx)` runs. -/
def waitEndpointAccessDeleted {σ : Type} (wait : StateWait σ) (conn : Client σ) (name : String)
    (s : σ) : Except Fault ((Option EndpointAccess × Option GoError) × PollWorld σ) :=
  match wait (deletedStateConf conn name) s with
  | Except.error fault => Except.error fault
  | Except.ok ((outputRaw, err), w) =>
    match outputRaw with
    | AnyValue.endpointAccess output => Except.ok ((output, err), w)
    | _ => Except.ok ((none, err), w)

/-- A client that answers the successive `GetEndpointAccess` calls from a
script; its state is the part of the script not yet used, and once the script
is used up every call fails. -/
def scriptedClient : Client (List (Option GetEndpointAccessOutput × Option GoError)) where
  GetEndpointAccess := fun _ script =>
    match script with
    | [] => ((none, some (GoError.api "no response left")), [])
    | response :: rest => (response, rest)
  DeleteEndpointAccess := fun _ script => (none, script)

/-- The response of `GetEndpointAccess` that carries the endpoint `endpoint`. -/
def found (endpoint : EndpointAccess) : Option GetEndpointAccessOutput × Option GoError :=
  (some { Endpoint := some endpoint }, none)

/-- An endpoint with the given name and status and no other field set. -/
def endpointWith (name status : String) : EndpointAccess :=
  { Address := none, EndpointArn := none, EndpointName := some name,
    EndpointStatus := some status, Port := none, SubnetIds := [], WorkgroupName := none }

/-- A poll policy with the constant delay `delay + 1`, the transient errors
`isTransient` and no recognized failure status. -/
def constantPolicy (delay : Nat) (isTransient : GoError → Bool) : PollPolicy where
  backoff := fun _ => delay + 1
  backoff_pos := fun _ => Nat.succ_pos delay
  isTransient := isTransient
  isFailure := fun _ => false

end redshiftserverless

namespace redshiftserverless

/-- The type assertion `outputRaw.(*awstypes.EndpointAccess)`: the pointer when
the raw output is one, and nil otherwise. -/
def AnyValue.asEndpointAccess : AnyValue → Option EndpointAccess
  | AnyValue.endpointAccess output => output
  | _ => none

/-- The time `n` successive sleeps take under the policy, the first of them
being sleep number `first`. -/
def PollPolicy.elapsedAfter (policy : PollPolicy) : Nat → Nat → Nat
  | _, 0 => 0
  | first, n + 1 => policy.backoff first + policy.elapsedAfter (first + 1) n

/-- A state wait that returns the given raw output and error after one query. -/
def fixedWait {σ : Type} (outputRaw : AnyValue) (err : Option GoError) : StateWait σ :=
  fun _ s => Except.ok ((outputRaw, err), { remote := s, queries := 1, sleeps := 0, elapsed := 0 })

/-- A client without state that answers every `GetEndpointAccess` with
`response` and every `DeleteEndpointAccess` with `deleteResult`. -/
def constantClient (response : Option GetEndpointAccessOutput × Option GoError)
    (deleteResult : Option GoError) : Client Unit where
  GetEndpointAccess := fun _ s => (response, s)
  DeleteEndpointAccess := fun _ s => (deleteResult, s)

end redshiftserverless

namespace redshiftserverless

/-- A poll policy with the constant delay `delay + 1` that takes exactly the
error `GoError.api "throttled"` for transient. -/
def throttlingPolicy (delay : Nat) : PollPolicy :=
  constantPolicy delay (fun e => e == GoError.api "throttled")

/-- A poll policy with the constant delay `delay + 1` that takes no error for
transient and no status for a failure status: the `StateChangeConf` of the two
waits sets `Pending`, `Target`, `Refresh` and `Timeout` and nothing beyond them. -/
def plainPolicy (delay : Nat) : PollPolicy :=
  constantPolicy delay (fun _ => false)

end redshiftserverless

/-! ### Tag data in the context, and the functions that read or write it -/

/-- Modelled from the spec: `tftags.InContext` (package `internal/tags` is not
among the sources): the tag state a context carries through nested calls, the
input tags and the output tags, each of them optional. -/
structure InContext where
  TagsIn : Option KeyValueTags
  TagsOut : Option KeyValueTags

/-- A `context.Context` as the tag functions read it: the tag data it carries,
if any, which is what `tftags.FromContext(ctx)` returns with its `ok`. -/
abbrev Context := Option InContext

/-- Modelled from the spec: `UnwrapOrDefault` of `option.Option[KeyValueTags]`
(package `internal/types/option` is not among the sources): the tag set held,
or the zero value, an empty tag set, when none is held. -/
def UnwrapOrDefault (tags : Option KeyValueTags) : KeyValueTags :=
  tags.getD KeyValueTags.New

namespace ecrpublic

/-- `keyValueTags` creates `tftags.KeyValueTags` from ecrpublic service tags: the
map built by `m[aws.ToString(tag.Key)] = tag.Value` over the list, given to
`tftags.New`.  The values of a tag set are strings, so a nil `Value` reads as
the empty string. -/
def keyValueTags (tags : List Tag) : KeyValueTags :=
  tags.foldl (fun m tag => m.set (tag.Key.getD "") (tag.Value.getD "")) GoMap.empty

/-- `getTagsIn` returns ecrpublic service tags from the context; nil when there
are no input tags. -/
def getTagsIn (ctx : Context) : Option (List Tag) :=
  match ctx with
  | some inContext =>
    if 0 < (Tags (UnwrapOrDefault inContext.TagsIn)).length then
      some (Tags (UnwrapOrDefault inContext.TagsIn))
    else none
  | none => none

/-- The SDK request struct `ListTagsForResourceInput`. -/
structure ListTagsForResourceInput where
  ResourceArn : String
deriving DecidableEq, Repr

/-- The SDK response struct `ListTagsForResourceOutput`. -/
structure ListTagsForResourceOutput where
  Tags : List Tag
deriving DecidableEq, Repr

/-- The operation `ListTagsForResource` of the SDK client: a response pointer,
an error, and the next state of the remote service. -/
abbrev ListTagsForResourceAPI (σ : Type) :=
  ListTagsForResourceInput → σ → (Option ListTagsForResourceOutput × Option GoError) × σ

/-- `listTags` lists ecrpublic service tags.  Reading `output.Tags` through a nil
`output` is a nil dereference. -/
def listTags {σ : Type} (conn : ListTagsForResourceAPI σ) (identifier : String) (s : σ) :
    Except Fault (KeyValueTags × Option GoError) × σ :=
  match conn { ResourceArn := identifier } s with
  | ((output, err), s1) =>
    match err with
    | some e => (Except.ok (KeyValueTags.New, some e), s1)
    | none =>
      match output with
      | none => (Except.error Fault.nilDereference, s1)
      | some out => (Except.ok (keyValueTags out.Tags, none), s1)

/-- `ListTags` lists ecrpublic service tags and sets them in the context; the
result is the error and the context after the call. -/
def ListTags {σ : Type} (conn : ListTagsForResourceAPI σ) (ctx : Context)
    (identifier : String) (s : σ) : Except Fault (Option GoError × Context) × σ :=
  match listTags conn identifier s with
  | (Except.error fault, s1) => (Except.error fault, s1)
  | (Except.ok (tags, err), s1) =>
    match err with
    | some e => (Except.ok (some e, ctx), s1)
    | none =>
      match ctx with
      | some inContext => (Except.ok (none, some { inContext with TagsOut := some tags }), s1)
      | none => (Except.ok (none, none), s1)

end ecrpublic

namespace ivschat

/-- `getTagsIn` returns ivschat service tags from the context; nil when there are
no input tags. -/
def getTagsIn (ctx : Context) : Option GoMap :=
  match ctx with
  | some inContext =>
    if 0 < (Tags (UnwrapOrDefault inContext.TagsIn)).len then
      some (Tags (UnwrapOrDefault inContext.TagsIn))
    else none
  | none => none

end ivschat

namespace lightsail

/-- `keyValueTags` creates `tftags.KeyValueTags` from lightsail service tags: the
map built by `m[aws.ToString(tag.Key)] = tag.Value` over the list, given to
`tftags.New`.  The values of a tag set are strings, so a nil `Value` reads as
the empty string. -/
def keyValueTags (tags : List Tag) : KeyValueTags :=
  tags.foldl (fun m tag => m.set (tag.Key.getD "") (tag.Value.getD "")) GoMap.empty

/-- `createTags` creates lightsail service tags for new resources. -/
def createTags {σ : Type} (conn : Client (List Tag) σ) (isProtected : ProtectedKeySet)
    (identifier : String) (tags : List Tag) (w : World (List Tag) σ) :
    Option GoError × World (List Tag) σ :=
  if tags.length = 0 then (none, w)
  else updateTags conn isProtected identifier KeyValueTags.New (keyValueTags tags) w

end lightsail

/-! ### Endpoint access: the read and delete handlers -/

namespace redshiftserverless

/-- The severity of a diagnostic (`diag.Severity`). -/
inductive Severity where
  | Error
  | Warning
deriving DecidableEq, Repr

/-- One diagnostic (`diag.Diagnostic`): its severity and its summary. -/
structure Diagnostic where
  Severity : Severity
  Summary : String
deriving DecidableEq, Repr

/-- The diagnostics a handler returns (`diag.Diagnostics`). -/
abbrev Diagnostics := List Diagnostic

/-- Modelled from the spec: `sdkdiag.AppendErrorf` (package `internal/errs/sdkdiag`
is not among the sources): the diagnostics with one more error diagnostic, whose
summary is the format string filled in, here given as `summary`; the spec's
"single terminating error per operation, wrapping the underlying cause and the
resource identifier". -/
def AppendErrorf (diags : Diagnostics) (summary : String) : Diagnostics :=
  diags ++ [{ Severity := Severity.Error, Summary := summary }]

/-- The attribute keys of the resource schema; the keys named `Attr...` are
constants of package `names`. -/
inductive AttributeKey where
  | AttrAddress
  | AttrARN
  | endpoint_name
  | owner_account
  | AttrPort
  | AttrSubnetIDs
  | vpc_endpoint
  | AttrVPCSecurityGroupIDs
  | workgroup_name
deriving DecidableEq, Repr

/-- A value given to `d.Set`.  For `vpc_endpoint` the value is the one-element
list of `flattenVPCEndpoint` of the endpoint's `VpcEndpoint`; `flattenVPCEndpoint`
is not among the sources, so the value is kept as that `VpcEndpoint`. -/
inductive AttributeValue where
  | string (value : Option String)
  | int (value : Option Int)
  | strings (values : List String)
  | vpcEndpoint (value : Option VpcEndpoint)
deriving DecidableEq, Repr

/-- The resource data `d *schema.ResourceData` of a handler: the id, whether the
resource is newly created, and the attribute values set, the latest first. -/
structure ResourceData where
  Id : String
  IsNewResource : Bool
  attributes : List (AttributeKey × AttributeValue)
deriving DecidableEq, Repr

namespace ResourceData

/-- `d.SetId(id)`. -/
def SetId (d : ResourceData) (id : String) : ResourceData :=
  { d with Id := id }

/-- `d.Set(key, value)`, for a value the schema accepts. -/
def Set (d : ResourceData) (key : AttributeKey) (value : AttributeValue) : ResourceData :=
  { d with attributes := (key, value) :: d.attributes.filter (fun a => !(a.1 == key)) }

/-- `d.Get(key)` for a string attribute: the value set, or the zero value. -/
def GetString (d : ResourceData) (key : AttributeKey) : Option String :=
  match d.attributes.find? (fun a => a.1 == key) with
  | some (_, AttributeValue.string value) => value
  | _ => some ""

end ResourceData

/-- `resourceEndpointAccessRead`.  `setVPCEndpoint` is the error, if any, of
`d.Set("vpc_endpoint", ...)`.  Reading a field through a nil `endpointAccess` is a
nil dereference. -/
def resourceEndpointAccessRead {σ : Type} (conn : Client σ)
    (setVPCEndpoint : Option VpcEndpoint → Option GoError) (d : ResourceData) (s : σ) :
    Except Fault (Diagnostics × ResourceData) × σ :=
  let diags : Diagnostics := []
  match findEndpointAccessByName conn d.Id s with
  | ((endpointAccess, err), s1) =>
    if !d.IsNewResource && tfresource.NotFound err then
      (Except.ok (diags, d.SetId ""), s1)
    else
      match err with
      | some e =>
        (Except.ok (AppendErrorf diags
          ("reading Redshift Serverless Endpoint Access (" ++ d.Id ++ "): " ++ e.Error), d), s1)
      | none =>
        match endpointAccess with
        | none => (Except.error Fault.nilDereference, s1)
        | some endpoint =>
          let d1 := d.Set AttributeKey.AttrAddress (AttributeValue.string endpoint.Address)
          let d2 := d1.Set AttributeKey.AttrARN (AttributeValue.string endpoint.EndpointArn)
          let d3 := d2.Set AttributeKey.endpoint_name (AttributeValue.string endpoint.EndpointName)
          let d4 := d3.Set AttributeKey.owner_account
            (AttributeValue.string (d3.GetString AttributeKey.owner_account))
          let d5 := d4.Set AttributeKey.AttrPort (AttributeValue.int endpoint.Port)
          let d6 := d5.Set AttributeKey.AttrSubnetIDs (AttributeValue.strings endpoint.SubnetIds)
          match setVPCEndpoint endpoint.VpcEndpoint with
          | some e =>
            (Except.ok (AppendErrorf diags ("setting vpc_endpoint: " ++ e.Error), d6), s1)
          | none =>
            let d7 := d6.Set AttributeKey.vpc_endpoint
              (AttributeValue.vpcEndpoint endpoint.VpcEndpoint)
            let d8 := d7.Set AttributeKey.AttrVPCSecurityGroupIDs
              (AttributeValue.strings
                (endpoint.VpcSecurityGroups.map (fun v => v.VpcSecurityGroupId.getD "")))
            let d9 := d8.Set AttributeKey.workgroup_name
              (AttributeValue.string endpoint.WorkgroupName)
            (Except.ok (diags, d9), s1)

/-- `resourceEndpointAccessDelete`, over the state wait `wait` that
`waitEndpointAccessDeleted` runs. -/
def resourceEndpointAccessDelete {σ : Type} (wait : StateWait σ) (conn : Client σ)
    (d : ResourceData) (s : σ) : Except Fault (Diagnostics × σ) :=
  let diags : Diagnostics := []
  match conn.DeleteEndpointAccess { EndpointName := some d.Id } s with
  | (err, s1) =>
    if errs.IsAResourceNotFoundException err then
      Except.ok (diags, s1)
    else
      match err with
      | some e =>
        Except.ok (AppendErrorf diags
          ("deleting Redshift Serverless Endpoint Access (" ++ d.Id ++ "): " ++ e.Error), s1)
      | none =>
        match waitEndpointAccessDeleted wait conn d.Id s1 with
        | Except.error fault => Except.error fault
        | Except.ok ((_, waitErr), w) =>
          match waitErr with
          | some e =>
            Except.ok (AppendErrorf diags
              ("waiting for Redshift Serverless Endpoint Access (" ++ d.Id ++ ") delete: "
                ++ e.Error), w.remote)
          | none => Except.ok (diags, w.remote)

/-- A state wait that ends in a fault: no handler that returns a result has run it. -/
def faultyWait {σ : Type} : StateWait σ :=
  fun _ _ => Except.error Fault.outOfFuel

/-- The response of `GetEndpointAccess` with an output whose `Endpoint` is nil. -/
def emptyOutput : Option GetEndpointAccessOutput × Option GoError :=
  (some { Endpoint := none }, none)

end redshiftserverless

namespace swf

/-- `keyValueTags` creates `tftags.KeyValueTags` from swf service tags: the map
built by `m[aws.ToString(tag.Key)] = tag.Value` over the list, given to
`tftags.New`.  The values of a tag set are strings, so a nil `Value` reads as
the empty string. -/
def keyValueTags (tags : List ResourceTag) : KeyValueTags :=
  tags.foldl (fun m tag => m.set (tag.Key.getD "") (tag.Value.getD "")) GoMap.empty

end swf

namespace pinpoint

/-- The client of a map-shaped service that answers as the pinpoint client
`conn` does: a `TagResource` request with tag map `tags` is answered as `conn`
answers the request with `TagsModel{Tags: tags}`. -/
def asMapClient {σ : Type} (conn : Client TagsModel σ) : Client GoMap σ where
  untag := conn.untag
  tag := fun input s => conn.tag { ResourceArn := input.ResourceArn, Tags := { Tags := input.Tags } } s

/-- A pinpoint request as a request of a map-shaped service: the tag map of the
`TagsModel` in place of the model. -/
def unwrapRequest : Request TagsModel → Request GoMap
  | Request.UntagResource input => Request.UntagResource input
  | Request.TagResource input =>
    Request.TagResource { ResourceArn := input.ResourceArn, Tags := input.Tags.Tags }

end pinpoint

/-- The protected-key predicate that protects exactly the keys with the reserved
vendor lead `aws:`. -/
def protectAWS : ProtectedKeySet := fun k => k.startsWith "aws:"

/-- The tag set `{a:1, aws:created:x}`. -/
def tagsAAws : KeyValueTags := ⟨[("a", "1"), ("aws:created", "x")], by decide⟩

/-! ### The destroy check of the DMS replication subnet group test -/

namespace dms_test

/-- The primary instance of a resource in the Terraform state
(`terraform.InstanceState`), with its id. -/
structure InstanceState where
  ID : String
deriving DecidableEq, Repr

/-- A resource in the Terraform state (`terraform.ResourceState`): its type (the
field `Type`) and its primary instance. -/
structure ResourceState where
  ResourceType : String
  Primary : InstanceState
deriving DecidableEq, Repr

/-- The resources of the root module, `s.RootModule().Resources`, by name, in the
order in which the `range` of one run visits them. -/
abbrev Resources := List (String × ResourceState)

/-- `testAccCheckReplicationSubnetGroupDestroy`, as the check it returns, over the
resources of the root module.  `find` is the error that
`tfdms.FindReplicationSubnetGroupByID` returns for an id (the finder is not among
the sources).  The error of `fmt.Errorf` without `%w` is a plain error with the
formatted message. -/
def testAccCheckReplicationSubnetGroupDestroy (find : String → Option GoError) :
    Resources → Option GoError
  | [] => none
  | (_, rs) :: rest =>
    if rs.ResourceType != "aws_dms_replication_subnet_group" then
      testAccCheckReplicationSubnetGroupDestroy find rest
    else if tfresource.NotFound (find rs.Primary.ID) then
      testAccCheckReplicationSubnetGroupDestroy find rest
    else
      match find rs.Primary.ID with
      | some err => some err
      | none =>
        some (GoError.api ("DMS Replication Subnet Group " ++ rs.Primary.ID ++ " still exists"))

end dms_test

/-! ## Theorems -/

/-! ### Lookups in Go maps -/

theorem GoMap.find_none_of_not_mem (l : List (String × String)) (k : String)
    (h : k ∉ l.map Prod.fst) : l.find? (fun e => e.1 == k) = none := by
  rw [List.find?_eq_none]
  intro e he hk
  exact h (List.mem_map.mpr ⟨e, he, by simpa using hk⟩)

theorem GoMap.find_filter (p : String × String → Bool) (k : String) :
    ∀ l : List (String × String), (l.map Prod.fst).Nodup →
      ((l.filter p).find? (fun e => e.1 == k)).map Prod.snd
        = ((l.find? (fun e => e.1 == k)).map Prod.snd).filter (fun v => p (k, v))
  | [], _ => by simp
  | e :: t, h => by
    have ht : (t.map Prod.fst).Nodup := (List.nodup_cons.mp h).2
    have hnot : e.1 ∉ t.map Prod.fst := (List.nodup_cons.mp h).1
    have ih := GoMap.find_filter p k t ht
    by_cases hk : e.1 = k
    · subst hk
      have hnone : (t.filter p).find? (fun x => x.1 == e.1) = none := by
        apply GoMap.find_none_of_not_mem
        intro hmem
        obtain ⟨x, hx, hxk⟩ := List.mem_map.mp hmem
        exact hnot (List.mem_map.mpr ⟨x, (List.mem_filter.mp hx).1, hxk⟩)
      by_cases hp : p e = true
      · simp [List.filter_cons, hp, Option.filter]
      · have hp2 : p e = false := by simpa using hp
        simp [List.filter_cons, hp2, hnone, Option.filter]
    · have hb : (e.1 == k) = false := by simpa using hk
      by_cases hp : p e = true
      · simpa [List.filter_cons, hp, List.find?_cons, hb] using ih
      · have hp2 : p e = false := by simpa using hp
        simpa [List.filter_cons, hp2, List.find?_cons, hb] using ih

theorem GoMap.lookup_filter (p : String × String → Bool) (m : GoMap) (k : String) :
    (m.filter p).lookup k = (m.lookup k).filter (fun v => p (k, v)) :=
  GoMap.find_filter p k m.entries m.nodup

theorem GoMap.lookup_eq_none_iff (m : GoMap) (k : String) :
    m.lookup k = none ↔ k ∉ m.entries.map Prod.fst := by
  unfold GoMap.lookup
  rw [Option.map_eq_none', List.find?_eq_none]
  constructor
  · intro h hmem
    obtain ⟨x, hx, hxk⟩ := List.mem_map.mp hmem
    exact h x hx (by simpa using hxk)
  · intro h e he hk
    exact h (List.mem_map.mpr ⟨e, he, by simpa using hk⟩)

theorem GoMap.lookup_of_mem (m : GoMap) (k v : String) (h : (k, v) ∈ m.entries) :
    m.lookup k = some v := by
  obtain ⟨entries, nodup⟩ := m
  unfold GoMap.lookup
  simp only at h ⊢
  induction entries with
  | nil => simp at h
  | cons e t ih =>
    have hnot : e.1 ∉ t.map Prod.fst := (List.nodup_cons.mp nodup).1
    rcases List.mem_cons.mp h with h1 | h1
    · subst h1
      simp
    · have hne : e.1 ≠ k := fun hek =>
        hnot (List.mem_map.mpr ⟨(k, v), h1, hek.symm⟩)
      have hb : (e.1 == k) = false := by simpa using hne
      simpa [List.find?_cons, hb] using ih (List.nodup_cons.mp nodup).2 h1

theorem GoMap.mem_of_lookup (m : GoMap) (k v : String) (h : m.lookup k = some v) :
    (k, v) ∈ m.entries := by
  unfold GoMap.lookup at h
  obtain ⟨e, he, hv⟩ := Option.map_eq_some'.mp h
  have hmem := List.mem_of_find?_eq_some he
  have hk : e.1 = k := by simpa using List.find?_some he
  have : e = (k, v) := Prod.ext hk hv
  exact this ▸ hmem

theorem GoMap.lookup_delete (m : GoMap) (k0 k : String) :
    (m.delete k0).lookup k = if k = k0 then none else m.lookup k := by
  unfold GoMap.delete
  rw [GoMap.lookup_filter]
  by_cases h : k = k0
  · simp [h, Option.filter]
    cases m.lookup k0 <;> simp [Option.filter]
  · simp [h]
    cases m.lookup k <;> simp [Option.filter, h]

theorem GoMap.lookup_set (m : GoMap) (k0 v0 k : String) :
    (m.set k0 v0).lookup k = if k = k0 then some v0 else m.lookup k := by
  by_cases h : k = k0
  · subst h
    simp [GoMap.set, GoMap.lookup]
  · have hb : (k0 == k) = false := by simpa using fun h2 : k0 = k => h h2.symm
    have := GoMap.lookup_delete m k0 k
    simp only [h, if_false] at this
    simp only [h, if_false, ← this]
    simp [GoMap.set, GoMap.lookup, List.find?_cons, hb]

theorem lookup_remoteUntag (keys : List String) :
    ∀ (store : GoMap) (k : String),
      (remoteUntag store keys).lookup k = if k ∈ keys then none else store.lookup k := by
  induction keys with
  | nil => intro store k; simp [remoteUntag]
  | cons k0 t ih =>
    intro store k
    have h := ih (store.delete k0) k
    unfold remoteUntag at h ⊢
    rw [List.foldl_cons, h, GoMap.lookup_delete]
    by_cases h1 : k = k0
    · simp [h1]
    · by_cases h2 : k ∈ t <;> simp [h1, h2]

theorem lookup_remoteTag_of_mem (tags : List (String × String)) :
    ∀ (store : GoMap) (k v : String), (tags.map Prod.fst).Nodup → (k, v) ∈ tags →
      (remoteTag store tags).lookup k = some v := by
  induction tags with
  | nil => intro store k v _ h; simp at h
  | cons e t ih =>
    intro store k v hnd h
    have hnot : e.1 ∉ t.map Prod.fst := (List.nodup_cons.mp hnd).1
    have htl : (t.map Prod.fst).Nodup := (List.nodup_cons.mp hnd).2
    rcases List.mem_cons.mp h with h1 | h1
    · subst h1
      have hfix : ∀ (l : List (String × String)) (s : GoMap), k ∉ l.map Prod.fst →
          (remoteTag s l).lookup k = s.lookup k := by
        intro l
        induction l with
        | nil => intro s _; simp [remoteTag]
        | cons x l ihl =>
          intro s hx
          have hxk : k ≠ x.1 := fun hkx => hx (by simp [hkx])
          have hl : k ∉ l.map Prod.fst := fun hm => hx (by simp at hm ⊢; exact Or.inr hm)
          have := ihl (s.set x.1 x.2) hl
          unfold remoteTag at this ⊢
          rw [List.foldl_cons, this, GoMap.lookup_set]
          simp [hxk]
      have := hfix t (store.set k v) hnot
      unfold remoteTag at this ⊢
      rw [List.foldl_cons, this, GoMap.lookup_set]
      simp
    · have := ih (store.set e.1 e.2) k v htl h1
      unfold remoteTag at this ⊢
      rw [List.foldl_cons, this]

theorem lookup_remoteTag_of_not_mem (tags : List (String × String)) :
    ∀ (store : GoMap) (k : String), k ∉ tags.map Prod.fst →
      (remoteTag store tags).lookup k = store.lookup k := by
  induction tags with
  | nil => intro s k _; simp [remoteTag]
  | cons x l ihl =>
    intro s k hx
    have hxk : k ≠ x.1 := fun hkx => hx (by simp [hkx])
    have hl : k ∉ l.map Prod.fst := fun hm => hx (by simp at hm ⊢; exact Or.inr hm)
    have := ihl (s.set x.1 x.2) k hl
    unfold remoteTag at this ⊢
    rw [List.foldl_cons, this, GoMap.lookup_set]
    simp [hxk]

/-! ### The delta of `updateTags`, key by key -/

theorem lookup_removedTags (isProtected : ProtectedKeySet) (oldTags newTags : KeyValueTags)
    (k : String) :
    ((oldTags.Removed newTags).IgnoreSystem isProtected).lookup k
      = if isProtected k = false ∧ newTags.lookup k = none then oldTags.lookup k else none := by
  unfold KeyValueTags.IgnoreSystem KeyValueTags.Removed
  rw [GoMap.lookup_filter, GoMap.lookup_filter]
  cases ho : GoMap.lookup oldTags k <;> cases hn : GoMap.lookup newTags k <;>
    cases hp : isProtected k <;> simp [Option.filter, hn, hp]

theorem lookup_updatedTags (isProtected : ProtectedKeySet) (oldTags newTags : KeyValueTags)
    (k : String) :
    ((oldTags.Updated newTags).IgnoreSystem isProtected).lookup k
      = if isProtected k = false ∧ oldTags.lookup k ≠ newTags.lookup k
          then newTags.lookup k else none := by
  unfold KeyValueTags.IgnoreSystem KeyValueTags.Updated
  rw [GoMap.lookup_filter, GoMap.lookup_filter]
  cases ho : GoMap.lookup oldTags k <;> cases hn : GoMap.lookup newTags k <;>
    cases hp : isProtected k <;> simp [Option.filter, ho, hp] <;> split_ifs <;> rfl

theorem mem_keys_iff_lookup (m : GoMap) (k : String) :
    k ∈ KeyValueTags.Keys m ↔ m.lookup k ≠ none := by
  unfold KeyValueTags.Keys
  rw [Ne, GoMap.lookup_eq_none_iff, not_not]

theorem lookup_remoteTag (tags store : GoMap) (k : String) :
    (remoteTag store tags.entries).lookup k
      = match tags.lookup k with
        | some v => some v
        | none => store.lookup k := by
  cases h : tags.lookup k with
  | some v =>
    exact lookup_remoteTag_of_mem tags.entries store k v tags.nodup (GoMap.mem_of_lookup tags k v h)
  | none =>
    exact lookup_remoteTag_of_not_mem tags.entries store k ((GoMap.lookup_eq_none_iff tags k).mp h)

theorem lookup_applied_delta (isProtected : ProtectedKeySet) (observed desired : KeyValueTags)
    (k : String) :
    (remoteTag
        (remoteUntag observed ((observed.Removed desired).IgnoreSystem isProtected).Keys)
        ((observed.Updated desired).IgnoreSystem isProtected).entries).lookup k
      = if isProtected k then observed.lookup k else desired.lookup k := by
  rw [lookup_remoteTag, lookup_remoteUntag, lookup_updatedTags]
  simp only [mem_keys_iff_lookup, lookup_removedTags]
  cases ho : GoMap.lookup observed k <;> cases hn : GoMap.lookup desired k <;>
    cases hp : isProtected k <;> simp
  rename_i a b
  by_cases hab : a = b <;> simp [hab]

theorem ecrpublic_toPair_Tags (tags : KeyValueTags) :
    (ecrpublic.Tags tags).map ecrpublic.Tag.toPair = tags.entries := by
  unfold ecrpublic.Tags KeyValueTags.Map
  rw [List.map_map]
  induction tags.entries with
  | nil => rfl
  | cons e t ih => rw [List.map_cons, ih]; rfl

theorem ecrpublic_store_run (isProtected : ProtectedKeySet) (identifier : String)
    (oldTags newTags : KeyValueTags) (w : World (List ecrpublic.Tag) GoMap) :
    (ecrpublic.updateTags ecrpublic.storeClient isProtected identifier oldTags newTags w).1 = none
    ∧ (ecrpublic.updateTags ecrpublic.storeClient isProtected identifier oldTags newTags w).2.remote
        = remoteTag
            (remoteUntag w.remote ((oldTags.Removed newTags).IgnoreSystem isProtected).Keys)
            ((oldTags.Updated newTags).IgnoreSystem isProtected).entries := by
  have hR : ¬ 0 < ((oldTags.Removed newTags).IgnoreSystem isProtected).len →
      ((oldTags.Removed newTags).IgnoreSystem isProtected).Keys = [] := by
    intro h
    simp [GoMap.len, KeyValueTags.Keys] at h ⊢
    exact h
  have hU : ¬ 0 < ((oldTags.Updated newTags).IgnoreSystem isProtected).len →
      ((oldTags.Updated newTags).IgnoreSystem isProtected).entries = [] := by
    intro h
    simpa [GoMap.len] using h
  unfold ecrpublic.updateTags
  by_cases h1 : 0 < ((oldTags.Removed newTags).IgnoreSystem isProtected).len <;>
    by_cases h2 : 0 < ((oldTags.Updated newTags).IgnoreSystem isProtected).len
  · simp [h1, h2, Client.UntagResource, Client.TagResource, ecrpublic.storeClient,
      ecrpublic_toPair_Tags]
  · simp [h1, h2, Client.UntagResource, Client.TagResource, ecrpublic.storeClient, hU h2,
      remoteTag]
  · simp [h1, h2, Client.UntagResource, Client.TagResource, ecrpublic.storeClient, hR h1,
      remoteUntag, ecrpublic_toPair_Tags]
  · simp [h1, h2, Client.UntagResource, Client.TagResource, ecrpublic.storeClient, hR h1, hU h2,
      remoteUntag, remoteTag]

/-- C1: the delta of `updateTags` (removed = `old.Removed(new)` without system keys,
updated = `old.Updated(new)` without system keys), applied to the observed map by
deleting the removed keys and then upserting the updated pairs, gives a map that
agrees with the desired map on every non-protected key and with the observed map
on every protected key; a run of ecrpublic `updateTags` against a remote store
holding the observed map succeeds and leaves exactly such a map. -/
theorem updateTags_reaches_desired (isProtected : ProtectedKeySet) (identifier : String)
    (observed desired : KeyValueTags) :
    (∀ k : String,
      (remoteTag
          (remoteUntag observed ((observed.Removed desired).IgnoreSystem isProtected).Keys)
          ((observed.Updated desired).IgnoreSystem isProtected).entries).lookup k
        = if isProtected k then observed.lookup k else desired.lookup k)
    ∧ (ecrpublic.updateTags ecrpublic.storeClient isProtected identifier observed desired
          ⟨observed, []⟩).1 = none
    ∧ ∀ k : String,
      (ecrpublic.updateTags ecrpublic.storeClient isProtected identifier observed desired
          ⟨observed, []⟩).2.remote.lookup k
        = if isProtected k then observed.lookup k else desired.lookup k := by
  refine ⟨lookup_applied_delta isProtected observed desired, ?_, ?_⟩
  · exact (ecrpublic_store_run isProtected identifier observed desired ⟨observed, []⟩).1
  · intro k
    rw [(ecrpublic_store_run isProtected identifier observed desired ⟨observed, []⟩).2]
    exact lookup_applied_delta isProtected observed desired k

/-! ### Runs of `updateTags` against an arbitrary client -/

theorem ecrpublic_requests {σ : Type} (conn : Client (List ecrpublic.Tag) σ)
    (isProtected : ProtectedKeySet) (identifier : String) (oldTags newTags : KeyValueTags)
    (w : World (List ecrpublic.Tag) σ) :
    (ecrpublic.updateTags conn isProtected identifier oldTags newTags w).2.requests
      = w.requests
        ++ (if 0 < ((oldTags.Removed newTags).IgnoreSystem isProtected).len then
              [Request.UntagResource
                { ResourceArn := identifier, TagKeys := ((oldTags.Removed newTags).IgnoreSystem isProtected).Keys }]
            else [])
        ++ (if 0 < ((oldTags.Removed newTags).IgnoreSystem isProtected).len
                ∧ (conn.untag
                    { ResourceArn := identifier, TagKeys := ((oldTags.Removed newTags).IgnoreSystem isProtected).Keys }
                    w.remote).1 ≠ none then []
            else if 0 < ((oldTags.Updated newTags).IgnoreSystem isProtected).len then
              [Request.TagResource
                { ResourceArn := identifier,
                  Tags := ecrpublic.Tags ((oldTags.Updated newTags).IgnoreSystem isProtected) }]
            else []) := by
  unfold ecrpublic.updateTags
  by_cases h1 : 0 < ((oldTags.Removed newTags).IgnoreSystem isProtected).len <;>
    by_cases h2 : 0 < ((oldTags.Updated newTags).IgnoreSystem isProtected).len <;>
    simp only [h1, h2, if_true, if_false, Client.UntagResource, Client.TagResource] <;>
    (try cases hu : (conn.untag
        { ResourceArn := identifier, TagKeys := ((oldTags.Removed newTags).IgnoreSystem isProtected).Keys }
        w.remote).1) <;>
    simp <;>
    (try split) <;> simp_all <;>
    (rename_i heq; obtain ⟨_, rfl⟩ := heq; rfl)

theorem ecrpublic_error {σ : Type} (conn : Client (List ecrpublic.Tag) σ)
    (isProtected : ProtectedKeySet) (identifier : String) (oldTags newTags : KeyValueTags)
    (w : World (List ecrpublic.Tag) σ) :
    (ecrpublic.updateTags conn isProtected identifier oldTags newTags w).1
      = match (if 0 < ((oldTags.Removed newTags).IgnoreSystem isProtected).len then
                (conn.untag
                  { ResourceArn := identifier, TagKeys := ((oldTags.Removed newTags).IgnoreSystem isProtected).Keys }
                  w.remote).1
              else none) with
        | some err => some (fmt.Errorf "untagging resource (" "): " identifier err)
        | none =>
          if 0 < ((oldTags.Updated newTags).IgnoreSystem isProtected).len then
            ((conn.tag
                { ResourceArn := identifier,
                  Tags := ecrpublic.Tags ((oldTags.Updated newTags).IgnoreSystem isProtected) }
                (if 0 < ((oldTags.Removed newTags).IgnoreSystem isProtected).len then
                  (conn.untag
                    { ResourceArn := identifier, TagKeys := ((oldTags.Removed newTags).IgnoreSystem isProtected).Keys }
                    w.remote).2
                else w.remote)).1).map
              (fmt.Errorf "tagging resource (" "): " identifier)
          else none := by
  unfold ecrpublic.updateTags
  by_cases h1 : 0 < ((oldTags.Removed newTags).IgnoreSystem isProtected).len <;>
    by_cases h2 : 0 < ((oldTags.Updated newTags).IgnoreSystem isProtected).len <;>
    simp only [h1, h2, if_true, if_false, Client.UntagResource, Client.TagResource] <;>
    (try cases hu : (conn.untag
        { ResourceArn := identifier, TagKeys := ((oldTags.Removed newTags).IgnoreSystem isProtected).Keys }
        w.remote).1) <;>
    (try simp) <;>
    (try split) <;> (try simp_all)

theorem swf_requests {σ : Type} (conn : Client (List swf.ResourceTag) σ)
    (isProtected : ProtectedKeySet) (identifier : String) (oldTags newTags : KeyValueTags)
    (w : World (List swf.ResourceTag) σ) :
    (swf.updateTags conn isProtected identifier oldTags newTags w).2.requests
      = w.requests
        ++ (if 0 < ((oldTags.Removed newTags).IgnoreSystem isProtected).len then
              [Request.UntagResource
                { ResourceArn := identifier, TagKeys := ((oldTags.Removed newTags).IgnoreSystem isProtected).Keys }]
            else [])
        ++ (if 0 < ((oldTags.Removed newTags).IgnoreSystem isProtected).len
                ∧ (conn.untag
                    { ResourceArn := identifier, TagKeys := ((oldTags.Removed newTags).IgnoreSystem isProtected).Keys }
                    w.remote).1 ≠ none then []
            else if 0 < ((oldTags.Updated newTags).IgnoreSystem isProtected).len then
              [Request.TagResource
                { ResourceArn := identifier,
                  Tags := swf.Tags ((oldTags.Updated newTags).IgnoreSystem isProtected) }]
            else []) := by
  unfold swf.updateTags
  by_cases h1 : 0 < ((oldTags.Removed newTags).IgnoreSystem isProtected).len <;>
    by_cases h2 : 0 < ((oldTags.Updated newTags).IgnoreSystem isProtected).len <;>
    simp only [h1, h2, if_true, if_false, Client.UntagResource, Client.TagResource] <;>
    (try cases hu : (conn.untag
        { ResourceArn := identifier, TagKeys := ((oldTags.Removed newTags).IgnoreSystem isProtected).Keys }
        w.remote).1) <;>
    simp <;>
    (try split) <;> simp_all <;>
    (rename_i heq; obtain ⟨_, rfl⟩ := heq; rfl)

theorem swf_error {σ : Type} (conn : Client (List swf.ResourceTag) σ)
    (isProtected : ProtectedKeySet) (identifier : String) (oldTags newTags : KeyValueTags)
    (w : World (List swf.ResourceTag) σ) :
    (swf.updateTags conn isProtected identifier oldTags newTags w).1
      = match (if 0 < ((oldTags.Removed newTags).IgnoreSystem isProtected).len then
                (conn.untag
                  { ResourceArn := identifier, TagKeys := ((oldTags.Removed newTags).IgnoreSystem isProtected).Keys }
                  w.remote).1
              else none) with
        | some err => some (fmt.Errorf "untagging resource (" "): " identifier err)
        | none =>
          if 0 < ((oldTags.Updated newTags).IgnoreSystem isProtected).len then
            ((conn.tag
                { ResourceArn := identifier,
                  Tags := swf.Tags ((oldTags.Updated newTags).IgnoreSystem isProtected) }
                (if 0 < ((oldTags.Removed newTags).IgnoreSystem isProtected).len then
                  (conn.untag
                    { ResourceArn := identifier, TagKeys := ((oldTags.Removed newTags).IgnoreSystem isProtected).Keys }
                    w.remote).2
                else w.remote)).1).map
              (fmt.Errorf "tagging resource (" "): " identifier)
          else none := by
  unfold swf.updateTags
  by_cases h1 : 0 < ((oldTags.Removed newTags).IgnoreSystem isProtected).len <;>
    by_cases h2 : 0 < ((oldTags.Updated newTags).IgnoreSystem isProtected).len <;>
    simp only [h1, h2, if_true, if_false, Client.UntagResource, Client.TagResource] <;>
    (try cases hu : (conn.untag
        { ResourceArn := identifier, TagKeys := ((oldTags.Removed newTags).IgnoreSystem isProtected).Keys }
        w.remote).1) <;>
    (try simp) <;>
    (try split) <;> (try simp_all)

theorem lightsail_requests {σ : Type} (conn : Client (List lightsail.Tag) σ)
    (isProtected : ProtectedKeySet) (identifier : String) (oldTags newTags : KeyValueTags)
    (w : World (List lightsail.Tag) σ) :
    (lightsail.updateTags conn isProtected identifier oldTags newTags w).2.requests
      = w.requests
        ++ (if 0 < ((oldTags.Removed newTags).IgnoreSystem isProtected).len then
              [Request.UntagResource
                { ResourceArn := identifier, TagKeys := ((oldTags.Removed newTags).IgnoreSystem isProtected).Keys }]
            else [])
        ++ (if 0 < ((oldTags.Removed newTags).IgnoreSystem isProtected).len
                ∧ (conn.untag
                    { ResourceArn := identifier, TagKeys := ((oldTags.Removed newTags).IgnoreSystem isProtected).Keys }
                    w.remote).1 ≠ none then []
            else if 0 < ((oldTags.Updated newTags).IgnoreSystem isProtected).len then
              [Request.TagResource
                { ResourceArn := identifier,
                  Tags := lightsail.Tags ((oldTags.Updated newTags).IgnoreSystem isProtected) }]
            else []) := by
  unfold lightsail.updateTags
  by_cases h1 : 0 < ((oldTags.Removed newTags).IgnoreSystem isProtected).len <;>
    by_cases h2 : 0 < ((oldTags.Updated newTags).IgnoreSystem isProtected).len <;>
    simp only [h1, h2, if_true, if_false, Client.UntagResource, Client.TagResource] <;>
    (try cases hu : (conn.untag
        { ResourceArn := identifier, TagKeys := ((oldTags.Removed newTags).IgnoreSystem isProtected).Keys }
        w.remote).1) <;>
    simp <;>
    (try split) <;> simp_all <;>
    (rename_i heq; obtain ⟨_, rfl⟩ := heq; rfl)

theorem lightsail_error {σ : Type} (conn : Client (List lightsail.Tag) σ)
    (isProtected : ProtectedKeySet) (identifier : String) (oldTags newTags : KeyValueTags)
    (w : World (List lightsail.Tag) σ) :
    (lightsail.updateTags conn isProtected identifier oldTags newTags w).1
      = match (if 0 < ((oldTags.Removed newTags).IgnoreSystem isProtected).len then
                (conn.untag
                  { ResourceArn := identifier, TagKeys := ((oldTags.Removed newTags).IgnoreSystem isProtected).Keys }
                  w.remote).1
              else none) with
        | some err => some (fmt.Errorf "untagging resource (" "): " identifier err)
        | none =>
          if 0 < ((oldTags.Updated newTags).IgnoreSystem isProtected).len then
            ((conn.tag
                { ResourceArn := identifier,
                  Tags := lightsail.Tags ((oldTags.Updated newTags).IgnoreSystem isProtected) }
                (if 0 < ((oldTags.Removed newTags).IgnoreSystem isProtected).len then
                  (conn.untag
                    { ResourceArn := identifier, TagKeys := ((oldTags.Removed newTags).IgnoreSystem isProtected).Keys }
                    w.remote).2
                else w.remote)).1).map
              (fmt.Errorf "tagging resource (" "): " identifier)
          else none := by
  unfold lightsail.updateTags
  by_cases h1 : 0 < ((oldTags.Removed newTags).IgnoreSystem isProtected).len <;>
    by_cases h2 : 0 < ((oldTags.Updated newTags).IgnoreSystem isProtected).len <;>
    simp only [h1, h2, if_true, if_false, Client.UntagResource, Client.TagResource] <;>
    (try cases hu : (conn.untag
        { ResourceArn := identifier, TagKeys := ((oldTags.Removed newTags).IgnoreSystem isProtected).Keys }
        w.remote).1) <;>
    (try simp) <;>
    (try split) <;> (try simp_all)

theorem lambda_requests {σ : Type} (conn : Client (GoMap) σ)
    (isProtected : ProtectedKeySet) (identifier : String) (oldTags newTags : KeyValueTags)
    (w : World (GoMap) σ) :
    (lambda.updateTags conn isProtected identifier oldTags newTags w).2.requests
      = w.requests
        ++ (if 0 < ((oldTags.Removed newTags).IgnoreSystem isProtected).len then
              [Request.UntagResource
                { ResourceArn := identifier, TagKeys := ((oldTags.Removed newTags).IgnoreSystem isProtected).Keys }]
            else [])
        ++ (if 0 < ((oldTags.Removed newTags).IgnoreSystem isProtected).len
                ∧ (conn.untag
                    { ResourceArn := identifier, TagKeys := ((oldTags.Removed newTags).IgnoreSystem isProtected).Keys }
                    w.remote).1 ≠ none then []
            else if 0 < ((oldTags.Updated newTags).IgnoreSystem isProtected).len then
              [Request.TagResource
                { ResourceArn := identifier,
                  Tags := lambda.Tags ((oldTags.Updated newTags).IgnoreSystem isProtected) }]
            else []) := by
  unfold lambda.updateTags
  by_cases h1 : 0 < ((oldTags.Removed newTags).IgnoreSystem isProtected).len <;>
    by_cases h2 : 0 < ((oldTags.Updated newTags).IgnoreSystem isProtected).len <;>
    simp only [h1, h2, if_true, if_false, Client.UntagResource, Client.TagResource] <;>
    (try cases hu : (conn.untag
        { ResourceArn := identifier, TagKeys := ((oldTags.Removed newTags).IgnoreSystem isProtected).Keys }
        w.remote).1) <;>
    simp <;>
    (try split) <;> simp_all <;>
    (rename_i heq; obtain ⟨_, rfl⟩ := heq; rfl)

theorem lambda_error {σ : Type} (conn : Client (GoMap) σ)
    (isProtected : ProtectedKeySet) (identifier : String) (oldTags newTags : KeyValueTags)
    (w : World (GoMap) σ) :
    (lambda.updateTags conn isProtected identifier oldTags newTags w).1
      = match (if 0 < ((oldTags.Removed newTags).IgnoreSystem isProtected).len then
                (conn.untag
                  { ResourceArn := identifier, TagKeys := ((oldTags.Removed newTags).IgnoreSystem isProtected).Keys }
                  w.remote).1
              else none) with
        | some err => some (fmt.Errorf "untagging resource (" "): " identifier err)
        | none =>
          if 0 < ((oldTags.Updated newTags).IgnoreSystem isProtected).len then
            ((conn.tag
                { ResourceArn := identifier,
                  Tags := lambda.Tags ((oldTags.Updated newTags).IgnoreSystem isProtected) }
                (if 0 < ((oldTags.Removed newTags).IgnoreSystem isProtected).len then
                  (conn.untag
                    { ResourceArn := identifier, TagKeys := ((oldTags.Removed newTags).IgnoreSystem isProtected).Keys }
                    w.remote).2
                else w.remote)).1).map
              (fmt.Errorf "tagging resource (" "): " identifier)
          else none := by
  unfold lambda.updateTags
  by_cases h1 : 0 < ((oldTags.Removed newTags).IgnoreSystem isProtected).len <;>
    by_cases h2 : 0 < ((oldTags.Updated newTags).IgnoreSystem isProtected).len <;>
    simp only [h1, h2, if_true, if_false, Client.UntagResource, Client.TagResource] <;>
    (try cases hu : (conn.untag
        { ResourceArn := identifier, TagKeys := ((oldTags.Removed newTags).IgnoreSystem isProtected).Keys }
        w.remote).1) <;>
    (try simp) <;>
    (try split) <;> (try simp_all)

theorem ivschat_requests {σ : Type} (conn : Client (GoMap) σ)
    (isProtected : ProtectedKeySet) (identifier : String) (oldTags newTags : KeyValueTags)
    (w : World (GoMap) σ) :
    (ivschat.updateTags conn isProtected identifier oldTags newTags w).2.requests
      = w.requests
        ++ (if 0 < ((oldTags.Removed newTags).IgnoreSystem isProtected).len then
              [Request.UntagResource
                { ResourceArn := identifier, TagKeys := ((oldTags.Removed newTags).IgnoreSystem isProtected).Keys }]
            else [])
        ++ (if 0 < ((oldTags.Removed newTags).IgnoreSystem isProtected).len
                ∧ (conn.untag
                    { ResourceArn := identifier, TagKeys := ((oldTags.Removed newTags).IgnoreSystem isProtected).Keys }
                    w.remote).1 ≠ none then []
            else if 0 < ((oldTags.Updated newTags).IgnoreSystem isProtected).len then
              [Request.TagResource
                { ResourceArn := identifier,
                  Tags := ivschat.Tags ((oldTags.Updated newTags).IgnoreSystem isProtected) }]
            else []) := by
  unfold ivschat.updateTags
  by_cases h1 : 0 < ((oldTags.Removed newTags).IgnoreSystem isProtected).len <;>
    by_cases h2 : 0 < ((oldTags.Updated newTags).IgnoreSystem isProtected).len <;>
    simp only [h1, h2, if_true, if_false, Client.UntagResource, Client.TagResource] <;>
    (try cases hu : (conn.untag
        { ResourceArn := identifier, TagKeys := ((oldTags.Removed newTags).IgnoreSystem isProtected).Keys }
        w.remote).1) <;>
    simp <;>
    (try split) <;> simp_all <;>
    (rename_i heq; obtain ⟨_, rfl⟩ := heq; rfl)

theorem ivschat_error {σ : Type} (conn : Client (GoMap) σ)
    (isProtected : ProtectedKeySet) (identifier : String) (oldTags newTags : KeyValueTags)
    (w : World (GoMap) σ) :
    (ivschat.updateTags conn isProtected identifier oldTags newTags w).1
      = match (if 0 < ((oldTags.Removed newTags).IgnoreSystem isProtected).len then
                (conn.untag
                  { ResourceArn := identifier, TagKeys := ((oldTags.Removed newTags).IgnoreSystem isProtected).Keys }
                  w.remote).1
              else none) with
        | some err => some (fmt.Errorf "untagging resource (" "): " identifier err)
        | none =>
          if 0 < ((oldTags.Updated newTags).IgnoreSystem isProtected).len then
            ((conn.tag
                { ResourceArn := identifier,
                  Tags := ivschat.Tags ((oldTags.Updated newTags).IgnoreSystem isProtected) }
                (if 0 < ((oldTags.Removed newTags).IgnoreSystem isProtected).len then
                  (conn.untag
                    { ResourceArn := identifier, TagKeys := ((oldTags.Removed newTags).IgnoreSystem isProtected).Keys }
                    w.remote).2
                else w.remote)).1).map
              (fmt.Errorf "tagging resource (" "): " identifier)
          else none := by
  unfold ivschat.updateTags
  by_cases h1 : 0 < ((oldTags.Removed newTags).IgnoreSystem isProtected).len <;>
    by_cases h2 : 0 < ((oldTags.Updated newTags).IgnoreSystem isProtected).len <;>
    simp only [h1, h2, if_true, if_false, Client.UntagResource, Client.TagResource] <;>
    (try cases hu : (conn.untag
        { ResourceArn := identifier, TagKeys := ((oldTags.Removed newTags).IgnoreSystem isProtected).Keys }
        w.remote).1) <;>
    (try simp) <;>
    (try split) <;> (try simp_all)

theorem pinpoint_requests {σ : Type} (conn : Client (pinpoint.TagsModel) σ)
    (isProtected : ProtectedKeySet) (identifier : String) (oldTags newTags : KeyValueTags)
    (w : World (pinpoint.TagsModel) σ) :
    (pinpoint.updateTags conn isProtected identifier oldTags newTags w).2.requests
      = w.requests
        ++ (if 0 < ((oldTags.Removed newTags).IgnoreSystem isProtected).len then
              [Request.UntagResource
                { ResourceArn := identifier, TagKeys := ((oldTags.Removed newTags).IgnoreSystem isProtected).Keys }]
            else [])
        ++ (if 0 < ((oldTags.Removed newTags).IgnoreSystem isProtected).len
                ∧ (conn.untag
                    { ResourceArn := identifier, TagKeys := ((oldTags.Removed newTags).IgnoreSystem isProtected).Keys }
                    w.remote).1 ≠ none then []
            else if 0 < ((oldTags.Updated newTags).IgnoreSystem isProtected).len then
              [Request.TagResource
                { ResourceArn := identifier,
                  Tags := { Tags := pinpoint.Tags ((oldTags.Updated newTags).IgnoreSystem isProtected).IgnoreAWS } }]
            else []) := by
  unfold pinpoint.updateTags
  by_cases h1 : 0 < ((oldTags.Removed newTags).IgnoreSystem isProtected).len <;>
    by_cases h2 : 0 < ((oldTags.Updated newTags).IgnoreSystem isProtected).len <;>
    simp only [h1, h2, if_true, if_false, Client.UntagResource, Client.TagResource] <;>
    (try cases hu : (conn.untag
        { ResourceArn := identifier, TagKeys := ((oldTags.Removed newTags).IgnoreSystem isProtected).Keys }
        w.remote).1) <;>
    simp <;>
    (try split) <;> simp_all <;>
    (rename_i heq; obtain ⟨_, rfl⟩ := heq; rfl)

theorem pinpoint_error {σ : Type} (conn : Client (pinpoint.TagsModel) σ)
    (isProtected : ProtectedKeySet) (identifier : String) (oldTags newTags : KeyValueTags)
    (w : World (pinpoint.TagsModel) σ) :
    (pinpoint.updateTags conn isProtected identifier oldTags newTags w).1
      = match (if 0 < ((oldTags.Removed newTags).IgnoreSystem isProtected).len then
                (conn.untag
                  { ResourceArn := identifier, TagKeys := ((oldTags.Removed newTags).IgnoreSystem isProtected).Keys }
                  w.remote).1
              else none) with
        | some err => some (fmt.Errorf "untagging resource (" "): " identifier err)
        | none =>
          if 0 < ((oldTags.Updated newTags).IgnoreSystem isProtected).len then
            ((conn.tag
                { ResourceArn := identifier,
                  Tags := { Tags := pinpoint.Tags ((oldTags.Updated newTags).IgnoreSystem isProtected).IgnoreAWS } }
                (if 0 < ((oldTags.Removed newTags).IgnoreSystem isProtected).len then
                  (conn.untag
                    { ResourceArn := identifier, TagKeys := ((oldTags.Removed newTags).IgnoreSystem isProtected).Keys }
                    w.remote).2
                else w.remote)).1).map
              (fmt.Errorf "tagging resource (" "): " identifier)
          else none := by
  unfold pinpoint.updateTags
  by_cases h1 : 0 < ((oldTags.Removed newTags).IgnoreSystem isProtected).len <;>
    by_cases h2 : 0 < ((oldTags.Updated newTags).IgnoreSystem isProtected).len <;>
    simp only [h1, h2, if_true, if_false, Client.UntagResource, Client.TagResource] <;>
    (try cases hu : (conn.untag
        { ResourceArn := identifier, TagKeys := ((oldTags.Removed newTags).IgnoreSystem isProtected).Keys }
        w.remote).1) <;>
    (try simp) <;>
    (try split) <;> (try simp_all)

/-! ### The claims about the delta and about the calls of `updateTags` -/

/-- C2: the delta computed in lambda `updateTags` agrees with the reference
definition: a key is among the keys to remove exactly when it is in observed,
not in desired and not protected, and the tags to update map a key to the
reference value `desired[k]` exactly for the unprotected keys of desired whose
value differs from, or is absent in, observed.  For observed `{a:1,b:2}`, desired
`{a:1,c:3}` and no protected key the delta is remove `{b}`, update `{c:3}`, and
these are the two requests lambda `updateTags` sends. -/
theorem updateTags_delta_matches_reference :
    (∀ (observed desired : KeyValueTags) (isProtected : ProtectedKeySet) (k : String),
      (k ∈ ((observed.Removed desired).IgnoreSystem isProtected).Keys
          ↔ specToRemove observed desired isProtected k = true)
      ∧ ((observed.Updated desired).IgnoreSystem isProtected).lookup k
          = specToUpdate observed desired isProtected k)
    ∧ ((tagsAB.Removed tagsAC).IgnoreSystem protectNone).Keys = ["b"]
    ∧ ((tagsAB.Updated tagsAC).IgnoreSystem protectNone).entries = [("c", "3")]
    ∧ (lambda.updateTags (fixedClient GoMap none none) protectNone "arn" tagsAB tagsAC
          ⟨(), []⟩).2.requests.map
          (fun r => match r with
            | Request.UntagResource input => (input.ResourceArn, input.TagKeys, [])
            | Request.TagResource input => (input.ResourceArn, [], input.Tags.entries))
        = [("arn", ["b"], []), ("arn", [], [("c", "3")])] := by
  refine ⟨?_, by decide, by decide, by decide⟩
  intro observed desired isProtected k
  constructor
  · rw [mem_keys_iff_lookup, lookup_removedTags]
    unfold specToRemove
    cases ho : GoMap.lookup observed k <;> cases hn : GoMap.lookup desired k <;>
      cases hp : isProtected k <;> simp
  · rw [lookup_updatedTags]
    unfold specToUpdate
    cases ho : GoMap.lookup observed k <;> cases hn : GoMap.lookup desired k <;>
      cases hp : isProtected k <;> simp

theorem swf_keys_Tags (tags : KeyValueTags) :
    (swf.Tags tags).map (fun t => t.Key.getD "") = tags.Keys := by
  unfold swf.Tags KeyValueTags.Map KeyValueTags.Keys
  rw [List.map_map]
  induction tags.entries with
  | nil => rfl
  | cons e t ih => rw [List.map_cons, List.map_cons, ih]; rfl

theorem not_protected_of_mem_removed (isProtected : ProtectedKeySet)
    (oldTags newTags : KeyValueTags) (k : String)
    (h : k ∈ ((oldTags.Removed newTags).IgnoreSystem isProtected).Keys) :
    isProtected k = false := by
  rw [mem_keys_iff_lookup, lookup_removedTags] at h
  by_contra hp
  simp [hp] at h

theorem not_protected_of_mem_updated (isProtected : ProtectedKeySet)
    (oldTags newTags : KeyValueTags) (k : String)
    (h : k ∈ ((oldTags.Updated newTags).IgnoreSystem isProtected).Keys) :
    isProtected k = false := by
  rw [mem_keys_iff_lookup, lookup_updatedTags] at h
  by_contra hp
  simp [hp] at h

/-- C3: no protected (system) key is among the keys swf `updateTags` passes to
`UntagResource` nor among the tags it passes to `TagResource`: neither in the
computed delta nor in any request of a run, whatever the client answers.  With
observed `{a:1, sys:internal}`, desired `{}` and `sys` protected, the keys to
remove are exactly `a`. -/
theorem updateTags_never_touches_protected :
    (∀ (observed desired : KeyValueTags) (isProtected : ProtectedKeySet) (k : String),
      isProtected k = true →
        k ∉ ((observed.Removed desired).IgnoreSystem isProtected).Keys
        ∧ k ∉ ((observed.Updated desired).IgnoreSystem isProtected).Keys)
    ∧ (∀ (σ : Type) (conn : Client (List swf.ResourceTag) σ) (isProtected : ProtectedKeySet)
        (identifier : String) (observed desired : KeyValueTags) (s : σ)
        (r : Request (List swf.ResourceTag)) (k : String),
        r ∈ (swf.updateTags conn isProtected identifier observed desired ⟨s, []⟩).2.requests →
        k ∈ swf.requestKeys r → isProtected k = false)
    ∧ ((tagsASys.Removed KeyValueTags.New).IgnoreSystem protectSys).Keys = ["a"]
    ∧ "sys" ∉ ((tagsASys.Removed KeyValueTags.New).IgnoreSystem protectSys).Keys := by
  refine ⟨?_, ?_, by decide, by decide⟩
  · intro observed desired isProtected k hp
    constructor
    · intro h
      have := not_protected_of_mem_removed isProtected observed desired k h
      simp [hp] at this
    · intro h
      have := not_protected_of_mem_updated isProtected observed desired k h
      simp [hp] at this
  · intro σ conn isProtected identifier observed desired s r k hr hk
    rw [swf_requests] at hr
    simp only [List.nil_append, List.mem_append] at hr
    rcases hr with hr | hr
    · split at hr
      · rw [List.mem_singleton] at hr
        subst hr
        exact not_protected_of_mem_removed isProtected observed desired k hk
      · simp at hr
    · split at hr
      · simp at hr
      · split at hr
        · rw [List.mem_singleton] at hr
          subst hr
          simp only [swf.requestKeys, swf_keys_Tags] at hk
          exact not_protected_of_mem_updated isProtected observed desired k hk
        · simp at hr

/-- Witness for the protected-key invariant: observed `{a:1, sys:internal}`,
desired `{}`, `sys` protected; `sys` is in neither part of the delta, and the
one request of the run, the removal of `a`, carries no protected key. -/
theorem updateTags_never_touches_protected_witness :
    protectSys "sys" = true
    ∧ ("sys" ∉ ((tagsASys.Removed KeyValueTags.New).IgnoreSystem protectSys).Keys
      ∧ "sys" ∉ ((tagsASys.Updated KeyValueTags.New).IgnoreSystem protectSys).Keys)
    ∧ (swf.updateTags (fixedClient (List swf.ResourceTag) none none) protectSys "arn" tagsASys
          KeyValueTags.New ⟨(), []⟩).2.requests = [Request.UntagResource ⟨"arn", ["a"]⟩]
    ∧ protectSys "a" = false :=
  ⟨by decide,
    updateTags_never_touches_protected.1 tagsASys KeyValueTags.New protectSys "sys" (by decide),
    rfl,
    updateTags_never_touches_protected.2.1 Unit (fixedClient (List swf.ResourceTag) none none)
      protectSys "arn" tagsASys KeyValueTags.New () (Request.UntagResource ⟨"arn", ["a"]⟩) "a"
      (List.mem_singleton.mpr rfl) (List.mem_singleton.mpr rfl)⟩

/-- C4: the keys ivschat `updateTags` computes for removal and the keys of the
tags it computes for update are disjoint, and so are the keys of any
`UntagResource` request and the keys of any `TagResource` request of one run. -/
theorem updateTags_remove_update_disjoint :
    (∀ (observed desired : KeyValueTags) (isProtected : ProtectedKeySet),
      List.Disjoint ((observed.Removed desired).IgnoreSystem isProtected).Keys
        ((observed.Updated desired).IgnoreSystem isProtected).Keys)
    ∧ (∀ (σ : Type) (conn : Client GoMap σ) (isProtected : ProtectedKeySet)
        (identifier : String) (observed desired : KeyValueTags) (s : σ)
        (a : UntagResourceInput) (b : TagResourceInput GoMap),
        Request.UntagResource a
            ∈ (ivschat.updateTags conn isProtected identifier observed desired ⟨s, []⟩).2.requests →
        Request.TagResource b
            ∈ (ivschat.updateTags conn isProtected identifier observed desired ⟨s, []⟩).2.requests →
        List.Disjoint a.TagKeys (KeyValueTags.Keys b.Tags)) := by
  have hdis : ∀ (observed desired : KeyValueTags) (isProtected : ProtectedKeySet),
      List.Disjoint ((observed.Removed desired).IgnoreSystem isProtected).Keys
        ((observed.Updated desired).IgnoreSystem isProtected).Keys := by
    intro observed desired isProtected k h1 h2
    rw [mem_keys_iff_lookup, lookup_removedTags] at h1
    rw [mem_keys_iff_lookup, lookup_updatedTags] at h2
    by_cases hn : GoMap.lookup desired k = none
    · simp [hn] at h2
    · simp [hn] at h1
  refine ⟨hdis, ?_⟩
  intro σ conn isProtected identifier observed desired s a b ha hb
  rw [ivschat_requests] at ha hb
  have ha2 : a = ⟨identifier, ((observed.Removed desired).IgnoreSystem isProtected).Keys⟩ := by
    simp only [List.nil_append, List.mem_append] at ha
    rcases ha with ha | ha
    · split at ha
      · simpa using ha
      · simp at ha
    · split at ha
      · simp at ha
      · split at ha <;> simp at ha
  have hb2 : b = ⟨identifier,
      ivschat.Tags ((observed.Updated desired).IgnoreSystem isProtected)⟩ := by
    simp only [List.nil_append, List.mem_append] at hb
    rcases hb with hb | hb
    · split at hb <;> simp at hb
    · split at hb
      · simp at hb
      · split at hb
        · simpa using hb
        · simp at hb
  subst ha2 hb2
  exact hdis observed desired isProtected

/-- Witness for the disjointness of removal and update: observed `{a:1,b:2}`,
desired `{a:1,c:3}`; the run sends the removal of `b` and the update of `c`. -/
theorem updateTags_remove_update_disjoint_witness :
    (ivschat.updateTags (fixedClient GoMap none none) protectNone "arn" tagsAB tagsAC
        ⟨(), []⟩).2.requests
      = [Request.UntagResource ⟨"arn", ["b"]⟩,
          Request.TagResource
            ⟨"arn", ivschat.Tags ((tagsAB.Updated tagsAC).IgnoreSystem protectNone)⟩]
    ∧ List.Disjoint ["b"]
        (KeyValueTags.Keys (ivschat.Tags ((tagsAB.Updated tagsAC).IgnoreSystem protectNone))) :=
  ⟨rfl,
    updateTags_remove_update_disjoint.2 Unit (fixedClient GoMap none none) protectNone "arn"
      tagsAB tagsAC () ⟨"arn", ["b"]⟩
      ⟨"arn", ivschat.Tags ((tagsAB.Updated tagsAC).IgnoreSystem protectNone)⟩
      (List.mem_cons_self _ _) (List.mem_cons_of_mem _ (List.mem_singleton.mpr rfl))⟩

/-- C5: the requests ecrpublic `updateTags` and lightsail `updateTags` add to the
log are: one `UntagResource` carrying exactly the removed non-system keys when
that key set is non-empty and none otherwise; followed, unless that
`UntagResource` failed, by one `TagResource` carrying exactly the updated
non-system tags when that tag map is non-empty and none otherwise.  So each is
called at most once and `UntagResource` comes before `TagResource`. -/
theorem updateTags_calls :
    (∀ (σ : Type) (conn : Client (List ecrpublic.Tag) σ) (isProtected : ProtectedKeySet)
        (identifier : String) (oldTags newTags : KeyValueTags)
        (w : World (List ecrpublic.Tag) σ),
      (ecrpublic.updateTags conn isProtected identifier oldTags newTags w).2.requests
        = w.requests
          ++ (if 0 < ((oldTags.Removed newTags).IgnoreSystem isProtected).len then
                [Request.UntagResource
                  ⟨identifier, ((oldTags.Removed newTags).IgnoreSystem isProtected).Keys⟩]
              else [])
          ++ (if 0 < ((oldTags.Removed newTags).IgnoreSystem isProtected).len
                  ∧ (conn.untag
                      ⟨identifier, ((oldTags.Removed newTags).IgnoreSystem isProtected).Keys⟩
                      w.remote).1 ≠ none then []
              else if 0 < ((oldTags.Updated newTags).IgnoreSystem isProtected).len then
                [Request.TagResource
                  ⟨identifier,
                    ecrpublic.Tags ((oldTags.Updated newTags).IgnoreSystem isProtected)⟩]
              else []))
    ∧ (∀ (σ : Type) (conn : Client (List lightsail.Tag) σ) (isProtected : ProtectedKeySet)
        (identifier : String) (oldTags newTags : KeyValueTags)
        (w : World (List lightsail.Tag) σ),
      (lightsail.updateTags conn isProtected identifier oldTags newTags w).2.requests
        = w.requests
          ++ (if 0 < ((oldTags.Removed newTags).IgnoreSystem isProtected).len then
                [Request.UntagResource
                  ⟨identifier, ((oldTags.Removed newTags).IgnoreSystem isProtected).Keys⟩]
              else [])
          ++ (if 0 < ((oldTags.Removed newTags).IgnoreSystem isProtected).len
                  ∧ (conn.untag
                      ⟨identifier, ((oldTags.Removed newTags).IgnoreSystem isProtected).Keys⟩
                      w.remote).1 ≠ none then []
              else if 0 < ((oldTags.Updated newTags).IgnoreSystem isProtected).len then
                [Request.TagResource
                  ⟨identifier,
                    lightsail.Tags ((oldTags.Updated newTags).IgnoreSystem isProtected)⟩]
              else [])) :=
  ⟨fun _ conn isProtected identifier oldTags newTags w =>
      ecrpublic_requests conn isProtected identifier oldTags newTags w,
    fun _ conn isProtected identifier oldTags newTags w =>
      lightsail_requests conn isProtected identifier oldTags newTags w⟩

theorem errorf_message (before between identifier : String) (err : GoError) :
    fmt.Errorf before between identifier err
      = GoError.wrapped (before ++ identifier ++ between ++ err.Error) err := rfl

theorem untag_error_ne_tag_error (identifier : String) (err : GoError) :
    fmt.Errorf "untagging resource (" "): " identifier err
      ≠ fmt.Errorf "tagging resource (" "): " identifier err := by
  intro h
  unfold fmt.Errorf at h
  injection h with hmsg _
  have hd := congrArg String.data hmsg
  simp only [String.data_append] at hd
  simp only [List.cons_append] at hd
  injection hd with hc _
  exact absurd hc (by decide)

/-- C6: in swf `updateTags`, if `UntagResource` is called and fails with `e`, then
`TagResource` is not called and the result wraps `e` with the message
"untagging resource (<identifier>): <e>"; if `UntagResource` is skipped or
succeeds and `TagResource` is called and fails with `e`, the result wraps `e`
with the message "tagging resource (<identifier>): <e>"; the result is nil
exactly when no call made failed; and for one identifier and one cause the
removal-phase error and the update-phase error differ. -/
theorem updateTags_error_phases :
    (∀ (σ : Type) (conn : Client (List swf.ResourceTag) σ) (isProtected : ProtectedKeySet)
        (identifier : String) (oldTags newTags : KeyValueTags)
        (w : World (List swf.ResourceTag) σ) (e : GoError),
      0 < ((oldTags.Removed newTags).IgnoreSystem isProtected).len →
      (conn.untag ⟨identifier, ((oldTags.Removed newTags).IgnoreSystem isProtected).Keys⟩
          w.remote).1 = some e →
        (swf.updateTags conn isProtected identifier oldTags newTags w).1
            = some (GoError.wrapped
                ("untagging resource (" ++ identifier ++ "): " ++ e.Error) e)
        ∧ (swf.updateTags conn isProtected identifier oldTags newTags w).2.requests
            = w.requests ++ [Request.UntagResource
                ⟨identifier, ((oldTags.Removed newTags).IgnoreSystem isProtected).Keys⟩])
    ∧ (∀ (σ : Type) (conn : Client (List swf.ResourceTag) σ) (isProtected : ProtectedKeySet)
        (identifier : String) (oldTags newTags : KeyValueTags)
        (w : World (List swf.ResourceTag) σ) (e : GoError),
      (¬ 0 < ((oldTags.Removed newTags).IgnoreSystem isProtected).len
        ∨ (conn.untag ⟨identifier, ((oldTags.Removed newTags).IgnoreSystem isProtected).Keys⟩
            w.remote).1 = none) →
      0 < ((oldTags.Updated newTags).IgnoreSystem isProtected).len →
      (conn.tag ⟨identifier, swf.Tags ((oldTags.Updated newTags).IgnoreSystem isProtected)⟩
          (if 0 < ((oldTags.Removed newTags).IgnoreSystem isProtected).len then
            (conn.untag
              ⟨identifier, ((oldTags.Removed newTags).IgnoreSystem isProtected).Keys⟩
              w.remote).2
          else w.remote)).1 = some e →
        (swf.updateTags conn isProtected identifier oldTags newTags w).1
            = some (GoError.wrapped
                ("tagging resource (" ++ identifier ++ "): " ++ e.Error) e))
    ∧ (∀ (σ : Type) (conn : Client (List swf.ResourceTag) σ) (isProtected : ProtectedKeySet)
        (identifier : String) (oldTags newTags : KeyValueTags)
        (w : World (List swf.ResourceTag) σ),
      (swf.updateTags conn isProtected identifier oldTags newTags w).1 = none
        ↔ ((¬ 0 < ((oldTags.Removed newTags).IgnoreSystem isProtected).len
            ∨ (conn.untag
                ⟨identifier, ((oldTags.Removed newTags).IgnoreSystem isProtected).Keys⟩
                w.remote).1 = none)
          ∧ (¬ 0 < ((oldTags.Updated newTags).IgnoreSystem isProtected).len
            ∨ (conn.tag
                ⟨identifier, swf.Tags ((oldTags.Updated newTags).IgnoreSystem isProtected)⟩
                (if 0 < ((oldTags.Removed newTags).IgnoreSystem isProtected).len then
                  (conn.untag
                    ⟨identifier, ((oldTags.Removed newTags).IgnoreSystem isProtected).Keys⟩
                    w.remote).2
                else w.remote)).1 = none)))
    ∧ (∀ (identifier : String) (e : GoError),
      GoError.wrapped ("untagging resource (" ++ identifier ++ "): " ++ e.Error) e
        ≠ GoError.wrapped ("tagging resource (" ++ identifier ++ "): " ++ e.Error) e) := by
  refine ⟨?_, ?_, ?_, ?_⟩
  · intro σ conn isProtected identifier oldTags newTags w e h1 hu
    constructor
    · rw [swf_error]
      simp [h1, hu, errorf_message]
    · rw [swf_requests]
      simp [h1, hu]
  · intro σ conn isProtected identifier oldTags newTags w e h1 h2 ht
    rw [swf_error]
    rcases h1 with h1 | h1
    · simp only [h1, if_false] at ht ⊢
      simp [h2, ht, errorf_message]
    · by_cases hr : 0 < ((oldTags.Removed newTags).IgnoreSystem isProtected).len
      · simp only [hr, if_true] at ht ⊢
        simp [h1, h2, ht, errorf_message]
      · simp only [hr, if_false] at ht ⊢
        simp [h2, ht, errorf_message]
  · intro σ conn isProtected identifier oldTags newTags w
    rw [swf_error]
    by_cases hr : 0 < ((oldTags.Removed newTags).IgnoreSystem isProtected).len <;>
      by_cases hu : 0 < ((oldTags.Updated newTags).IgnoreSystem isProtected).len <;>
      simp only [hr, hu, if_true, if_false] <;>
      (try cases hc : (conn.untag
          ⟨identifier, ((oldTags.Removed newTags).IgnoreSystem isProtected).Keys⟩
          w.remote).1) <;>
      simp
  · intro identifier e
    exact untag_error_ne_tag_error identifier e

/-- Witness for the error phases: with observed `{a:1,b:2}` and desired
`{a:1,c:3}`, a failing `UntagResource` gives the removal-phase error and a
failing `TagResource` after a successful `UntagResource` gives the update-phase
error. -/
theorem updateTags_error_phases_witness :
    (0 < ((tagsAB.Removed tagsAC).IgnoreSystem protectNone).len
      ∧ (swf.updateTags (fixedClient (List swf.ResourceTag) (some (GoError.api "throttled")) none)
            protectNone "arn" tagsAB tagsAC ⟨(), []⟩).1
          = some (GoError.wrapped "untagging resource (arn): throttled"
              (GoError.api "throttled")))
    ∧ (0 < ((tagsAB.Updated tagsAC).IgnoreSystem protectNone).len
      ∧ (swf.updateTags (fixedClient (List swf.ResourceTag) none (some (GoError.api "throttled")))
            protectNone "arn" tagsAB tagsAC ⟨(), []⟩).1
          = some (GoError.wrapped "tagging resource (arn): throttled"
              (GoError.api "throttled"))) :=
  ⟨⟨by decide,
      (updateTags_error_phases.1 Unit
        (fixedClient (List swf.ResourceTag) (some (GoError.api "throttled")) none)
        protectNone "arn" tagsAB tagsAC ⟨(), []⟩ (GoError.api "throttled")
        (by decide) rfl).1⟩,
    ⟨by decide,
      updateTags_error_phases.2.1 Unit
        (fixedClient (List swf.ResourceTag) none (some (GoError.api "throttled")))
        protectNone "arn" tagsAB tagsAC ⟨(), []⟩ (GoError.api "throttled")
        (Or.inr rfl) (by decide) rfl⟩⟩

/-- C7: when both the removed non-system key set and the updated non-system tag
map are empty, lambda `updateTags` sends neither `UntagResource` nor
`TagResource`, leaves the remote state as it is and returns nil. -/
theorem updateTags_empty_delta_no_calls (σ : Type) (conn : Client GoMap σ)
    (isProtected : ProtectedKeySet) (identifier : String) (oldTags newTags : KeyValueTags)
    (w : World GoMap σ)
    (hRemoved : ((oldTags.Removed newTags).IgnoreSystem isProtected).len = 0)
    (hUpdated : ((oldTags.Updated newTags).IgnoreSystem isProtected).len = 0) :
    lambda.updateTags conn isProtected identifier oldTags newTags w = (none, w) := by
  unfold lambda.updateTags
  simp [hRemoved, hUpdated]

/-- Witness for the no-op fast path: old `{a:1,b:2}`, new `{b:2,a:1}`, against a client that would
fail every call. -/
theorem updateTags_empty_delta_no_calls_witness :
    ((tagsAB.Removed tagsBA).IgnoreSystem protectNone).len = 0
    ∧ ((tagsAB.Updated tagsBA).IgnoreSystem protectNone).len = 0
    ∧ lambda.updateTags
          (fixedClient GoMap (some (GoError.api "denied")) (some (GoError.api "denied")))
          protectNone "arn" tagsAB tagsBA ⟨(), []⟩
        = (none, ⟨(), []⟩) :=
  ⟨by decide, by decide,
    updateTags_empty_delta_no_calls Unit
      (fixedClient GoMap (some (GoError.api "denied")) (some (GoError.api "denied")))
      protectNone "arn" tagsAB tagsBA ⟨(), []⟩ (by decide) (by decide)⟩

theorem removed_self (tags : KeyValueTags) (isProtected : ProtectedKeySet) :
    ((tags.Removed tags).IgnoreSystem isProtected).entries = [] := by
  unfold KeyValueTags.IgnoreSystem KeyValueTags.Removed GoMap.filter
  simp only [List.filter_filter, List.filter_eq_nil_iff]
  intro e he
  have := GoMap.lookup_of_mem tags e.1 e.2 he
  simp [this]

theorem updated_self (tags : KeyValueTags) (isProtected : ProtectedKeySet) :
    ((tags.Updated tags).IgnoreSystem isProtected).entries = [] := by
  unfold KeyValueTags.IgnoreSystem KeyValueTags.Updated GoMap.filter
  simp only [List.filter_filter, List.filter_eq_nil_iff]
  intro e he
  have := GoMap.lookup_of_mem tags e.1 e.2 he
  simp [this]

/-- C8: for every tag set `T` and every protected-key predicate, the delta
computed from observed = desired = `T` is empty, no key to remove and no tag to
update, and pinpoint `updateTags` then sends no request and returns nil. -/
theorem updateTags_equal_sets_empty_delta (tags : KeyValueTags) (isProtected : ProtectedKeySet) :
    ((tags.Removed tags).IgnoreSystem isProtected).Keys = []
    ∧ ((tags.Updated tags).IgnoreSystem isProtected).entries = []
    ∧ ∀ (σ : Type) (conn : Client pinpoint.TagsModel σ) (identifier : String)
        (w : World pinpoint.TagsModel σ),
        pinpoint.updateTags conn isProtected identifier tags tags w = (none, w) := by
  have hR := removed_self tags isProtected
  have hU := updated_self tags isProtected
  refine ⟨by simp [KeyValueTags.Keys, hR], hU, ?_⟩
  intro σ conn identifier w
  unfold pinpoint.updateTags
  simp [GoMap.len, hR, hU]

/-! ### Retrying after a failed update, and the order of iteration -/

theorem updated_congr (isProtected : ProtectedKeySet) (o1 o2 desired : KeyValueTags)
    (h : ∀ e ∈ desired.entries, GoMap.lookup o1 e.1 = GoMap.lookup o2 e.1) :
    ((KeyValueTags.Updated o1 desired).IgnoreSystem isProtected).entries
      = ((KeyValueTags.Updated o2 desired).IgnoreSystem isProtected).entries := by
  unfold KeyValueTags.IgnoreSystem KeyValueTags.Updated GoMap.filter
  simp only
  congr 1
  apply List.filter_congr
  intro e he
  rw [h e he]

theorem updated_after_untag (isProtected : ProtectedKeySet) (observed desired : KeyValueTags) :
    ((KeyValueTags.Updated
        (remoteUntag observed ((observed.Removed desired).IgnoreSystem isProtected).Keys)
        desired).IgnoreSystem isProtected).entries
      = ((observed.Updated desired).IgnoreSystem isProtected).entries := by
  apply updated_congr
  intro e he
  have hd := GoMap.lookup_of_mem desired e.1 e.2 he
  rw [lookup_remoteUntag]
  have hk : e.1 ∉ ((observed.Removed desired).IgnoreSystem isProtected).Keys := by
    intro hmem
    rw [mem_keys_iff_lookup, lookup_removedTags] at hmem
    simp [hd] at hmem
  simp [hk]

theorem removed_after_untag (isProtected : ProtectedKeySet) (observed desired : KeyValueTags) :
    ((KeyValueTags.Removed
        (remoteUntag observed ((observed.Removed desired).IgnoreSystem isProtected).Keys)
        desired).IgnoreSystem isProtected).entries = [] := by
  have key : ∀ e ∈ (remoteUntag observed
      ((observed.Removed desired).IgnoreSystem isProtected).Keys).entries,
      ¬ ((GoMap.lookup desired e.1).isNone = true ∧ isProtected e.1 = false) := by
    intro e he hcon
    have h1 := GoMap.lookup_of_mem _ e.1 e.2 he
    rw [lookup_remoteUntag] at h1
    by_cases hm : e.1 ∈ ((observed.Removed desired).IgnoreSystem isProtected).Keys
    · simp [hm] at h1
    · simp only [hm, if_false] at h1
      apply hm
      rw [mem_keys_iff_lookup, lookup_removedTags]
      have hn : GoMap.lookup desired e.1 = none := by simpa using hcon.1
      simp [hcon.2, hn, h1]
  unfold KeyValueTags.IgnoreSystem at key ⊢
  unfold KeyValueTags.Removed GoMap.filter
  simp only [List.filter_filter, List.filter_eq_nil_iff]
  intro e he hcon
  have := key e (by simpa [KeyValueTags.Removed, GoMap.filter] using he)
  simp at hcon
  exact this ⟨by simpa using hcon.2, hcon.1⟩

theorem ecrpublic_tagFailing_remote (err : GoError) (isProtected : ProtectedKeySet)
    (identifier : String) (oldTags newTags : KeyValueTags)
    (w : World (List ecrpublic.Tag) GoMap) :
    (ecrpublic.updateTags (ecrpublic.tagFailingClient err) isProtected identifier oldTags newTags
        w).2.remote
      = remoteUntag w.remote ((oldTags.Removed newTags).IgnoreSystem isProtected).Keys := by
  have hR : ¬ 0 < ((oldTags.Removed newTags).IgnoreSystem isProtected).len →
      ((oldTags.Removed newTags).IgnoreSystem isProtected).Keys = [] := by
    intro h
    simp [GoMap.len, KeyValueTags.Keys] at h ⊢
    exact h
  unfold ecrpublic.updateTags
  by_cases h1 : 0 < ((oldTags.Removed newTags).IgnoreSystem isProtected).len <;>
    by_cases h2 : 0 < ((oldTags.Updated newTags).IgnoreSystem isProtected).len
  · simp [h1, h2, Client.UntagResource, Client.TagResource, ecrpublic.tagFailingClient]
  · simp [h1, h2, Client.UntagResource, Client.TagResource, ecrpublic.tagFailingClient]
  · simp [h1, h2, Client.UntagResource, Client.TagResource, ecrpublic.tagFailingClient, hR h1,
      remoteUntag]
  · simp [h1, h2, Client.UntagResource, Client.TagResource, ecrpublic.tagFailingClient, hR h1,
      remoteUntag]

/-- C9: let `(R, U)` be the delta of observed and desired.  The delta recomputed
from observed without the keys of `R` has nothing to remove (so none of the keys
of `R`) and the same tags to update as `U`.  In a run of ecrpublic `updateTags`
where `UntagResource` is skipped or succeeds and `TagResource` fails with `e`,
the result is the update-phase error "tagging resource (<identifier>): <e>";
against a store whose removal is applied and whose update fails, the store is
left as observed without the keys of `R`. -/
theorem updateTags_retry_after_failed_update :
    (∀ (observed desired : KeyValueTags) (isProtected : ProtectedKeySet),
      ((KeyValueTags.Removed
          (remoteUntag observed ((observed.Removed desired).IgnoreSystem isProtected).Keys)
          desired).IgnoreSystem isProtected).Keys = []
      ∧ (∀ k ∈ ((observed.Removed desired).IgnoreSystem isProtected).Keys,
          k ∉ ((KeyValueTags.Removed
            (remoteUntag observed ((observed.Removed desired).IgnoreSystem isProtected).Keys)
            desired).IgnoreSystem isProtected).Keys)
      ∧ ((KeyValueTags.Updated
          (remoteUntag observed ((observed.Removed desired).IgnoreSystem isProtected).Keys)
          desired).IgnoreSystem isProtected).entries
        = ((observed.Updated desired).IgnoreSystem isProtected).entries)
    ∧ (∀ (σ : Type) (conn : Client (List ecrpublic.Tag) σ) (isProtected : ProtectedKeySet)
        (identifier : String) (observed desired : KeyValueTags)
        (w : World (List ecrpublic.Tag) σ) (e : GoError),
      (¬ 0 < ((observed.Removed desired).IgnoreSystem isProtected).len
        ∨ (conn.untag ⟨identifier, ((observed.Removed desired).IgnoreSystem isProtected).Keys⟩
            w.remote).1 = none) →
      0 < ((observed.Updated desired).IgnoreSystem isProtected).len →
      (conn.tag
          ⟨identifier, ecrpublic.Tags ((observed.Updated desired).IgnoreSystem isProtected)⟩
          (if 0 < ((observed.Removed desired).IgnoreSystem isProtected).len then
            (conn.untag
              ⟨identifier, ((observed.Removed desired).IgnoreSystem isProtected).Keys⟩
              w.remote).2
          else w.remote)).1 = some e →
        (ecrpublic.updateTags conn isProtected identifier observed desired w).1
            = some (GoError.wrapped
                ("tagging resource (" ++ identifier ++ "): " ++ e.Error) e))
    ∧ (∀ (e : GoError) (isProtected : ProtectedKeySet) (identifier : String)
        (observed desired : KeyValueTags),
      (ecrpublic.updateTags (ecrpublic.tagFailingClient e) isProtected identifier observed
          desired ⟨observed, []⟩).2.remote
        = remoteUntag observed ((observed.Removed desired).IgnoreSystem isProtected).Keys) := by
  refine ⟨?_, ?_, ?_⟩
  · intro observed desired isProtected
    have hnil : ((KeyValueTags.Removed
          (remoteUntag observed ((observed.Removed desired).IgnoreSystem isProtected).Keys)
          desired).IgnoreSystem isProtected).Keys = [] := by
      have h0 := removed_after_untag isProtected observed desired
      unfold KeyValueTags.Keys at h0 ⊢
      rw [h0]
      rfl
    refine ⟨hnil, ?_, updated_after_untag isProtected observed desired⟩
    intro k _
    rw [hnil]
    exact List.not_mem_nil k
  · intro σ conn isProtected identifier observed desired w e h1 h2 ht
    rw [ecrpublic_error]
    rcases h1 with h1 | h1
    · simp only [h1, if_false] at ht ⊢
      simp [h2, ht, errorf_message]
    · by_cases hr : 0 < ((observed.Removed desired).IgnoreSystem isProtected).len
      · simp only [hr, if_true] at ht ⊢
        simp [h1, h2, ht, errorf_message]
      · simp only [hr, if_false] at ht ⊢
        simp [h2, ht, errorf_message]
  · intro e isProtected identifier observed desired
    exact ecrpublic_tagFailing_remote e isProtected identifier observed desired ⟨observed, []⟩

/-- Witness for the retry after a failed update: observed `{a:1,b:2}`, desired `{a:1,c:3}`; the removal of `b`
is applied and the update of `c` fails. -/
theorem updateTags_retry_after_failed_update_witness :
    0 < ((tagsAB.Updated tagsAC).IgnoreSystem protectNone).len
    ∧ (ecrpublic.updateTags (ecrpublic.tagFailingClient (GoError.api "throttled")) protectNone
          "arn" tagsAB tagsAC ⟨tagsAB, []⟩).1
        = some (GoError.wrapped "tagging resource (arn): throttled" (GoError.api "throttled")) :=
  ⟨by decide,
    updateTags_retry_after_failed_update.2.1 GoMap
      (ecrpublic.tagFailingClient (GoError.api "throttled")) protectNone "arn" tagsAB tagsAC
      ⟨tagsAB, []⟩ (GoError.api "throttled") (Or.inr rfl) (by decide) rfl⟩

theorem GoMap.lookup_perm (m1 m2 : GoMap) (h : m1.entries.Perm m2.entries) (k : String) :
    m1.lookup k = m2.lookup k := by
  cases h1 : m1.lookup k with
  | some v =>
    exact (GoMap.lookup_of_mem m2 k v (h.mem_iff.mp (GoMap.mem_of_lookup m1 k v h1))).symm
  | none =>
    symm
    rw [GoMap.lookup_eq_none_iff] at h1 ⊢
    intro hm
    exact h1 ((h.map Prod.fst).mem_iff.mpr hm)

/-- C10: the delta computation of `updateTags` is determined by its inputs.  Two
runs on the same old and new tag maps, whatever order each run ranges over the
maps in (Go fixes none; the entries of one run are a permutation of those of
the other), compute the same removed key set and the same updated tag map, with
the same `Tags` payload up to order, and so take the same branch at both
`len > 0` guards. -/
theorem updateTags_delta_deterministic (isProtected : ProtectedKeySet)
    (oldTags oldTags2 newTags newTags2 : KeyValueTags)
    (hOld : oldTags.entries.Perm oldTags2.entries)
    (hNew : newTags.entries.Perm newTags2.entries) :
    ((oldTags.Removed newTags).IgnoreSystem isProtected).Keys.Perm
        ((oldTags2.Removed newTags2).IgnoreSystem isProtected).Keys
    ∧ ((oldTags.Updated newTags).IgnoreSystem isProtected).entries.Perm
        ((oldTags2.Updated newTags2).IgnoreSystem isProtected).entries
    ∧ (∀ k : String,
        ((oldTags.Updated newTags).IgnoreSystem isProtected).lookup k
          = ((oldTags2.Updated newTags2).IgnoreSystem isProtected).lookup k)
    ∧ (ecrpublic.Tags ((oldTags.Updated newTags).IgnoreSystem isProtected)).Perm
        (ecrpublic.Tags ((oldTags2.Updated newTags2).IgnoreSystem isProtected))
    ∧ (0 < ((oldTags.Removed newTags).IgnoreSystem isProtected).len
        ↔ 0 < ((oldTags2.Removed newTags2).IgnoreSystem isProtected).len)
    ∧ (0 < ((oldTags.Updated newTags).IgnoreSystem isProtected).len
        ↔ 0 < ((oldTags2.Updated newTags2).IgnoreSystem isProtected).len) := by
  have hf1 : (fun e : String × String => (GoMap.lookup newTags e.1).isNone)
      = (fun e : String × String => (GoMap.lookup newTags2 e.1).isNone) := by
    funext e
    rw [GoMap.lookup_perm newTags newTags2 hNew]
  have hf2 : (fun e : String × String => !(GoMap.lookup oldTags e.1 == some e.2))
      = (fun e : String × String => !(GoMap.lookup oldTags2 e.1 == some e.2)) := by
    funext e
    rw [GoMap.lookup_perm oldTags oldTags2 hOld]
  have hR : ((oldTags.Removed newTags).IgnoreSystem isProtected).entries.Perm
      ((oldTags2.Removed newTags2).IgnoreSystem isProtected).entries := by
    unfold KeyValueTags.IgnoreSystem KeyValueTags.Removed GoMap.filter
    simp only
    rw [hf1]
    exact (hOld.filter _).filter _
  have hU : ((oldTags.Updated newTags).IgnoreSystem isProtected).entries.Perm
      ((oldTags2.Updated newTags2).IgnoreSystem isProtected).entries := by
    unfold KeyValueTags.IgnoreSystem KeyValueTags.Updated GoMap.filter
    simp only
    rw [hf2]
    exact (hNew.filter _).filter _
  refine ⟨hR.map Prod.fst, hU, fun k => GoMap.lookup_perm _ _ hU k, hU.map _, ?_, ?_⟩
  · unfold GoMap.len
    rw [hR.length_eq]
  · unfold GoMap.len
    rw [hU.length_eq]

/-- Witness for the determinism of the delta: `{a:1,b:2}` ranged over as a, b in one run and as b, a in the
other, against new tags `{a:1,c:3}`. -/
theorem updateTags_delta_deterministic_witness :
    tagsAB.entries.Perm tagsBA.entries
    ∧ ((tagsAB.Removed tagsAC).IgnoreSystem protectNone).Keys.Perm
        ((tagsBA.Removed tagsAC).IgnoreSystem protectNone).Keys
    ∧ (0 < ((tagsAB.Removed tagsAC).IgnoreSystem protectNone).len
        ↔ 0 < ((tagsBA.Removed tagsAC).IgnoreSystem protectNone).len) :=
  ⟨List.Perm.swap _ _ _,
    (updateTags_delta_deterministic protectNone tagsAB tagsBA tagsAC tagsAC
      (List.Perm.swap _ _ _) (List.Perm.refl _)).1,
    (updateTags_delta_deterministic protectNone tagsAB tagsBA tagsAC tagsAC
      (List.Perm.swap _ _ _) (List.Perm.refl _)).2.2.2.2.1⟩

/-! ### Endpoint access: the lookup and the two state waits -/

/-- C16: in both poll specifications the code builds, the pending and the target
status sets are disjoint: `waitEndpointAccessActive` uses pending
`{CREATING, MODIFYING}` and target `{ACTIVE}`, `waitEndpointAccessDeleted` uses
pending `{DELETING}` and an empty target. -/
theorem stateConf_pending_target_disjoint (σ : Type) (conn : redshiftserverless.Client σ)
    (name : String) :
    (redshiftserverless.activeStateConf conn name).Pending = ["CREATING", "MODIFYING"]
    ∧ (redshiftserverless.activeStateConf conn name).Target = ["ACTIVE"]
    ∧ List.Disjoint (redshiftserverless.activeStateConf conn name).Pending
        (redshiftserverless.activeStateConf conn name).Target
    ∧ (redshiftserverless.deletedStateConf conn name).Pending = ["DELETING"]
    ∧ (redshiftserverless.deletedStateConf conn name).Target = []
    ∧ List.Disjoint (redshiftserverless.deletedStateConf conn name).Pending
        (redshiftserverless.deletedStateConf conn name).Target := by
  refine ⟨rfl, rfl, ?_, rfl, rfl, ?_⟩
  · simp [redshiftserverless.activeStateConf]
  · simp [redshiftserverless.deletedStateConf]

/-- C20: `findEndpointAccessByName` classifies the response of `GetEndpointAccess`
in four cases that cover every response: an error that is a
`ResourceNotFoundException` gives a nil endpoint and a `retry.NotFoundError`
whose `LastError` is that error; any other error gives a nil endpoint and that
error unchanged; no error and a nil output give a nil endpoint and an
empty-result error; otherwise the result is the output's `Endpoint` and a nil
error. -/
theorem findEndpointAccessByName_classifies (σ : Type) (conn : redshiftserverless.Client σ)
    (name : String) (s : σ) :
    (∀ e : GoError, (conn.GetEndpointAccess ⟨some name⟩ s).1.2 = some e →
        errs.IsAResourceNotFoundException (some e) = true →
        redshiftserverless.findEndpointAccessByName conn name s
          = ((none, some (GoError.notFound e name)), (conn.GetEndpointAccess ⟨some name⟩ s).2)
        ∧ (GoError.notFound e name).Unwrap = some e)
    ∧ (∀ e : GoError, (conn.GetEndpointAccess ⟨some name⟩ s).1.2 = some e →
        errs.IsAResourceNotFoundException (some e) = false →
        redshiftserverless.findEndpointAccessByName conn name s
          = ((none, some e), (conn.GetEndpointAccess ⟨some name⟩ s).2))
    ∧ ((conn.GetEndpointAccess ⟨some name⟩ s).1.2 = none →
        (conn.GetEndpointAccess ⟨some name⟩ s).1.1 = none →
        redshiftserverless.findEndpointAccessByName conn name s
          = ((none, some (GoError.emptyResult name)), (conn.GetEndpointAccess ⟨some name⟩ s).2))
    ∧ (∀ out : redshiftserverless.GetEndpointAccessOutput,
        (conn.GetEndpointAccess ⟨some name⟩ s).1.2 = none →
        (conn.GetEndpointAccess ⟨some name⟩ s).1.1 = some out →
        redshiftserverless.findEndpointAccessByName conn name s
          = ((out.Endpoint, none), (conn.GetEndpointAccess ⟨some name⟩ s).2)) := by
  rcases hres : conn.GetEndpointAccess ⟨some name⟩ s with ⟨⟨output, err⟩, s1⟩
  refine ⟨?_, ?_, ?_, ?_⟩
  · intro e he hnf
    simp only at he
    subst he
    simp [redshiftserverless.findEndpointAccessByName, hres, hnf, GoError.Unwrap]
  · intro e he hnf
    simp only at he
    subst he
    simp [redshiftserverless.findEndpointAccessByName, hres, hnf]
  · intro he ho
    simp only at he ho
    subst he ho
    simp [redshiftserverless.findEndpointAccessByName, hres, tfresource.NewEmptyResultError]
  · intro out he ho
    simp only at he ho
    subst he ho
    simp [redshiftserverless.findEndpointAccessByName, hres]

/-- Witness for the four cases of the lookup, each at a client that answers with
the response of that case. -/
theorem findEndpointAccessByName_classifies_witness :
    redshiftserverless.findEndpointAccessByName
        (redshiftserverless.constantClient (none, some (GoError.resourceNotFound "gone")) none)
        "ep" ()
      = ((none, some (GoError.notFound (GoError.resourceNotFound "gone") "ep")), ())
    ∧ redshiftserverless.findEndpointAccessByName
        (redshiftserverless.constantClient (none, some (GoError.api "denied")) none) "ep" ()
      = ((none, some (GoError.api "denied")), ())
    ∧ redshiftserverless.findEndpointAccessByName
        (redshiftserverless.constantClient (none, none) none) "ep" ()
      = ((none, some (GoError.emptyResult "ep")), ())
    ∧ redshiftserverless.findEndpointAccessByName
        (redshiftserverless.constantClient
          (redshiftserverless.found (redshiftserverless.endpointWith "ep" "ACTIVE")) none) "ep" ()
      = ((some (redshiftserverless.endpointWith "ep" "ACTIVE"), none), ()) :=
  ⟨((findEndpointAccessByName_classifies Unit
      (redshiftserverless.constantClient (none, some (GoError.resourceNotFound "gone")) none)
      "ep" ()).1 (GoError.resourceNotFound "gone") rfl rfl).1,
    (findEndpointAccessByName_classifies Unit
      (redshiftserverless.constantClient (none, some (GoError.api "denied")) none)
      "ep" ()).2.1 (GoError.api "denied") rfl rfl,
    (findEndpointAccessByName_classifies Unit
      (redshiftserverless.constantClient (none, none) none) "ep" ()).2.2.1 rfl rfl,
    (findEndpointAccessByName_classifies Unit
      (redshiftserverless.constantClient
        (redshiftserverless.found (redshiftserverless.endpointWith "ep" "ACTIVE")) none)
      "ep" ()).2.2.2 ⟨some (redshiftserverless.endpointWith "ep" "ACTIVE")⟩ rfl rfl⟩

/-- Counterexample to the exactly-one-outcome claim: when the underlying state wait returns an
endpoint together with an error, `waitEndpointAccessActive` and
`waitEndpointAccessDeleted` return both a non-nil endpoint and a non-nil error. -/
theorem wait_returns_value_and_error :
    redshiftserverless.waitEndpointAccessActive
        (redshiftserverless.fixedWait
          (redshiftserverless.AnyValue.endpointAccess
            (some (redshiftserverless.endpointWith "ep" "FAILED")))
          (some (GoError.unexpectedState "FAILED")))
        (redshiftserverless.constantClient (none, none) none) "ep" ()
      = Except.ok ((some (redshiftserverless.endpointWith "ep" "FAILED"),
          some (GoError.unexpectedState "FAILED")),
          { remote := (), queries := 1, sleeps := 0, elapsed := 0 })
    ∧ redshiftserverless.waitEndpointAccessDeleted
        (redshiftserverless.fixedWait
          (redshiftserverless.AnyValue.endpointAccess
            (some (redshiftserverless.endpointWith "ep" "FAILED")))
          (some (GoError.unexpectedState "FAILED")))
        (redshiftserverless.constantClient (none, none) none) "ep" ()
      = Except.ok ((some (redshiftserverless.endpointWith "ep" "FAILED"),
          some (GoError.unexpectedState "FAILED")),
          { remote := (), queries := 1, sleeps := 0, elapsed := 0 }) :=
  ⟨rfl, rfl⟩

/-- C11, amended: for every result of the underlying state wait,
`waitEndpointAccessActive` and `waitEndpointAccessDeleted` return the error of
that wait unchanged, together with the raw output when it is an endpoint
pointer and nil otherwise.  So they return both a non-nil endpoint and a non-nil
error exactly when the underlying wait returns a non-nil endpoint with a non-nil
error, and never when that wait returns a nil error or no endpoint. -/
theorem wait_passes_value_and_error (σ : Type) (wait : redshiftserverless.StateWait σ)
    (conn : redshiftserverless.Client σ) (name : String) (s : σ)
    (outputRaw : redshiftserverless.AnyValue) (err : Option GoError)
    (w : redshiftserverless.PollWorld σ) :
    (wait (redshiftserverless.activeStateConf conn name) s = Except.ok ((outputRaw, err), w) →
      redshiftserverless.waitEndpointAccessActive wait conn name s
          = Except.ok ((outputRaw.asEndpointAccess, err), w)
      ∧ ((outputRaw.asEndpointAccess ≠ none ∧ err ≠ none)
          ↔ ((∃ endpoint, outputRaw = redshiftserverless.AnyValue.endpointAccess (some endpoint))
              ∧ err ≠ none)))
    ∧ (wait (redshiftserverless.deletedStateConf conn name) s = Except.ok ((outputRaw, err), w) →
      redshiftserverless.waitEndpointAccessDeleted wait conn name s
          = Except.ok ((outputRaw.asEndpointAccess, err), w)
      ∧ ((outputRaw.asEndpointAccess ≠ none ∧ err ≠ none)
          ↔ ((∃ endpoint, outputRaw = redshiftserverless.AnyValue.endpointAccess (some endpoint))
              ∧ err ≠ none))) := by
  have hiff : (outputRaw.asEndpointAccess ≠ none ∧ err ≠ none)
      ↔ ((∃ endpoint, outputRaw = redshiftserverless.AnyValue.endpointAccess (some endpoint))
          ∧ err ≠ none) := by
    cases outputRaw with
    | nil => simp [redshiftserverless.AnyValue.asEndpointAccess]
    | other d => simp [redshiftserverless.AnyValue.asEndpointAccess]
    | endpointAccess output =>
      cases output <;> simp [redshiftserverless.AnyValue.asEndpointAccess]
  constructor
  · intro h
    refine ⟨?_, hiff⟩
    unfold redshiftserverless.waitEndpointAccessActive
    rw [h]
    cases outputRaw <;> rfl
  · intro h
    refine ⟨?_, hiff⟩
    unfold redshiftserverless.waitEndpointAccessDeleted
    rw [h]
    cases outputRaw <;> rfl

/-- Witness for the pass-through of value and error: a wait that returns an endpoint and no error,
and a wait that returns no value and an error. -/
theorem wait_passes_value_and_error_witness :
    redshiftserverless.waitEndpointAccessActive
        (redshiftserverless.fixedWait
          (redshiftserverless.AnyValue.endpointAccess
            (some (redshiftserverless.endpointWith "ep" "ACTIVE"))) none)
        (redshiftserverless.constantClient (none, none) none) "ep" ()
      = Except.ok ((some (redshiftserverless.endpointWith "ep" "ACTIVE"), none),
          { remote := (), queries := 1, sleeps := 0, elapsed := 0 })
    ∧ redshiftserverless.waitEndpointAccessDeleted
        (redshiftserverless.fixedWait redshiftserverless.AnyValue.nil
          (some (GoError.timeout "DELETING")))
        (redshiftserverless.constantClient (none, none) none) "ep" ()
      = Except.ok ((none, some (GoError.timeout "DELETING")),
          { remote := (), queries := 1, sleeps := 0, elapsed := 0 }) :=
  ⟨((wait_passes_value_and_error Unit
      (redshiftserverless.fixedWait
        (redshiftserverless.AnyValue.endpointAccess
          (some (redshiftserverless.endpointWith "ep" "ACTIVE"))) none)
      (redshiftserverless.constantClient (none, none) none) "ep" ()
      (redshiftserverless.AnyValue.endpointAccess
        (some (redshiftserverless.endpointWith "ep" "ACTIVE"))) none
      { remote := (), queries := 1, sleeps := 0, elapsed := 0 }).1 rfl).1,
    ((wait_passes_value_and_error Unit
      (redshiftserverless.fixedWait redshiftserverless.AnyValue.nil
        (some (GoError.timeout "DELETING")))
      (redshiftserverless.constantClient (none, none) none) "ep" ()
      redshiftserverless.AnyValue.nil (some (GoError.timeout "DELETING"))
      { remote := (), queries := 1, sleeps := 0, elapsed := 0 }).2 rfl).1⟩

/-! ### The poll loop, one query at a time -/

theorem awaitLoop_stop {σ : Type} (policy : redshiftserverless.PollPolicy)
    (conf : redshiftserverless.StateChangeConf σ) (fuel : Nat)
    (w : redshiftserverless.PollWorld σ) (value : redshiftserverless.AnyValue) (status : String)
    (err : Option GoError) (s1 : σ) (outcome : redshiftserverless.PollOutcome)
    (hq : conf.Refresh w.remote = (Except.ok (value, status, err), s1))
    (hc : redshiftserverless.classify policy conf value status err
      = redshiftserverless.PollDecision.stop outcome) :
    redshiftserverless.awaitLoop policy conf (fuel + 1) w
      = Except.ok (outcome, ⟨s1, w.queries + 1, w.sleeps, w.elapsed⟩) := by
  simp [redshiftserverless.awaitLoop, hq, hc]

theorem awaitLoop_again {σ : Type} (policy : redshiftserverless.PollPolicy)
    (conf : redshiftserverless.StateChangeConf σ) (fuel : Nat)
    (w : redshiftserverless.PollWorld σ) (value : redshiftserverless.AnyValue) (status : String)
    (err : Option GoError) (s1 : σ) (lastStatus : String)
    (hq : conf.Refresh w.remote = (Except.ok (value, status, err), s1))
    (hc : redshiftserverless.classify policy conf value status err
      = redshiftserverless.PollDecision.again lastStatus) :
    redshiftserverless.awaitLoop policy conf (fuel + 1) w
      = if conf.Timeout ≤ w.elapsed then
          Except.ok (redshiftserverless.PollOutcome.TimedOut lastStatus,
            ⟨s1, w.queries + 1, w.sleeps, w.elapsed⟩)
        else
          redshiftserverless.awaitLoop policy conf fuel
            ⟨s1, w.queries + 1, w.sleeps + 1, w.elapsed + policy.backoff w.sleeps⟩ := by
  simp [redshiftserverless.awaitLoop, hq, hc]

theorem awaitLoop_fault {σ : Type} (policy : redshiftserverless.PollPolicy)
    (conf : redshiftserverless.StateChangeConf σ) (fuel : Nat)
    (w : redshiftserverless.PollWorld σ) (fault : Fault) (s1 : σ)
    (hq : conf.Refresh w.remote = (Except.error fault, s1)) :
    redshiftserverless.awaitLoop policy conf (fuel + 1) w = Except.error fault := by
  simp [redshiftserverless.awaitLoop, hq]

theorem statusEndpointAccess_not_found {σ : Type} (conn : redshiftserverless.Client σ)
    (name : String) (s : σ)
    (h : tfresource.NotFound (redshiftserverless.findEndpointAccessByName conn name s).1.2 = true) :
    redshiftserverless.statusEndpointAccess conn name s
      = (Except.ok (redshiftserverless.AnyValue.nil, "", none),
          (redshiftserverless.findEndpointAccessByName conn name s).2) := by
  rcases hres : redshiftserverless.findEndpointAccessByName conn name s with ⟨⟨output, err⟩, s1⟩
  rw [hres] at h
  simp only at h
  simp [redshiftserverless.statusEndpointAccess, hres, h]

/-- C12: when the lookup of the endpoint reports a not-found error, the status
query `statusEndpointAccess` returns a nil value, an empty status and no error;
and the delete-oriented wait `waitEndpointAccessDeleted` (pending `{DELETING}`,
empty target), for every poll policy that does not take the empty status for a
failure status, treats that absence as success: it returns no value and no
error after this one query, without sleeping. -/
theorem waitEndpointAccessDeleted_absent_is_success (σ : Type)
    (conn : redshiftserverless.Client σ) (name : String) (s : σ)
    (hNotFound :
      tfresource.NotFound (redshiftserverless.findEndpointAccessByName conn name s).1.2 = true) :
    redshiftserverless.statusEndpointAccess conn name s
        = (Except.ok (redshiftserverless.AnyValue.nil, "", none),
            (redshiftserverless.findEndpointAccessByName conn name s).2)
    ∧ ∀ policy : redshiftserverless.PollPolicy, policy.isFailure "" = false →
        redshiftserverless.waitEndpointAccessDeleted
            (redshiftserverless.WaitForStateContext policy) conn name s
          = Except.ok ((none, none),
              { remote := (redshiftserverless.findEndpointAccessByName conn name s).2,
                queries := 1, sleeps := 0, elapsed := 0 }) := by
  have hq := statusEndpointAccess_not_found conn name s hNotFound
  refine ⟨hq, ?_⟩
  intro policy hfail
  have hc : redshiftserverless.classify policy (redshiftserverless.deletedStateConf conn name)
      redshiftserverless.AnyValue.nil "" none
      = redshiftserverless.PollDecision.stop
          (redshiftserverless.PollOutcome.Converged redshiftserverless.AnyValue.nil) := by
    simp [redshiftserverless.classify, redshiftserverless.deletedStateConf, hfail]
  have hloop := awaitLoop_stop policy (redshiftserverless.deletedStateConf conn name)
    (redshiftserverless.deletedStateConf conn name).Timeout
    { remote := s, queries := 0, sleeps := 0, elapsed := 0 }
    redshiftserverless.AnyValue.nil "" none
    (redshiftserverless.findEndpointAccessByName conn name s).2
    (redshiftserverless.PollOutcome.Converged redshiftserverless.AnyValue.nil) hq hc
  unfold redshiftserverless.waitEndpointAccessDeleted redshiftserverless.WaitForStateContext
  rw [hloop]
  rfl

/-- Witness for absence as success: the service answers `GetEndpointAccess` with
a `ResourceNotFoundException`. -/
theorem waitEndpointAccessDeleted_absent_is_success_witness :
    tfresource.NotFound (redshiftserverless.findEndpointAccessByName
        (redshiftserverless.constantClient (none, some (GoError.resourceNotFound "gone")) none)
        "ep" ()).1.2 = true
    ∧ redshiftserverless.statusEndpointAccess
        (redshiftserverless.constantClient (none, some (GoError.resourceNotFound "gone")) none)
        "ep" ()
      = (Except.ok (redshiftserverless.AnyValue.nil, "", none), ())
    ∧ redshiftserverless.waitEndpointAccessDeleted
        (redshiftserverless.WaitForStateContext
          (redshiftserverless.constantPolicy 0 (fun _ => false)))
        (redshiftserverless.constantClient (none, some (GoError.resourceNotFound "gone")) none)
        "ep" ()
      = Except.ok ((none, none), { remote := (), queries := 1, sleeps := 0, elapsed := 0 }) :=
  ⟨rfl,
    (waitEndpointAccessDeleted_absent_is_success Unit
      (redshiftserverless.constantClient (none, some (GoError.resourceNotFound "gone")) none)
      "ep" () rfl).1,
    (waitEndpointAccessDeleted_absent_is_success Unit
      (redshiftserverless.constantClient (none, some (GoError.resourceNotFound "gone")) none)
      "ep" () rfl).2 (redshiftserverless.constantPolicy 0 (fun _ => false)) rfl⟩

theorem elapsedAfter_ge (policy : redshiftserverless.PollPolicy) :
    ∀ (n first : Nat), n ≤ policy.elapsedAfter first n := by
  intro n
  induction n with
  | zero => intro first; exact Nat.zero_le _
  | succ n ih =>
    intro first
    have h1 := policy.backoff_pos first
    have h2 := ih (first + 1)
    simp only [redshiftserverless.PollPolicy.elapsedAfter]
    omega

theorem statusEndpointAccess_scripted_found (name : String)
    (endpoint : redshiftserverless.EndpointAccess)
    (rest : List (Option redshiftserverless.GetEndpointAccessOutput × Option GoError)) :
    redshiftserverless.statusEndpointAccess redshiftserverless.scriptedClient name
        (redshiftserverless.found endpoint :: rest)
      = (Except.ok (redshiftserverless.AnyValue.endpointAccess (some endpoint),
          endpoint.EndpointStatus.getD "", none), rest) := by
  simp [redshiftserverless.statusEndpointAccess, redshiftserverless.findEndpointAccessByName,
    redshiftserverless.scriptedClient, redshiftserverless.found, tfresource.NotFound]

theorem classify_active_pending {σ : Type} (policy : redshiftserverless.PollPolicy)
    (conn : redshiftserverless.Client σ) (name : String) (value : redshiftserverless.AnyValue)
    (status : String) (h : status = "CREATING" ∨ status = "MODIFYING") :
    redshiftserverless.classify policy (redshiftserverless.activeStateConf conn name) value status
        none
      = redshiftserverless.PollDecision.again status := by
  rcases h with h | h <;> subst h <;>
    simp [redshiftserverless.classify, redshiftserverless.activeStateConf]

theorem classify_active_target {σ : Type} (policy : redshiftserverless.PollPolicy)
    (conn : redshiftserverless.Client σ) (name : String) (value : redshiftserverless.AnyValue) :
    redshiftserverless.classify policy (redshiftserverless.activeStateConf conn name) value
        "ACTIVE" none
      = redshiftserverless.PollDecision.stop (redshiftserverless.PollOutcome.Converged value) := by
  simp [redshiftserverless.classify, redshiftserverless.activeStateConf]

theorem awaitLoop_scripted (policy : redshiftserverless.PollPolicy) (name : String)
    (active : redshiftserverless.EndpointAccess)
    (rest : List (Option redshiftserverless.GetEndpointAccessOutput × Option GoError))
    (hActive : active.EndpointStatus = some "ACTIVE") :
    ∀ (pending : List redshiftserverless.EndpointAccess) (fuel q k t : Nat),
      (∀ e ∈ pending, e.EndpointStatus = some "CREATING" ∨ e.EndpointStatus = some "MODIFYING") →
      pending.length + 1 ≤ fuel →
      (∀ j, j < pending.length → t + policy.elapsedAfter k j < 10 * time.Minute) →
      redshiftserverless.awaitLoop policy
          (redshiftserverless.activeStateConf redshiftserverless.scriptedClient name) fuel
          ⟨pending.map redshiftserverless.found ++ redshiftserverless.found active :: rest, q, k, t⟩
        = Except.ok (redshiftserverless.PollOutcome.Converged
            (redshiftserverless.AnyValue.endpointAccess (some active)),
            ⟨rest, q + pending.length + 1, k + pending.length,
              t + policy.elapsedAfter k pending.length⟩) := by
  intro pending
  induction pending with
  | nil =>
    intro fuel q k t _ hfuel _
    obtain ⟨f, rfl⟩ : ∃ f, fuel = f + 1 := ⟨fuel - 1, by simp at hfuel; omega⟩
    have hq : (redshiftserverless.activeStateConf redshiftserverless.scriptedClient name).Refresh
        (redshiftserverless.found active :: rest)
        = (Except.ok (redshiftserverless.AnyValue.endpointAccess (some active), "ACTIVE", none),
            rest) := by
      have := statusEndpointAccess_scripted_found name active rest
      rw [hActive] at this
      exact this
    have := awaitLoop_stop policy
      (redshiftserverless.activeStateConf redshiftserverless.scriptedClient name) f
      ⟨redshiftserverless.found active :: rest, q, k, t⟩ _ _ _ _ _ hq
      (classify_active_target policy redshiftserverless.scriptedClient name _)
    simpa [redshiftserverless.PollPolicy.elapsedAfter] using this
  | cons e pending ih =>
    intro fuel q k t hpend hfuel hwithin
    obtain ⟨f, rfl⟩ : ∃ f, fuel = f + 1 := ⟨fuel - 1, by simp at hfuel; omega⟩
    have hst : e.EndpointStatus.getD "" = "CREATING" ∨ e.EndpointStatus.getD "" = "MODIFYING" := by
      rcases hpend e (List.mem_cons_self _ _) with h | h <;> simp [h]
    have hq : (redshiftserverless.activeStateConf redshiftserverless.scriptedClient name).Refresh
        (redshiftserverless.found e ::
          (pending.map redshiftserverless.found ++ redshiftserverless.found active :: rest))
        = (Except.ok (redshiftserverless.AnyValue.endpointAccess (some e),
            e.EndpointStatus.getD "", none),
            pending.map redshiftserverless.found ++ redshiftserverless.found active :: rest) :=
      statusEndpointAccess_scripted_found name e _
    have hstep := awaitLoop_again policy
      (redshiftserverless.activeStateConf redshiftserverless.scriptedClient name) f
      ⟨redshiftserverless.found e ::
        (pending.map redshiftserverless.found ++ redshiftserverless.found active :: rest), q, k, t⟩
      _ _ _ _ _ hq (classify_active_pending policy redshiftserverless.scriptedClient name _ _ hst)
    have h0 := hwithin 0 (by simp)
    simp only [redshiftserverless.PollPolicy.elapsedAfter, Nat.add_zero] at h0
    have hT : (redshiftserverless.activeStateConf redshiftserverless.scriptedClient name).Timeout
        = 10 * time.Minute := rfl
    have hnot : ¬ (redshiftserverless.activeStateConf redshiftserverless.scriptedClient
        name).Timeout ≤ t := by
      rw [hT]; omega
    simp only [hnot, if_false] at hstep
    have hrec := ih f (q + 1) (k + 1) (t + policy.backoff k)
      (fun x hx => hpend x (List.mem_cons_of_mem _ hx))
      (by simp at hfuel; omega)
      (by
        intro j hj
        have := hwithin (j + 1) (by simp; omega)
        simp only [redshiftserverless.PollPolicy.elapsedAfter] at this
        omega)
    simp only [List.map_cons, List.cons_append, List.length_cons]
    rw [hstep, hrec]
    simp only [redshiftserverless.PollPolicy.elapsedAfter]
    congr 2
    simp only [redshiftserverless.PollWorld.mk.injEq]
    exact ⟨trivial, by omega, by omega, by omega⟩

theorem waitEndpointAccessActive_scripted (policy : redshiftserverless.PollPolicy)
    (name : String) (pending : List redshiftserverless.EndpointAccess)
    (active : redshiftserverless.EndpointAccess)
    (rest : List (Option redshiftserverless.GetEndpointAccessOutput × Option GoError))
    (hPending : ∀ e ∈ pending,
      e.EndpointStatus = some "CREATING" ∨ e.EndpointStatus = some "MODIFYING")
    (hActive : active.EndpointStatus = some "ACTIVE")
    (hWithin : ∀ j, j < pending.length → policy.elapsedAfter 0 j < 10 * time.Minute) :
    redshiftserverless.waitEndpointAccessActive (redshiftserverless.WaitForStateContext policy)
        redshiftserverless.scriptedClient name
        (pending.map redshiftserverless.found ++ redshiftserverless.found active :: rest)
      = Except.ok ((some active, none),
          ⟨rest, pending.length + 1, pending.length, policy.elapsedAfter 0 pending.length⟩) := by
  have hfuel : pending.length + 1 ≤ 10 * time.Minute + 1 := by
    cases hlen : pending.length with
    | zero => omega
    | succ n =>
      have h1 := hWithin n (by omega)
      have h2 := elapsedAfter_ge policy n 0
      omega
  have hloop := awaitLoop_scripted policy name active rest hActive pending
    (10 * time.Minute + 1) 0 0 0 hPending hfuel
    (by intro j hj; simpa using hWithin j hj)
  unfold redshiftserverless.waitEndpointAccessActive redshiftserverless.WaitForStateContext
  have hT : (redshiftserverless.activeStateConf redshiftserverless.scriptedClient name).Timeout
      = 10 * time.Minute := rfl
  rw [hT, hloop]
  simp [redshiftserverless.PollOutcome.toGo]

/-- C14: with pending `{CREATING, MODIFYING}` and target `{ACTIVE}` as configured
in `waitEndpointAccessActive`: for every number `n` of pending observations, if
the status query observes `n` endpoints with a pending status followed by one
with status `ACTIVE`, each pending one before the timeout, the wait returns the
endpoint observed with `ACTIVE` and no error after exactly `n + 1` queries and
`n` sleeps.  For `n = 0` that is one query and no sleep; for the sequence
`[CREATING, CREATING, ACTIVE]` with an interval of 1 unit, 3 queries and 2 sleeps. -/
theorem waitEndpointAccessActive_converges :
    (∀ (policy : redshiftserverless.PollPolicy) (name : String)
        (pending : List redshiftserverless.EndpointAccess)
        (active : redshiftserverless.EndpointAccess)
        (rest : List (Option redshiftserverless.GetEndpointAccessOutput × Option GoError)),
      (∀ e ∈ pending,
        e.EndpointStatus = some "CREATING" ∨ e.EndpointStatus = some "MODIFYING") →
      active.EndpointStatus = some "ACTIVE" →
      (∀ j, j < pending.length → policy.elapsedAfter 0 j < 10 * time.Minute) →
      redshiftserverless.waitEndpointAccessActive (redshiftserverless.WaitForStateContext policy)
          redshiftserverless.scriptedClient name
          (pending.map redshiftserverless.found ++ redshiftserverless.found active :: rest)
        = Except.ok ((some active, none),
            ⟨rest, pending.length + 1, pending.length,
              policy.elapsedAfter 0 pending.length⟩))
    ∧ (∀ (policy : redshiftserverless.PollPolicy) (name : String)
        (active : redshiftserverless.EndpointAccess)
        (rest : List (Option redshiftserverless.GetEndpointAccessOutput × Option GoError)),
      active.EndpointStatus = some "ACTIVE" →
      redshiftserverless.waitEndpointAccessActive (redshiftserverless.WaitForStateContext policy)
          redshiftserverless.scriptedClient name (redshiftserverless.found active :: rest)
        = Except.ok ((some active, none), ⟨rest, 1, 0, 0⟩))
    ∧ (∀ (name : String) (isTransient : GoError → Bool)
        (rest : List (Option redshiftserverless.GetEndpointAccessOutput × Option GoError)),
      redshiftserverless.waitEndpointAccessActive
          (redshiftserverless.WaitForStateContext
            (redshiftserverless.constantPolicy 0 isTransient))
          redshiftserverless.scriptedClient name
          (redshiftserverless.found (redshiftserverless.endpointWith name "CREATING")
            :: redshiftserverless.found (redshiftserverless.endpointWith name "CREATING")
            :: redshiftserverless.found (redshiftserverless.endpointWith name "ACTIVE") :: rest)
        = Except.ok ((some (redshiftserverless.endpointWith name "ACTIVE"), none),
            ⟨rest, 3, 2, 2⟩)) := by
  refine ⟨waitEndpointAccessActive_scripted, ?_, ?_⟩
  · intro policy name active rest hActive
    have := waitEndpointAccessActive_scripted policy name [] active rest
      (by intro e he; simp at he) hActive (by intro j hj; simp at hj)
    simpa [redshiftserverless.PollPolicy.elapsedAfter] using this
  · intro name isTransient rest
    have := waitEndpointAccessActive_scripted
      (redshiftserverless.constantPolicy 0 isTransient) name
      [redshiftserverless.endpointWith name "CREATING",
        redshiftserverless.endpointWith name "CREATING"]
      (redshiftserverless.endpointWith name "ACTIVE") rest
      (by intro e he; simp at he; subst he; exact Or.inl rfl)
      rfl
      (by
        intro j hj
        simp at hj
        have hj2 : j = 0 ∨ j = 1 := by omega
        rcases hj2 with h | h <;> subst h <;>
          simp [redshiftserverless.PollPolicy.elapsedAfter, redshiftserverless.constantPolicy,
            time.Minute, time.Second])
    simpa [redshiftserverless.PollPolicy.elapsedAfter, redshiftserverless.constantPolicy]
      using this

/-- Witness for the convergence of the wait: one observation `MODIFYING`, then
`ACTIVE`, with a delay of one second. -/
theorem waitEndpointAccessActive_converges_witness :
    (∀ e ∈ [redshiftserverless.endpointWith "ep" "MODIFYING"],
        e.EndpointStatus = some "CREATING" ∨ e.EndpointStatus = some "MODIFYING")
    ∧ redshiftserverless.waitEndpointAccessActive
        (redshiftserverless.WaitForStateContext
          (redshiftserverless.constantPolicy 999999999 (fun _ => false)))
        redshiftserverless.scriptedClient "ep"
        ([redshiftserverless.endpointWith "ep" "MODIFYING"].map redshiftserverless.found
          ++ redshiftserverless.found (redshiftserverless.endpointWith "ep" "ACTIVE") :: [])
      = Except.ok ((some (redshiftserverless.endpointWith "ep" "ACTIVE"), none),
          ⟨[], [redshiftserverless.endpointWith "ep" "MODIFYING"].length + 1,
            [redshiftserverless.endpointWith "ep" "MODIFYING"].length,
            (redshiftserverless.constantPolicy 999999999 (fun _ => false)).elapsedAfter 0
              [redshiftserverless.endpointWith "ep" "MODIFYING"].length⟩) :=
  ⟨by intro e he; simp at he; subst he; exact Or.inr rfl,
    waitEndpointAccessActive_converges.1
      (redshiftserverless.constantPolicy 999999999 (fun _ => false)) "ep"
      [redshiftserverless.endpointWith "ep" "MODIFYING"]
      (redshiftserverless.endpointWith "ep" "ACTIVE") []
      (by intro e he; simp at he; subst he; exact Or.inr rfl)
      rfl
      (by
        intro j hj
        simp at hj
        subst hj
        simp [redshiftserverless.PollPolicy.elapsedAfter, time.Minute, time.Second])⟩

theorem statusEndpointAccess_found {σ : Type} (conn : redshiftserverless.Client σ)
    (name : String) (s s1 : σ) (endpoint : redshiftserverless.EndpointAccess)
    (h : conn.GetEndpointAccess ⟨some name⟩ s = ((some ⟨some endpoint⟩, none), s1)) :
    redshiftserverless.statusEndpointAccess conn name s
      = (Except.ok (redshiftserverless.AnyValue.endpointAccess (some endpoint),
          endpoint.EndpointStatus.getD "", none), s1) := by
  simp [redshiftserverless.statusEndpointAccess, redshiftserverless.findEndpointAccessByName, h,
    tfresource.NotFound]

theorem classify_deleted_pending {σ : Type} (policy : redshiftserverless.PollPolicy)
    (conn : redshiftserverless.Client σ) (name : String) (value : redshiftserverless.AnyValue) :
    redshiftserverless.classify policy (redshiftserverless.deletedStateConf conn name) value
        "DELETING" none
      = redshiftserverless.PollDecision.again "DELETING" := by
  simp [redshiftserverless.classify, redshiftserverless.deletedStateConf]

theorem awaitLoop_always_again {σ : Type} (policy : redshiftserverless.PollPolicy)
    (conf : redshiftserverless.StateChangeConf σ)
    (hAll : ∀ s : σ, ∃ (value : redshiftserverless.AnyValue) (status : String) (s1 : σ),
      conf.Refresh s = (Except.ok (value, status, none), s1)
      ∧ redshiftserverless.classify policy conf value status none
          = redshiftserverless.PollDecision.again status
      ∧ status ∈ conf.Pending) :
    ∀ (fuel : Nat) (w : redshiftserverless.PollWorld σ),
      conf.Timeout - w.elapsed + 1 ≤ fuel →
      ∃ (status : String) (w1 : redshiftserverless.PollWorld σ),
        redshiftserverless.awaitLoop policy conf fuel w
          = Except.ok (redshiftserverless.PollOutcome.TimedOut status, w1)
        ∧ conf.Timeout ≤ w1.elapsed ∧ status ∈ conf.Pending := by
  intro fuel
  induction fuel with
  | zero => intro w h; omega
  | succ f ih =>
    intro w hfuel
    obtain ⟨value, status, s1, hq, hc, hmem⟩ := hAll w.remote
    have hstep := awaitLoop_again policy conf f w value status none s1 status hq hc
    by_cases ht : conf.Timeout ≤ w.elapsed
    · simp only [ht, if_true] at hstep
      exact ⟨status, _, hstep, ht, hmem⟩
    · simp only [ht, if_false] at hstep
      have hpos := policy.backoff_pos w.sleeps
      obtain ⟨st, w1, hrun, hle, hst⟩ := ih
        ⟨s1, w.queries + 1, w.sleeps + 1, w.elapsed + policy.backoff w.sleeps⟩
        (by simp only; omega)
      exact ⟨st, w1, by rw [hstep, hrun], hle, hst⟩

/-- C15: if the status query always returns a status in the pending set
(`CREATING` or `MODIFYING` for `waitEndpointAccessActive`, `DELETING` for
`waitEndpointAccessDeleted`), the wait terminates with a timed-out failure that
carries a pending status, and it does so only once the elapsed time is at least
the configured timeout of 10 minutes. -/
theorem wait_always_pending_times_out (σ : Type) (policy : redshiftserverless.PollPolicy)
    (conn : redshiftserverless.Client σ) (name : String) (s : σ) :
    ((∀ s0 : σ, ∃ (endpoint : redshiftserverless.EndpointAccess) (s1 : σ),
        conn.GetEndpointAccess ⟨some name⟩ s0 = ((some ⟨some endpoint⟩, none), s1)
        ∧ (endpoint.EndpointStatus = some "CREATING"
          ∨ endpoint.EndpointStatus = some "MODIFYING")) →
      ∃ (status : String) (w : redshiftserverless.PollWorld σ),
        redshiftserverless.waitEndpointAccessActive
            (redshiftserverless.WaitForStateContext policy) conn name s
          = Except.ok ((none, some (GoError.timeout status)), w)
        ∧ 10 * time.Minute ≤ w.elapsed
        ∧ (status = "CREATING" ∨ status = "MODIFYING"))
    ∧ ((∀ s0 : σ, ∃ (endpoint : redshiftserverless.EndpointAccess) (s1 : σ),
        conn.GetEndpointAccess ⟨some name⟩ s0 = ((some ⟨some endpoint⟩, none), s1)
        ∧ endpoint.EndpointStatus = some "DELETING") →
      ∃ (w : redshiftserverless.PollWorld σ),
        redshiftserverless.waitEndpointAccessDeleted
            (redshiftserverless.WaitForStateContext policy) conn name s
          = Except.ok ((none, some (GoError.timeout "DELETING")), w)
        ∧ 10 * time.Minute ≤ w.elapsed) := by
  constructor
  · intro hAll
    have hAll2 : ∀ s0 : σ, ∃ (value : redshiftserverless.AnyValue) (status : String) (s1 : σ),
        (redshiftserverless.activeStateConf conn name).Refresh s0
          = (Except.ok (value, status, none), s1)
        ∧ redshiftserverless.classify policy (redshiftserverless.activeStateConf conn name)
            value status none = redshiftserverless.PollDecision.again status
        ∧ status ∈ (redshiftserverless.activeStateConf conn name).Pending := by
      intro s0
      obtain ⟨endpoint, s1, hget, hst⟩ := hAll s0
      have hst2 : endpoint.EndpointStatus.getD "" = "CREATING"
          ∨ endpoint.EndpointStatus.getD "" = "MODIFYING" := by
        rcases hst with h | h <;> simp [h]
      refine ⟨_, _, s1, statusEndpointAccess_found conn name s0 s1 endpoint hget,
        classify_active_pending policy conn name _ _ hst2, ?_⟩
      rcases hst2 with h | h <;> simp [h, redshiftserverless.activeStateConf]
    obtain ⟨status, w, hrun, hle, hmem⟩ := awaitLoop_always_again policy
      (redshiftserverless.activeStateConf conn name) hAll2
      ((redshiftserverless.activeStateConf conn name).Timeout + 1) ⟨s, 0, 0, 0⟩
      (by simp)
    refine ⟨status, w, ?_, hle, ?_⟩
    · unfold redshiftserverless.waitEndpointAccessActive redshiftserverless.WaitForStateContext
      rw [hrun]
      rfl
    · simpa [redshiftserverless.activeStateConf] using hmem
  · intro hAll
    have hAll2 : ∀ s0 : σ, ∃ (value : redshiftserverless.AnyValue) (status : String) (s1 : σ),
        (redshiftserverless.deletedStateConf conn name).Refresh s0
          = (Except.ok (value, status, none), s1)
        ∧ redshiftserverless.classify policy (redshiftserverless.deletedStateConf conn name)
            value status none = redshiftserverless.PollDecision.again status
        ∧ status ∈ (redshiftserverless.deletedStateConf conn name).Pending := by
      intro s0
      obtain ⟨endpoint, s1, hget, hst⟩ := hAll s0
      have hst2 : endpoint.EndpointStatus.getD "" = "DELETING" := by simp [hst]
      have hq := statusEndpointAccess_found conn name s0 s1 endpoint hget
      rw [hst2] at hq
      exact ⟨_, _, s1, hq, classify_deleted_pending policy conn name _,
        by simp [redshiftserverless.deletedStateConf]⟩
    obtain ⟨status, w, hrun, hle, hmem⟩ := awaitLoop_always_again policy
      (redshiftserverless.deletedStateConf conn name) hAll2
      ((redshiftserverless.deletedStateConf conn name).Timeout + 1) ⟨s, 0, 0, 0⟩
      (by simp)
    have hst : status = "DELETING" := by
      simpa [redshiftserverless.deletedStateConf] using hmem
    subst hst
    refine ⟨w, ?_, hle⟩
    unfold redshiftserverless.waitEndpointAccessDeleted redshiftserverless.WaitForStateContext
    rw [hrun]
    rfl

/-- Witness for the timeout: the service answers every query with status
`CREATING` (or `DELETING`) and the delay is five minutes; the wait times out
after the third query, 10 minutes and 2 nanoseconds after the first. -/
theorem wait_always_pending_times_out_witness :
    redshiftserverless.waitEndpointAccessActive
        (redshiftserverless.WaitForStateContext
          (redshiftserverless.constantPolicy (5 * time.Minute) (fun _ => false)))
        (redshiftserverless.constantClient
          (redshiftserverless.found (redshiftserverless.endpointWith "ep" "CREATING")) none)
        "ep" ()
      = Except.ok ((none, some (GoError.timeout "CREATING")), ⟨(), 3, 2, 600000000002⟩)
    ∧ (∃ (status : String) (w : redshiftserverless.PollWorld Unit),
        redshiftserverless.waitEndpointAccessActive
            (redshiftserverless.WaitForStateContext
              (redshiftserverless.constantPolicy (5 * time.Minute) (fun _ => false)))
            (redshiftserverless.constantClient
              (redshiftserverless.found (redshiftserverless.endpointWith "ep" "CREATING")) none)
            "ep" ()
          = Except.ok ((none, some (GoError.timeout status)), w)
        ∧ 10 * time.Minute ≤ w.elapsed
        ∧ (status = "CREATING" ∨ status = "MODIFYING"))
    ∧ (∃ (w : redshiftserverless.PollWorld Unit),
        redshiftserverless.waitEndpointAccessDeleted
            (redshiftserverless.WaitForStateContext
              (redshiftserverless.constantPolicy (5 * time.Minute) (fun _ => false)))
            (redshiftserverless.constantClient
              (redshiftserverless.found (redshiftserverless.endpointWith "ep" "DELETING")) none)
            "ep" ()
          = Except.ok ((none, some (GoError.timeout "DELETING")), w)
        ∧ 10 * time.Minute ≤ w.elapsed) :=
  ⟨rfl,
    (wait_always_pending_times_out Unit
      (redshiftserverless.constantPolicy (5 * time.Minute) (fun _ => false))
      (redshiftserverless.constantClient
        (redshiftserverless.found (redshiftserverless.endpointWith "ep" "CREATING")) none)
      "ep" ()).1
      (fun _ => ⟨redshiftserverless.endpointWith "ep" "CREATING", (), rfl, Or.inl rfl⟩),
    (wait_always_pending_times_out Unit
      (redshiftserverless.constantPolicy (5 * time.Minute) (fun _ => false))
      (redshiftserverless.constantClient
        (redshiftserverless.found (redshiftserverless.endpointWith "ep" "DELETING")) none)
      "ep" ()).2
      (fun _ => ⟨redshiftserverless.endpointWith "ep" "DELETING", (), rfl, rfl⟩)⟩

/-! ### Transient errors of the status query -/

theorem statusEndpointAccess_error {σ : Type} (conn : redshiftserverless.Client σ)
    (name : String) (s s1 : σ) (value : redshiftserverless.AnyValue) (status : String)
    (e : GoError)
    (h : redshiftserverless.statusEndpointAccess conn name s
      = (Except.ok (value, status, some e), s1)) :
    tfresource.NotFound (some e) = false := by
  unfold redshiftserverless.statusEndpointAccess at h
  rcases hres : redshiftserverless.findEndpointAccessByName conn name s with ⟨⟨output, err⟩, s2⟩
  rw [hres] at h
  simp only at h
  by_cases hnf : tfresource.NotFound err = true
  · simp [hnf] at h
  · cases err with
    | none =>
      cases output <;> simp [hnf] at h
    | some e2 =>
      simp [hnf] at h
      obtain ⟨⟨_, _, he⟩, _⟩ := h
      subst he
      simpa using hnf

theorem classify_transient {σ : Type} (policy : redshiftserverless.PollPolicy)
    (conf : redshiftserverless.StateChangeConf σ) (value : redshiftserverless.AnyValue)
    (status : String) (e : GoError) (hnf : tfresource.NotFound (some e) = false)
    (ht : policy.isTransient e = true) :
    redshiftserverless.classify policy conf value status (some e)
      = redshiftserverless.PollDecision.again status := by
  simp [redshiftserverless.classify, hnf, ht]

theorem classify_failed {σ : Type} (policy : redshiftserverless.PollPolicy)
    (conf : redshiftserverless.StateChangeConf σ) (value : redshiftserverless.AnyValue)
    (status : String) (err : Option GoError) (e : GoError)
    (h : redshiftserverless.classify policy conf value status err
      = redshiftserverless.PollDecision.stop (redshiftserverless.PollOutcome.Failed e)) :
    (∃ st, e = GoError.unexpectedState st) ∨ policy.isTransient e = false := by
  unfold redshiftserverless.classify at h
  cases err with
  | some e2 =>
    simp only at h
    split_ifs at h with h1 h2
    · simp at h
    · simp at h
      subst h
      right
      simpa using h2
  | none =>
    simp only at h
    split_ifs at h with h1 h2 h3
    · simp at h
    · simp at h
      exact Or.inl ⟨status, h.symm⟩
    · simp at h
      exact Or.inl ⟨status, h.symm⟩

theorem awaitLoop_failed {σ : Type} (policy : redshiftserverless.PollPolicy)
    (conf : redshiftserverless.StateChangeConf σ) :
    ∀ (fuel : Nat) (w w1 : redshiftserverless.PollWorld σ) (e : GoError),
      redshiftserverless.awaitLoop policy conf fuel w
        = Except.ok (redshiftserverless.PollOutcome.Failed e, w1) →
      (∃ st, e = GoError.unexpectedState st) ∨ policy.isTransient e = false := by
  intro fuel
  induction fuel with
  | zero => intro w w1 e h; simp [redshiftserverless.awaitLoop] at h
  | succ f ih =>
    intro w w1 e h
    rcases hq : conf.Refresh w.remote with ⟨res, s1⟩
    cases res with
    | error fault =>
      rw [awaitLoop_fault policy conf f w fault s1 hq] at h
      simp at h
    | ok triple =>
      obtain ⟨value, status, err⟩ := triple
      cases hc : redshiftserverless.classify policy conf value status err with
      | stop outcome =>
        rw [awaitLoop_stop policy conf f w value status err s1 outcome hq hc] at h
        simp at h
        obtain ⟨ho, _⟩ := h
        subst ho
        exact classify_failed policy conf value status err e hc
      | again lastStatus =>
        rw [awaitLoop_again policy conf f w value status err s1 lastStatus hq hc] at h
        split_ifs at h with ht
        · simp at h
        · exact ih _ w1 e h

theorem wait_error_not_transient {σ : Type} (policy : redshiftserverless.PollPolicy)
    (conf : redshiftserverless.StateChangeConf σ) (s : σ)
    (outputRaw : redshiftserverless.AnyValue) (err : GoError)
    (w : redshiftserverless.PollWorld σ)
    (h : redshiftserverless.WaitForStateContext policy conf s
      = Except.ok ((outputRaw, some err), w)) :
    (∃ st, err = GoError.timeout st) ∨ (∃ st, err = GoError.unexpectedState st)
      ∨ policy.isTransient err = false := by
  unfold redshiftserverless.WaitForStateContext at h
  cases hrun : redshiftserverless.awaitLoop policy conf (conf.Timeout + 1)
      { remote := s, queries := 0, sleeps := 0, elapsed := 0 } with
  | error fault => rw [hrun] at h; simp at h
  | ok res =>
    obtain ⟨outcome, w1⟩ := res
    rw [hrun] at h
    cases outcome with
    | Converged value => simp [redshiftserverless.PollOutcome.toGo] at h
    | TimedOut lastStatus =>
      simp [redshiftserverless.PollOutcome.toGo] at h
      exact Or.inl ⟨lastStatus, h.1.2.symm⟩
    | Failed e =>
      simp [redshiftserverless.PollOutcome.toGo] at h
      have he : e = err := h.1.2
      subst he
      exact Or.inr (awaitLoop_failed policy conf _ _ w1 e hrun)

theorem statusEndpointAccess_cases {σ : Type} (conn : redshiftserverless.Client σ)
    (name : String) (s : σ) :
    redshiftserverless.statusEndpointAccess conn name s
      = (match (redshiftserverless.findEndpointAccessByName conn name s).1 with
          | (_, some e) =>
            if tfresource.NotFound (some e) = true then
              Except.ok (redshiftserverless.AnyValue.nil, "", none)
            else Except.ok (redshiftserverless.AnyValue.nil, "", some e)
          | (none, none) => Except.error Fault.nilDereference
          | (some endpoint, none) =>
            Except.ok (redshiftserverless.AnyValue.endpointAccess (some endpoint),
              endpoint.EndpointStatus.getD "", none),
        (redshiftserverless.findEndpointAccessByName conn name s).2) := by
  rcases hres : redshiftserverless.findEndpointAccessByName conn name s with ⟨⟨output, err⟩, s1⟩
  cases err with
  | some e =>
    by_cases hnf : tfresource.NotFound (some e) = true
    · simp [redshiftserverless.statusEndpointAccess, hres, hnf]
    · simp [redshiftserverless.statusEndpointAccess, hres, hnf]
  | none =>
    cases output <;>
      simp [redshiftserverless.statusEndpointAccess, hres, tfresource.NotFound]

theorem classify_permanent {σ : Type} (policy : redshiftserverless.PollPolicy)
    (conf : redshiftserverless.StateChangeConf σ) (value : redshiftserverless.AnyValue)
    (status : String) (e : GoError) (hnf : tfresource.NotFound (some e) = false)
    (ht : policy.isTransient e = false) :
    redshiftserverless.classify policy conf value status (some e)
      = redshiftserverless.PollDecision.stop (redshiftserverless.PollOutcome.Failed e) := by
  simp [redshiftserverless.classify, hnf, ht]

theorem WaitForStateContext_error_surfaced {σ : Type} (policy : redshiftserverless.PollPolicy)
    (conf : redshiftserverless.StateChangeConf σ) (s s1 : σ)
    (value : redshiftserverless.AnyValue) (status : String) (e : GoError)
    (hq : conf.Refresh s = (Except.ok (value, status, some e), s1))
    (hnf : tfresource.NotFound (some e) = false) (ht : policy.isTransient e = false) :
    redshiftserverless.WaitForStateContext policy conf s
      = Except.ok ((redshiftserverless.AnyValue.nil, some e), ⟨s1, 1, 0, 0⟩) := by
  unfold redshiftserverless.WaitForStateContext
  rw [awaitLoop_stop policy conf conf.Timeout ⟨s, 0, 0, 0⟩ value status (some e) s1
    (redshiftserverless.PollOutcome.Failed e) hq
    (classify_permanent policy conf value status e hnf ht)]
  rfl

theorem WaitForStateContext_error_retried {σ : Type} (policy : redshiftserverless.PollPolicy)
    (conf : redshiftserverless.StateChangeConf σ) (s s1 : σ)
    (value : redshiftserverless.AnyValue) (status : String) (e : GoError)
    (hq : conf.Refresh s = (Except.ok (value, status, some e), s1))
    (hnf : tfresource.NotFound (some e) = false) (ht : policy.isTransient e = true)
    (hpos : 0 < conf.Timeout) :
    redshiftserverless.WaitForStateContext policy conf s
      = (match redshiftserverless.awaitLoop policy conf conf.Timeout
            ⟨s1, 1, 1, policy.backoff 0⟩ with
          | Except.error fault => Except.error fault
          | Except.ok (outcome, w) => Except.ok (outcome.toGo, w)) := by
  unfold redshiftserverless.WaitForStateContext
  rw [awaitLoop_again policy conf conf.Timeout ⟨s, 0, 0, 0⟩ value status (some e) s1 status hq
    (classify_transient policy conf value status e hnf ht)]
  rw [if_neg (show ¬ conf.Timeout ≤ (⟨s, 0, 0, 0⟩ : redshiftserverless.PollWorld σ).elapsed
    from Nat.not_le.mpr hpos)]
  simp

theorem waitEndpointAccessActive_asEndpointAccess {σ : Type}
    (wait : redshiftserverless.StateWait σ) (conn : redshiftserverless.Client σ)
    (name : String) (s : σ) :
    redshiftserverless.waitEndpointAccessActive wait conn name s
      = (match wait (redshiftserverless.activeStateConf conn name) s with
          | Except.error fault => Except.error fault
          | Except.ok (res, w) => Except.ok ((res.1.asEndpointAccess, res.2), w)) := by
  unfold redshiftserverless.waitEndpointAccessActive
  cases wait (redshiftserverless.activeStateConf conn name) s with
  | error fault => rfl
  | ok res =>
    obtain ⟨⟨outputRaw, err⟩, w⟩ := res
    cases outputRaw <;> rfl

theorem waitEndpointAccessDeleted_asEndpointAccess {σ : Type}
    (wait : redshiftserverless.StateWait σ) (conn : redshiftserverless.Client σ)
    (name : String) (s : σ) :
    redshiftserverless.waitEndpointAccessDeleted wait conn name s
      = (match wait (redshiftserverless.deletedStateConf conn name) s with
          | Except.error fault => Except.error fault
          | Except.ok (res, w) => Except.ok ((res.1.asEndpointAccess, res.2), w)) := by
  unfold redshiftserverless.waitEndpointAccessDeleted
  cases wait (redshiftserverless.deletedStateConf conn name) s with
  | error fault => rfl
  | ok res =>
    obtain ⟨⟨outputRaw, err⟩, w⟩ := res
    cases outputRaw <;> rfl

/-- C13, as stated, fails.  The lookup is throttled once and would then find the
endpoint `ACTIVE` (or gone).  `statusEndpointAccess` hands the throttling error to
the state wait, with a nil value and an empty status, as it does every error
that is not not-found; under the state wait that classifies no error as
transient (the `StateChangeConf` of the two waits sets `Pending`, `Target`,
`Refresh` and `Timeout` and no such classification) `waitEndpointAccessActive`
and `waitEndpointAccessDeleted` return that error on its own after one query and
no sleep, at elapsed time zero, long before the timeout of ten minutes. -/
theorem wait_surfaces_throttling_error :
    redshiftserverless.statusEndpointAccess redshiftserverless.scriptedClient "ep"
        [(none, some (GoError.api "ThrottlingException")),
          redshiftserverless.found (redshiftserverless.endpointWith "ep" "ACTIVE")]
      = (Except.ok (redshiftserverless.AnyValue.nil, "",
            some (GoError.api "ThrottlingException")),
          [redshiftserverless.found (redshiftserverless.endpointWith "ep" "ACTIVE")])
    ∧ redshiftserverless.waitEndpointAccessActive
        (redshiftserverless.WaitForStateContext (redshiftserverless.plainPolicy 0))
        redshiftserverless.scriptedClient "ep"
        [(none, some (GoError.api "ThrottlingException")),
          redshiftserverless.found (redshiftserverless.endpointWith "ep" "ACTIVE")]
      = Except.ok ((none, some (GoError.api "ThrottlingException")),
          ⟨[redshiftserverless.found (redshiftserverless.endpointWith "ep" "ACTIVE")], 1, 0, 0⟩)
    ∧ redshiftserverless.waitEndpointAccessDeleted
        (redshiftserverless.WaitForStateContext (redshiftserverless.plainPolicy 0))
        redshiftserverless.scriptedClient "ep"
        [(none, some (GoError.api "ThrottlingException")),
          (none, some (GoError.resourceNotFound "gone"))]
      = Except.ok ((none, some (GoError.api "ThrottlingException")),
          ⟨[(none, some (GoError.resourceNotFound "gone"))], 1, 0, 0⟩)
    ∧ (0 : Nat) < (redshiftserverless.activeStateConf redshiftserverless.scriptedClient "ep").Timeout
    ∧ (0 : Nat)
        < (redshiftserverless.deletedStateConf redshiftserverless.scriptedClient "ep").Timeout :=
  ⟨rfl, rfl, rfl, by decide, by decide⟩

/-- C13, amended: in every polling session of `waitEndpointAccessActive` and of
`waitEndpointAccessDeleted` the status query absorbs only a not-found lookup
error; every other lookup error, a transient one included, it returns unchanged
with a nil value and an empty status.  Whether such an error is absorbed is
decided by the state wait alone.  An error the wait does not classify as
transient is surfaced by both functions on its own at the query that returned
it, with no sleep and no timeout exceeded.  An error the wait classifies as
transient is absorbed and retried: the session goes on after the backoff sleep
from the next query, the sleep counted toward the timeout, and ends with a
timeout only when the elapsed time has reached the timeout.  No error a session
returns is an error the wait classifies as transient: it is a timeout, a failure
status, or an error the wait does not classify as transient. -/
theorem wait_transient_error_by_classification (σ : Type)
    (policy : redshiftserverless.PollPolicy) (conn : redshiftserverless.Client σ)
    (name : String) :
    (∀ (s : σ) (e : GoError),
      (redshiftserverless.findEndpointAccessByName conn name s).1.2 = some e →
      tfresource.NotFound (some e) = false →
      redshiftserverless.statusEndpointAccess conn name s
        = (Except.ok (redshiftserverless.AnyValue.nil, "", some e),
            (redshiftserverless.findEndpointAccessByName conn name s).2))
    ∧ (∀ (s s1 : σ) (e : GoError),
      redshiftserverless.statusEndpointAccess conn name s
        = (Except.ok (redshiftserverless.AnyValue.nil, "", some e), s1) →
      policy.isTransient e = false →
      redshiftserverless.waitEndpointAccessActive
          (redshiftserverless.WaitForStateContext policy) conn name s
        = Except.ok ((none, some e), ⟨s1, 1, 0, 0⟩)
      ∧ redshiftserverless.waitEndpointAccessDeleted
          (redshiftserverless.WaitForStateContext policy) conn name s
        = Except.ok ((none, some e), ⟨s1, 1, 0, 0⟩))
    ∧ (∀ (s s1 : σ) (e : GoError),
      redshiftserverless.statusEndpointAccess conn name s
        = (Except.ok (redshiftserverless.AnyValue.nil, "", some e), s1) →
      policy.isTransient e = true →
      redshiftserverless.waitEndpointAccessActive
          (redshiftserverless.WaitForStateContext policy) conn name s
        = (match redshiftserverless.awaitLoop policy
              (redshiftserverless.activeStateConf conn name) (10 * time.Minute)
              ⟨s1, 1, 1, policy.backoff 0⟩ with
            | Except.error fault => Except.error fault
            | Except.ok (outcome, w) =>
              Except.ok ((outcome.toGo.1.asEndpointAccess, outcome.toGo.2), w))
      ∧ redshiftserverless.waitEndpointAccessDeleted
          (redshiftserverless.WaitForStateContext policy) conn name s
        = (match redshiftserverless.awaitLoop policy
              (redshiftserverless.deletedStateConf conn name) (10 * time.Minute)
              ⟨s1, 1, 1, policy.backoff 0⟩ with
            | Except.error fault => Except.error fault
            | Except.ok (outcome, w) =>
              Except.ok ((outcome.toGo.1.asEndpointAccess, outcome.toGo.2), w)))
    ∧ (∀ (fuel : Nat) (w : redshiftserverless.PollWorld σ) (e : GoError) (s1 : σ),
      redshiftserverless.statusEndpointAccess conn name w.remote
        = (Except.ok (redshiftserverless.AnyValue.nil, "", some e), s1) →
      policy.isTransient e = true →
      redshiftserverless.awaitLoop policy (redshiftserverless.activeStateConf conn name)
          (fuel + 1) w
        = (if 10 * time.Minute ≤ w.elapsed then
            Except.ok (redshiftserverless.PollOutcome.TimedOut "",
              ⟨s1, w.queries + 1, w.sleeps, w.elapsed⟩)
          else
            redshiftserverless.awaitLoop policy (redshiftserverless.activeStateConf conn name)
              fuel ⟨s1, w.queries + 1, w.sleeps + 1, w.elapsed + policy.backoff w.sleeps⟩)
      ∧ redshiftserverless.awaitLoop policy (redshiftserverless.deletedStateConf conn name)
          (fuel + 1) w
        = (if 10 * time.Minute ≤ w.elapsed then
            Except.ok (redshiftserverless.PollOutcome.TimedOut "",
              ⟨s1, w.queries + 1, w.sleeps, w.elapsed⟩)
          else
            redshiftserverless.awaitLoop policy (redshiftserverless.deletedStateConf conn name)
              fuel ⟨s1, w.queries + 1, w.sleeps + 1, w.elapsed + policy.backoff w.sleeps⟩))
    ∧ (∀ (s : σ) (value : Option redshiftserverless.EndpointAccess) (err : GoError)
        (w : redshiftserverless.PollWorld σ),
      redshiftserverless.waitEndpointAccessActive
          (redshiftserverless.WaitForStateContext policy) conn name s
        = Except.ok ((value, some err), w) →
      (∃ st, err = GoError.timeout st) ∨ (∃ st, err = GoError.unexpectedState st)
        ∨ policy.isTransient err = false)
    ∧ (∀ (s : σ) (value : Option redshiftserverless.EndpointAccess) (err : GoError)
        (w : redshiftserverless.PollWorld σ),
      redshiftserverless.waitEndpointAccessDeleted
          (redshiftserverless.WaitForStateContext policy) conn name s
        = Except.ok ((value, some err), w) →
      (∃ st, err = GoError.timeout st) ∨ (∃ st, err = GoError.unexpectedState st)
        ∨ policy.isTransient err = false) := by
  refine ⟨?_, ?_, ?_, ?_, ?_, ?_⟩
  · intro s e he hnf
    rw [statusEndpointAccess_cases]
    rcases hres : redshiftserverless.findEndpointAccessByName conn name s with
      ⟨⟨output, err⟩, s1⟩
    rw [hres] at he
    simp only at he
    subst he
    simp [hnf]
  · intro s s1 e hq ht
    have hnf := statusEndpointAccess_error conn name s s1 _ _ e hq
    constructor
    · rw [waitEndpointAccessActive_asEndpointAccess,
        WaitForStateContext_error_surfaced policy (redshiftserverless.activeStateConf conn name)
          s s1 redshiftserverless.AnyValue.nil "" e hq hnf ht]
      rfl
    · rw [waitEndpointAccessDeleted_asEndpointAccess,
        WaitForStateContext_error_surfaced policy (redshiftserverless.deletedStateConf conn name)
          s s1 redshiftserverless.AnyValue.nil "" e hq hnf ht]
      rfl
  · intro s s1 e hq ht
    have hnf := statusEndpointAccess_error conn name s s1 _ _ e hq
    constructor
    · rw [waitEndpointAccessActive_asEndpointAccess,
        WaitForStateContext_error_retried policy (redshiftserverless.activeStateConf conn name)
          s s1 redshiftserverless.AnyValue.nil "" e hq hnf ht
          (show 0 < 10 * time.Minute by decide)]
      show (match (match redshiftserverless.awaitLoop policy
              (redshiftserverless.activeStateConf conn name) (10 * time.Minute)
              ⟨s1, 1, 1, policy.backoff 0⟩ with
            | Except.error fault => Except.error fault
            | Except.ok (outcome, w) => Except.ok (outcome.toGo, w)) with
          | Except.error fault => Except.error fault
          | Except.ok (res, w) => Except.ok ((res.1.asEndpointAccess, res.2), w)) = _
      cases redshiftserverless.awaitLoop policy
          (redshiftserverless.activeStateConf conn name) (10 * time.Minute)
          ⟨s1, 1, 1, policy.backoff 0⟩ with
      | error fault => rfl
      | ok res => rfl
    · rw [waitEndpointAccessDeleted_asEndpointAccess,
        WaitForStateContext_error_retried policy (redshiftserverless.deletedStateConf conn name)
          s s1 redshiftserverless.AnyValue.nil "" e hq hnf ht
          (show 0 < 10 * time.Minute by decide)]
      show (match (match redshiftserverless.awaitLoop policy
              (redshiftserverless.deletedStateConf conn name) (10 * time.Minute)
              ⟨s1, 1, 1, policy.backoff 0⟩ with
            | Except.error fault => Except.error fault
            | Except.ok (outcome, w) => Except.ok (outcome.toGo, w)) with
          | Except.error fault => Except.error fault
          | Except.ok (res, w) => Except.ok ((res.1.asEndpointAccess, res.2), w)) = _
      cases redshiftserverless.awaitLoop policy
          (redshiftserverless.deletedStateConf conn name) (10 * time.Minute)
          ⟨s1, 1, 1, policy.backoff 0⟩ with
      | error fault => rfl
      | ok res => rfl
  · intro fuel w e s1 hq ht
    have hnf := statusEndpointAccess_error conn name w.remote s1 _ _ e hq
    constructor
    · exact awaitLoop_again policy (redshiftserverless.activeStateConf conn name) fuel w
        redshiftserverless.AnyValue.nil "" (some e) s1 "" hq
        (classify_transient policy _ _ _ e hnf ht)
    · exact awaitLoop_again policy (redshiftserverless.deletedStateConf conn name) fuel w
        redshiftserverless.AnyValue.nil "" (some e) s1 "" hq
        (classify_transient policy _ _ _ e hnf ht)
  · intro s value err w h
    unfold redshiftserverless.waitEndpointAccessActive at h
    cases hw : redshiftserverless.WaitForStateContext policy
        (redshiftserverless.activeStateConf conn name) s with
    | error fault => rw [hw] at h; simp at h
    | ok res =>
      obtain ⟨⟨outputRaw, err2⟩, w1⟩ := res
      rw [hw] at h
      have herr : err2 = some err := by
        cases outputRaw <;> simp at h <;> exact h.1.2
      subst herr
      exact wait_error_not_transient policy _ s outputRaw err w1 hw
  · intro s value err w h
    unfold redshiftserverless.waitEndpointAccessDeleted at h
    cases hw : redshiftserverless.WaitForStateContext policy
        (redshiftserverless.deletedStateConf conn name) s with
    | error fault => rw [hw] at h; simp at h
    | ok res =>
      obtain ⟨⟨outputRaw, err2⟩, w1⟩ := res
      rw [hw] at h
      have herr : err2 = some err := by
        cases outputRaw <;> simp at h <;> exact h.1.2
      subst herr
      exact wait_error_not_transient policy _ s outputRaw err w1 hw

/-- Witness for the amended claim: under a wait that classifies the throttling
error as transient the error is absorbed and the session goes on from the second
query, where it finds the endpoint `ACTIVE`; under a wait that classifies no
error as transient both functions return the throttling error after one query. -/
theorem wait_transient_error_by_classification_witness :
    (redshiftserverless.throttlingPolicy 0).isTransient (GoError.api "throttled") = true
    ∧ redshiftserverless.waitEndpointAccessActive
        (redshiftserverless.WaitForStateContext (redshiftserverless.throttlingPolicy 0))
        redshiftserverless.scriptedClient "ep"
        [(none, some (GoError.api "throttled")),
          redshiftserverless.found (redshiftserverless.endpointWith "ep" "ACTIVE")]
      = Except.ok ((some (redshiftserverless.endpointWith "ep" "ACTIVE"), none), ⟨[], 2, 1, 1⟩)
    ∧ (redshiftserverless.plainPolicy 0).isTransient (GoError.api "throttled") = false
    ∧ redshiftserverless.waitEndpointAccessDeleted
        (redshiftserverless.WaitForStateContext (redshiftserverless.plainPolicy 0))
        redshiftserverless.scriptedClient "ep"
        [(none, some (GoError.api "throttled")), (none, some (GoError.resourceNotFound "gone"))]
      = Except.ok ((none, some (GoError.api "throttled")),
          ⟨[(none, some (GoError.resourceNotFound "gone"))], 1, 0, 0⟩)
    ∧ ((∃ st, GoError.timeout "" = GoError.timeout st)
      ∨ (∃ st, GoError.timeout "" = GoError.unexpectedState st)
      ∨ (redshiftserverless.throttlingPolicy (5 * time.Minute)).isTransient (GoError.timeout "")
          = false) :=
  ⟨rfl,
    ((wait_transient_error_by_classification _ (redshiftserverless.throttlingPolicy 0)
      redshiftserverless.scriptedClient "ep").2.2.1
      [(none, some (GoError.api "throttled")),
        redshiftserverless.found (redshiftserverless.endpointWith "ep" "ACTIVE")]
      [redshiftserverless.found (redshiftserverless.endpointWith "ep" "ACTIVE")]
      (GoError.api "throttled") rfl rfl).1.trans rfl,
    rfl,
    ((wait_transient_error_by_classification _ (redshiftserverless.plainPolicy 0)
      redshiftserverless.scriptedClient "ep").2.1
      [(none, some (GoError.api "throttled")), (none, some (GoError.resourceNotFound "gone"))]
      [(none, some (GoError.resourceNotFound "gone"))]
      (GoError.api "throttled") rfl rfl).2,
    (wait_transient_error_by_classification Unit
      (redshiftserverless.throttlingPolicy (5 * time.Minute))
      (redshiftserverless.constantClient (none, some (GoError.api "throttled")) none) "ep").2.2.2.2.1
      () none (GoError.timeout "") ⟨(), 3, 2, 600000000002⟩ rfl⟩

/-! ### Tag data in the context -/

/-- C17: `getTagsIn` (ecrpublic, list-shaped, and ivschat, map-shaped) returns nil
exactly when the context carries no tag data or its input tags are empty;
otherwise it returns the service form `Tags` of the input tags, which is then
non-empty.  It never returns a non-nil empty collection. -/
theorem getTagsIn_nil_or_nonempty (ctx : Context) :
    (ecrpublic.getTagsIn ctx = none
      ↔ (ctx = none ∨ ∃ inContext, ctx = some inContext
          ∧ (UnwrapOrDefault inContext.TagsIn).len = 0))
    ∧ (∀ tags : List ecrpublic.Tag, ecrpublic.getTagsIn ctx = some tags →
        tags ≠ [] ∧ ∃ inContext, ctx = some inContext
          ∧ tags = ecrpublic.Tags (UnwrapOrDefault inContext.TagsIn))
    ∧ (ivschat.getTagsIn ctx = none
      ↔ (ctx = none ∨ ∃ inContext, ctx = some inContext
          ∧ (UnwrapOrDefault inContext.TagsIn).len = 0))
    ∧ (∀ tags : GoMap, ivschat.getTagsIn ctx = some tags →
        tags.len ≠ 0 ∧ ∃ inContext, ctx = some inContext
          ∧ tags = ivschat.Tags (UnwrapOrDefault inContext.TagsIn)) := by
  have hlen : ∀ t : KeyValueTags, (ecrpublic.Tags t).length = t.len := by
    intro t
    simp [ecrpublic.Tags, KeyValueTags.Map, GoMap.len]
  cases ctx with
  | none =>
    simp [ecrpublic.getTagsIn, ivschat.getTagsIn]
  | some inContext =>
    refine ⟨?_, ?_, ?_, ?_⟩
    · simp only [ecrpublic.getTagsIn, hlen]
      by_cases h : 0 < (UnwrapOrDefault inContext.TagsIn).len
      · simp [h]; omega
      · simp [h]; omega
    · intro tags h
      simp only [ecrpublic.getTagsIn, hlen] at h
      by_cases hpos : 0 < (UnwrapOrDefault inContext.TagsIn).len
      · simp only [hpos, if_true, Option.some.injEq] at h
        subst h
        refine ⟨?_, inContext, rfl, rfl⟩
        intro hnil
        have := hlen (UnwrapOrDefault inContext.TagsIn)
        rw [hnil] at this
        simp at this
        omega
      · simp [hpos] at h
    · simp only [ivschat.getTagsIn, ivschat.Tags, KeyValueTags.Map]
      by_cases h : 0 < (UnwrapOrDefault inContext.TagsIn).len
      · simp [h]; omega
      · simp [h]; omega
    · intro tags h
      simp only [ivschat.getTagsIn, ivschat.Tags, KeyValueTags.Map] at h
      by_cases hpos : 0 < (UnwrapOrDefault inContext.TagsIn).len
      · simp only [hpos, if_true, Option.some.injEq] at h
        subst h
        exact ⟨by omega, inContext, rfl, rfl⟩
      · simp [hpos] at h

/-- Witness for `getTagsIn`: a context with input tags `{a:1,b:2}` gives their two
service tags, a context with empty input tags gives nil. -/
theorem getTagsIn_nil_or_nonempty_witness :
    ecrpublic.getTagsIn (some { TagsIn := some tagsAB, TagsOut := none })
      = some [{ Key := some "a", Value := some "1" }, { Key := some "b", Value := some "2" }]
    ∧ ([{ Key := some "a", Value := some "1" }, { Key := some "b", Value := some "2" }]
        ≠ ([] : List ecrpublic.Tag)
      ∧ ∃ inContext : InContext,
          some { TagsIn := some tagsAB, TagsOut := none } = some inContext
          ∧ [{ Key := some "a", Value := some "1" }, { Key := some "b", Value := some "2" }]
            = ecrpublic.Tags (UnwrapOrDefault inContext.TagsIn))
    ∧ ecrpublic.getTagsIn (some { TagsIn := some KeyValueTags.New, TagsOut := none }) = none :=
  ⟨rfl,
    (getTagsIn_nil_or_nonempty (some { TagsIn := some tagsAB, TagsOut := none })).2.1
      [{ Key := some "a", Value := some "1" }, { Key := some "b", Value := some "2" }] rfl,
    rfl⟩

/-- C19: if listing the tags fails, ecrpublic `listTags` returns an empty tag set
together with the error, and `ListTags` returns that same error and leaves the
context, and so its `TagsOut`, unchanged.  If listing succeeds, `ListTags`
returns nil and, when the context carries tag data, sets `TagsOut` to `Some` of
the listed tags and changes nothing else. -/
theorem ListTags_error_and_success (σ : Type) (conn : ecrpublic.ListTagsForResourceAPI σ)
    (ctx : Context) (identifier : String) (s : σ) :
    (∀ e : GoError, (conn ⟨identifier⟩ s).1.2 = some e →
      ecrpublic.listTags conn identifier s
          = (Except.ok (KeyValueTags.New, some e), (conn ⟨identifier⟩ s).2)
      ∧ KeyValueTags.New.len = 0
      ∧ ecrpublic.ListTags conn ctx identifier s
          = (Except.ok (some e, ctx), (conn ⟨identifier⟩ s).2))
    ∧ (∀ out : ecrpublic.ListTagsForResourceOutput,
      (conn ⟨identifier⟩ s).1 = (some out, none) →
      ecrpublic.listTags conn identifier s
          = (Except.ok (ecrpublic.keyValueTags out.Tags, none), (conn ⟨identifier⟩ s).2)
      ∧ ecrpublic.ListTags conn ctx identifier s
          = (Except.ok (none,
              ctx.map (fun inContext =>
                { TagsIn := inContext.TagsIn,
                  TagsOut := some (ecrpublic.keyValueTags out.Tags) })),
              (conn ⟨identifier⟩ s).2)) := by
  rcases hres : conn ⟨identifier⟩ s with ⟨⟨output, err⟩, s1⟩
  constructor
  · intro e he
    simp only at he
    subst he
    refine ⟨?_, rfl, ?_⟩
    · simp [ecrpublic.listTags, hres]
    · simp [ecrpublic.ListTags, ecrpublic.listTags, hres]
  · intro out ho
    simp only [Prod.mk.injEq] at ho
    obtain ⟨h1, h2⟩ := ho
    subst h1 h2
    constructor
    · simp [ecrpublic.listTags, hres]
    · cases ctx <;> simp [ecrpublic.ListTags, ecrpublic.listTags, hres]

/-- Witness for `ListTags`: a service that fails, with a context whose `TagsOut`
holds `{a:1,b:2}`; and a service that lists one tag, with a context without
output tags. -/
theorem ListTags_error_and_success_witness :
    ((ecrpublic.ListTags (fun _ s => ((none, some (GoError.api "denied")), s))
        (some { TagsIn := none, TagsOut := some tagsAB }) "arn" ()).1.map
        (fun r => (r.1, r.2.map (fun c => c.TagsOut.map GoMap.entries))))
      = Except.ok (some (GoError.api "denied"), some (some [("a", "1"), ("b", "2")]))
    ∧ ((ecrpublic.ListTags
        (fun _ s => ((some { Tags := [{ Key := some "c", Value := some "3" }] }, none), s))
        (some { TagsIn := none, TagsOut := none }) "arn" ()).1.map
        (fun r => (r.1, r.2.map (fun c => c.TagsOut.map GoMap.entries))))
      = Except.ok (none, some (some [("c", "3")])) :=
  ⟨by
      rw [((ListTags_error_and_success Unit
        (fun _ s => ((none, some (GoError.api "denied")), s))
        (some { TagsIn := none, TagsOut := some tagsAB }) "arn" ()).1
        (GoError.api "denied") rfl).2.2]
      rfl,
    by
      rw [((ListTags_error_and_success Unit
        (fun _ s => ((some { Tags := [{ Key := some "c", Value := some "3" }] }, none), s))
        (some { TagsIn := none, TagsOut := none }) "arn" ()).2
        { Tags := [{ Key := some "c", Value := some "3" }] } rfl).2]
      rfl⟩

/-! ### Creating tags for a new lightsail resource -/

theorem lookup_foldl_set (tags : List lightsail.Tag) :
    ∀ (m : GoMap) (k : String),
      (tags.foldl (fun m tag => m.set (tag.Key.getD "") (tag.Value.getD "")) m).lookup k ≠ none
        ↔ (m.lookup k ≠ none ∨ ∃ t ∈ tags, t.Key.getD "" = k) := by
  induction tags with
  | nil => intro m k; simp
  | cons t rest ih =>
    intro m k
    rw [List.foldl_cons, ih, GoMap.lookup_set]
    by_cases hk : k = t.Key.getD ""
    · subst hk
      simp
    · have hk2 : ¬ t.Key.getD "" = k := fun h => hk h.symm
      simp [hk, hk2]

theorem removed_from_empty (newTags : KeyValueTags) (isProtected : ProtectedKeySet) :
    ((KeyValueTags.Removed KeyValueTags.New newTags).IgnoreSystem isProtected).len = 0 := by
  simp [KeyValueTags.Removed, KeyValueTags.IgnoreSystem, KeyValueTags.New, GoMap.filter,
    GoMap.empty, GoMap.len]

theorem updated_from_empty_pos (newTags : KeyValueTags) (isProtected : ProtectedKeySet) :
    0 < ((KeyValueTags.Updated KeyValueTags.New newTags).IgnoreSystem isProtected).len
      ↔ ∃ k, k ∈ newTags.Keys ∧ isProtected k = false := by
  constructor
  · intro h
    have hne : ((KeyValueTags.Updated KeyValueTags.New newTags).IgnoreSystem
        isProtected).entries ≠ [] := by
      intro hnil
      simp [GoMap.len, hnil] at h
    obtain ⟨e, he⟩ := List.exists_mem_of_ne_nil _ hne
    have hk : e.1 ∈ ((KeyValueTags.Updated KeyValueTags.New newTags).IgnoreSystem
        isProtected).Keys := List.mem_map.mpr ⟨e, he, rfl⟩
    have hp := not_protected_of_mem_updated isProtected KeyValueTags.New newTags e.1 hk
    rw [mem_keys_iff_lookup, lookup_updatedTags] at hk
    refine ⟨e.1, ?_, hp⟩
    rw [mem_keys_iff_lookup]
    intro hnone
    simp [hnone] at hk
  · rintro ⟨k, hk, hp⟩
    have hmem : k ∈ ((KeyValueTags.Updated KeyValueTags.New newTags).IgnoreSystem
        isProtected).Keys := by
      rw [mem_keys_iff_lookup, lookup_updatedTags]
      rw [mem_keys_iff_lookup] at hk
      have hempty : GoMap.lookup KeyValueTags.New k = none := rfl
      simp only [hp, hempty, true_and]
      rw [if_pos (fun h => hk h.symm)]
      exact hk
    unfold KeyValueTags.Keys at hmem
    obtain ⟨e, he, _⟩ := List.mem_map.mp hmem
    exact List.length_pos_of_mem he

/-- C18: lightsail `createTags` with an empty tag list returns nil and sends no
request.  With a non-empty list it equals `updateTags` with an empty old tag set
and the given tags as the new ones.  In every case it sends no `UntagResource`,
and it sends `TagResource`, once, exactly when at least one given tag has a key
that is not a system key. -/
theorem createTags_as_updateTags (σ : Type) (conn : Client (List lightsail.Tag) σ)
    (isProtected : ProtectedKeySet) (identifier : String) (w : World (List lightsail.Tag) σ) :
    lightsail.createTags conn isProtected identifier [] w = (none, w)
    ∧ (∀ tags : List lightsail.Tag, tags ≠ [] →
        lightsail.createTags conn isProtected identifier tags w
          = lightsail.updateTags conn isProtected identifier KeyValueTags.New
              (lightsail.keyValueTags tags) w)
    ∧ (∀ tags : List lightsail.Tag,
        (lightsail.createTags conn isProtected identifier tags w).2.requests
          = w.requests
            ++ (if tags.any (fun t => !(isProtected (t.Key.getD ""))) = true then
                  [Request.TagResource
                    ⟨identifier,
                      lightsail.Tags ((KeyValueTags.Updated KeyValueTags.New
                        (lightsail.keyValueTags tags)).IgnoreSystem isProtected)⟩]
                else [])) := by
  have hnonempty : ∀ tags : List lightsail.Tag, tags ≠ [] →
      lightsail.createTags conn isProtected identifier tags w
        = lightsail.updateTags conn isProtected identifier KeyValueTags.New
            (lightsail.keyValueTags tags) w := by
    intro tags hne
    have hlen : ¬ tags.length = 0 := by
      intro h
      exact hne (List.length_eq_zero.mp h)
    simp [lightsail.createTags, hlen]
  refine ⟨by simp [lightsail.createTags], hnonempty, ?_⟩
  intro tags
  by_cases hne : tags = []
  · subst hne
    simp [lightsail.createTags]
  · rw [hnonempty tags hne, lightsail_requests]
    have hR := removed_from_empty (lightsail.keyValueTags tags) isProtected
    have hU := updated_from_empty_pos (lightsail.keyValueTags tags) isProtected
    have hany : (tags.any (fun t => !(isProtected (t.Key.getD ""))) = true)
        ↔ ∃ k, k ∈ (lightsail.keyValueTags tags).Keys ∧ isProtected k = false := by
      rw [List.any_eq_true]
      constructor
      · rintro ⟨t, ht, hp⟩
        refine ⟨t.Key.getD "", ?_, by simpa using hp⟩
        rw [mem_keys_iff_lookup]
        unfold lightsail.keyValueTags
        rw [lookup_foldl_set]
        exact Or.inr ⟨t, ht, rfl⟩
      · rintro ⟨k, hk, hp⟩
        rw [mem_keys_iff_lookup] at hk
        unfold lightsail.keyValueTags at hk
        rw [lookup_foldl_set] at hk
        rcases hk with hk | ⟨t, ht, htk⟩
        · exact absurd rfl hk
        · exact ⟨t, ht, by simp [htk, hp]⟩
    simp only [hR, Nat.lt_irrefl, if_false, false_and, List.append_nil]
    by_cases hpos : 0 < ((KeyValueTags.Updated KeyValueTags.New
        (lightsail.keyValueTags tags)).IgnoreSystem isProtected).len
    · rw [if_pos hpos, if_pos (hany.mpr (hU.mp hpos))]
    · rw [if_neg hpos, if_neg (fun h => hpos (hU.mpr (hany.mp h)))]

/-- Witness for `createTags`: two tags, one with the protected key `sys`; the run
sends one `TagResource` with the tag `a`, and no `UntagResource`. -/
theorem createTags_as_updateTags_witness :
    ([{ Key := some "a", Value := some "1" }, { Key := some "sys", Value := some "x" }]
        : List lightsail.Tag) ≠ []
    ∧ lightsail.createTags (fixedClient (List lightsail.Tag) none none) protectSys "name"
        [{ Key := some "a", Value := some "1" }, { Key := some "sys", Value := some "x" }]
        ⟨(), []⟩
      = lightsail.updateTags (fixedClient (List lightsail.Tag) none none) protectSys "name"
          KeyValueTags.New
          (lightsail.keyValueTags
            [{ Key := some "a", Value := some "1" }, { Key := some "sys", Value := some "x" }])
          ⟨(), []⟩
    ∧ (lightsail.createTags (fixedClient (List lightsail.Tag) none none) protectSys "name"
        [{ Key := some "a", Value := some "1" }, { Key := some "sys", Value := some "x" }]
        ⟨(), []⟩).2.requests
      = [Request.TagResource ⟨"name", [{ Key := some "a", Value := some "1" }]⟩] :=
  ⟨by simp,
    (createTags_as_updateTags Unit (fixedClient (List lightsail.Tag) none none) protectSys
      "name" ⟨(), []⟩).2.1
      [{ Key := some "a", Value := some "1" }, { Key := some "sys", Value := some "x" }]
      (by simp),
    rfl⟩

/-! ### Endpoint access: nil endpoints, the status query and the handlers -/

/-- C21: the code at the failing input.  When `GetEndpointAccess` answers with a
non-nil output whose `Endpoint` is nil and no error, `findEndpointAccessByName`
returns a nil endpoint with a nil error; the read of `output.EndpointStatus` in
`statusEndpointAccess` and the field reads in `resourceEndpointAccessRead` then
go through a nil pointer. -/
theorem findEndpointAccessByName_nil_endpoint :
    redshiftserverless.findEndpointAccessByName
        (redshiftserverless.constantClient redshiftserverless.emptyOutput none) "ep" ()
      = ((none, none), ())
    ∧ redshiftserverless.statusEndpointAccess
        (redshiftserverless.constantClient redshiftserverless.emptyOutput none) "ep" ()
      = (Except.error Fault.nilDereference, ())
    ∧ redshiftserverless.resourceEndpointAccessRead
        (redshiftserverless.constantClient redshiftserverless.emptyOutput none)
        (fun _ => none) { Id := "ep", IsNewResource := false, attributes := [] } ()
      = (Except.error Fault.nilDereference, ()) :=
  ⟨rfl, rfl, rfl⟩

/-- C22: the code at the failing input.  The status query ends in a nil
dereference, instead of returning a value and a status, exactly when the lookup
returns a nil endpoint with a nil error; a lookup does so when `GetEndpointAccess`
answers with a non-nil output whose `Endpoint` is nil and no error: the lookup
has succeeded (its error is nil), and the status query returns neither the
endpoint and its status nor an error. -/
theorem statusEndpointAccess_faults_on_nil_endpoint (σ : Type)
    (conn : redshiftserverless.Client σ) (name : String) (s : σ) :
    ((redshiftserverless.statusEndpointAccess conn name s).1 = Except.error Fault.nilDereference
      ↔ (redshiftserverless.findEndpointAccessByName conn name s).1 = (none, none))
    ∧ (redshiftserverless.findEndpointAccessByName
        (redshiftserverless.constantClient redshiftserverless.emptyOutput none) "ep" ()).1.2
      = none
    ∧ (redshiftserverless.statusEndpointAccess
        (redshiftserverless.constantClient redshiftserverless.emptyOutput none) "ep" ()).1
      = Except.error Fault.nilDereference
    ∧ (∀ (value : redshiftserverless.AnyValue) (status : String) (err : Option GoError),
      (redshiftserverless.statusEndpointAccess
          (redshiftserverless.constantClient redshiftserverless.emptyOutput none) "ep" ()).1
        ≠ Except.ok (value, status, err)) := by
  refine ⟨?_, rfl, rfl, ?_⟩
  · rw [statusEndpointAccess_cases]
    rcases hres : redshiftserverless.findEndpointAccessByName conn name s with
      ⟨⟨output, err⟩, s1⟩
    cases err with
    | some e =>
      by_cases hnf : tfresource.NotFound (some e) = true <;> simp [hnf]
    | none =>
      cases output <;> simp
  · intro value status err h
    have h2 : (Except.error Fault.nilDereference :
        Except Fault (redshiftserverless.AnyValue × String × Option GoError))
        = Except.ok (value, status, err) := h
    cases h2

/-- The status query where the lookup returns an error or an endpoint: it returns
a non-nil error if and only if the lookup failed with an error other than
not-found, and it then returns that same error with a nil value and an empty
status; when the lookup returns an endpoint it returns the endpoint as the value
and the endpoint's `EndpointStatus` as the status string, the empty string when
the status is unset. -/
theorem statusEndpointAccess_error_or_endpoint (σ : Type) (conn : redshiftserverless.Client σ)
    (name : String) (s : σ) :
    (∀ (value : redshiftserverless.AnyValue) (status : String) (e : GoError),
      (redshiftserverless.statusEndpointAccess conn name s).1
          = Except.ok (value, status, some e)
        ↔ ((redshiftserverless.findEndpointAccessByName conn name s).1.2 = some e
            ∧ tfresource.NotFound (some e) = false
            ∧ value = redshiftserverless.AnyValue.nil ∧ status = ""))
    ∧ (∀ endpoint : redshiftserverless.EndpointAccess,
      (redshiftserverless.findEndpointAccessByName conn name s).1 = (some endpoint, none) →
        (redshiftserverless.statusEndpointAccess conn name s).1
            = Except.ok (redshiftserverless.AnyValue.endpointAccess (some endpoint),
                endpoint.EndpointStatus.getD "", none)
        ∧ (endpoint.EndpointStatus = none → endpoint.EndpointStatus.getD "" = "")
        ∧ (∀ st, endpoint.EndpointStatus = some st → endpoint.EndpointStatus.getD "" = st)) := by
  rw [statusEndpointAccess_cases]
  rcases hres : redshiftserverless.findEndpointAccessByName conn name s with ⟨⟨output, err⟩, s1⟩
  constructor
  · intro value status e
    cases err with
    | some e2 =>
      by_cases hnf : tfresource.NotFound (some e2) = true
      · simp only [hnf, if_true]
        constructor
        · intro h; simp at h
        · rintro ⟨h1, h2, _, _⟩
          simp only [Option.some.injEq] at h1
          subst h1
          rw [hnf] at h2
          exact absurd h2 (by simp)
      · have hnf2 : tfresource.NotFound (some e2) = false := by simpa using hnf
        simp only [hnf, if_false]
        constructor
        · intro h
          have h0 : (redshiftserverless.AnyValue.nil, "", some e2) = (value, status, some e) :=
            Except.ok.inj h
          have hv : redshiftserverless.AnyValue.nil = value := congrArg Prod.fst h0
          have hs : "" = status := congrArg (fun t => t.2.1) h0
          have he : some e2 = some e := congrArg (fun t => t.2.2) h0
          exact ⟨he, Option.some.inj he ▸ hnf2, hv.symm, hs.symm⟩
        · rintro ⟨h1, _, rfl, rfl⟩
          simp only [Option.some.injEq] at h1
          subst h1
          rfl
    | none =>
      cases output <;> simp
  · intro endpoint h
    simp only [Prod.mk.injEq] at h
    obtain ⟨h1, h2⟩ := h
    subst h1 h2
    refine ⟨rfl, ?_, ?_⟩
    · intro h; simp [h]
    · intro st h; simp [h]

/-- Witness for the results of the status query: a lookup that fails with a
permission error, and one that finds an endpoint without a status. -/
theorem statusEndpointAccess_error_or_endpoint_example :
    (redshiftserverless.statusEndpointAccess
        (redshiftserverless.constantClient (none, some (GoError.api "denied")) none) "ep" ()).1
      = Except.ok (redshiftserverless.AnyValue.nil, "", some (GoError.api "denied"))
    ∧ (redshiftserverless.statusEndpointAccess
        (redshiftserverless.constantClient
          (redshiftserverless.found
            { Address := none, EndpointArn := none, EndpointName := some "ep",
              EndpointStatus := none, Port := none, SubnetIds := [], WorkgroupName := none })
          none) "ep" ()).1
      = Except.ok (redshiftserverless.AnyValue.endpointAccess
          (some { Address := none, EndpointArn := none, EndpointName := some "ep",
                  EndpointStatus := none, Port := none, SubnetIds := [],
                  WorkgroupName := none }), "", none) :=
  ⟨((statusEndpointAccess_error_or_endpoint Unit
      (redshiftserverless.constantClient (none, some (GoError.api "denied")) none) "ep" ()).1
      redshiftserverless.AnyValue.nil "" (GoError.api "denied")).mpr ⟨rfl, rfl, rfl, rfl⟩,
    ((statusEndpointAccess_error_or_endpoint Unit
      (redshiftserverless.constantClient
        (redshiftserverless.found
          { Address := none, EndpointArn := none, EndpointName := some "ep",
            EndpointStatus := none, Port := none, SubnetIds := [], WorkgroupName := none })
        none) "ep" ()).2
      { Address := none, EndpointArn := none, EndpointName := some "ep",
        EndpointStatus := none, Port := none, SubnetIds := [], WorkgroupName := none }
      rfl).1⟩

/-- C23: `resourceEndpointAccessDelete` is idempotent on absence.  If
`DeleteEndpointAccess` fails with a `ResourceNotFoundException` it returns no
diagnostics, and if it fails with any other error it returns one error
diagnostic naming the resource id; in both cases whatever the state wait would
do, so it does not wait.  Only when the delete call succeeds is the result that
of `waitEndpointAccessDeleted`: no diagnostics when the wait returns no error,
one error diagnostic naming the id when it returns one. -/
theorem resourceEndpointAccessDelete_cases (σ : Type) (wait : redshiftserverless.StateWait σ)
    (conn : redshiftserverless.Client σ) (d : redshiftserverless.ResourceData) (s : σ) :
    (∀ e : GoError, (conn.DeleteEndpointAccess ⟨some d.Id⟩ s).1 = some e →
      errs.IsAResourceNotFoundException (some e) = true →
      redshiftserverless.resourceEndpointAccessDelete wait conn d s
        = Except.ok ([], (conn.DeleteEndpointAccess ⟨some d.Id⟩ s).2))
    ∧ (∀ e : GoError, (conn.DeleteEndpointAccess ⟨some d.Id⟩ s).1 = some e →
      errs.IsAResourceNotFoundException (some e) = false →
      redshiftserverless.resourceEndpointAccessDelete wait conn d s
        = Except.ok ([⟨redshiftserverless.Severity.Error,
              "deleting Redshift Serverless Endpoint Access (" ++ d.Id ++ "): "
                ++ e.Error⟩],
            (conn.DeleteEndpointAccess ⟨some d.Id⟩ s).2))
    ∧ ((conn.DeleteEndpointAccess ⟨some d.Id⟩ s).1 = none →
      (∀ (value : Option redshiftserverless.EndpointAccess)
          (w : redshiftserverless.PollWorld σ),
        redshiftserverless.waitEndpointAccessDeleted wait conn d.Id
            (conn.DeleteEndpointAccess ⟨some d.Id⟩ s).2 = Except.ok ((value, none), w) →
        redshiftserverless.resourceEndpointAccessDelete wait conn d s
          = Except.ok ([], w.remote))
      ∧ (∀ (value : Option redshiftserverless.EndpointAccess) (e : GoError)
          (w : redshiftserverless.PollWorld σ),
        redshiftserverless.waitEndpointAccessDeleted wait conn d.Id
            (conn.DeleteEndpointAccess ⟨some d.Id⟩ s).2 = Except.ok ((value, some e), w) →
        redshiftserverless.resourceEndpointAccessDelete wait conn d s
          = Except.ok ([⟨redshiftserverless.Severity.Error,
              "waiting for Redshift Serverless Endpoint Access (" ++ d.Id
                  ++ ") delete: " ++ e.Error⟩], w.remote))
      ∧ (∀ fault : Fault,
        redshiftserverless.waitEndpointAccessDeleted wait conn d.Id
            (conn.DeleteEndpointAccess ⟨some d.Id⟩ s).2 = Except.error fault →
        redshiftserverless.resourceEndpointAccessDelete wait conn d s = Except.error fault)) := by
  rcases hres : conn.DeleteEndpointAccess ⟨some d.Id⟩ s with ⟨err, s1⟩
  refine ⟨?_, ?_, ?_⟩
  · intro e he hnf
    simp only at he
    subst he
    simp [redshiftserverless.resourceEndpointAccessDelete, hres, hnf]
  · intro e he hnf
    simp only at he
    subst he
    simp [redshiftserverless.resourceEndpointAccessDelete, hres, hnf,
      redshiftserverless.AppendErrorf]
  · intro he
    simp only at he
    subst he
    refine ⟨?_, ?_, ?_⟩
    · intro value w hw
      simp only at hw
      simp [redshiftserverless.resourceEndpointAccessDelete, hres, hw,
        errs.IsAResourceNotFoundException]
    · intro value e w hw
      simp only at hw
      simp [redshiftserverless.resourceEndpointAccessDelete, hres, hw,
        errs.IsAResourceNotFoundException, redshiftserverless.AppendErrorf]
    · intro fault hw
      simp only at hw
      simp [redshiftserverless.resourceEndpointAccessDelete, hres, hw,
        errs.IsAResourceNotFoundException]

/-- Witness for the delete handler: the endpoint is already gone, the delete call
is denied, and the delete call succeeds and the wait then sees the endpoint
gone; in the first two runs the state wait given is one that cannot return. -/
theorem resourceEndpointAccessDelete_cases_witness :
    redshiftserverless.resourceEndpointAccessDelete redshiftserverless.faultyWait
        (redshiftserverless.constantClient (none, none) (some (GoError.resourceNotFound "gone")))
        { Id := "ep", IsNewResource := false, attributes := [] } ()
      = Except.ok ([], ())
    ∧ redshiftserverless.resourceEndpointAccessDelete redshiftserverless.faultyWait
        (redshiftserverless.constantClient (none, none) (some (GoError.api "denied")))
        { Id := "ep", IsNewResource := false, attributes := [] } ()
      = Except.ok ([⟨redshiftserverless.Severity.Error,
              "deleting Redshift Serverless Endpoint Access (" ++ "ep" ++ "): "
              ++ (GoError.api "denied").Error⟩], ())
    ∧ redshiftserverless.resourceEndpointAccessDelete
        (redshiftserverless.WaitForStateContext
          (redshiftserverless.constantPolicy 0 (fun _ => false)))
        (redshiftserverless.constantClient (none, some (GoError.resourceNotFound "gone")) none)
        { Id := "ep", IsNewResource := false, attributes := [] } ()
      = Except.ok ([], ()) :=
  ⟨(resourceEndpointAccessDelete_cases Unit redshiftserverless.faultyWait
      (redshiftserverless.constantClient (none, none) (some (GoError.resourceNotFound "gone")))
      { Id := "ep", IsNewResource := false, attributes := [] } ()).1
      (GoError.resourceNotFound "gone") rfl rfl,
    (resourceEndpointAccessDelete_cases Unit redshiftserverless.faultyWait
      (redshiftserverless.constantClient (none, none) (some (GoError.api "denied")))
      { Id := "ep", IsNewResource := false, attributes := [] } ()).2.1
      (GoError.api "denied") rfl rfl,
    ((resourceEndpointAccessDelete_cases Unit
      (redshiftserverless.WaitForStateContext
        (redshiftserverless.constantPolicy 0 (fun _ => false)))
      (redshiftserverless.constantClient (none, some (GoError.resourceNotFound "gone")) none)
      { Id := "ep", IsNewResource := false, attributes := [] } ()).2.2 rfl).1
      none ⟨(), 1, 0, 0⟩ rfl⟩

/-- C24: in `resourceEndpointAccessRead`, if the lookup reports not-found and the
resource is not newly created, the resource id is set to the empty string, no
diagnostic is returned and no attribute is written.  If the lookup reports
not-found for a newly created resource, or fails with any other error, one
error diagnostic naming the id is returned and the resource data, its id
included, is left unchanged. -/
theorem resourceEndpointAccessRead_not_found_and_errors (σ : Type)
    (conn : redshiftserverless.Client σ)
    (setVPCEndpoint : Option redshiftserverless.VpcEndpoint → Option GoError)
    (d : redshiftserverless.ResourceData) (s : σ) :
    (d.IsNewResource = false →
      tfresource.NotFound (redshiftserverless.findEndpointAccessByName conn d.Id s).1.2 = true →
      redshiftserverless.resourceEndpointAccessRead conn setVPCEndpoint d s
        = (Except.ok ([], ⟨"", d.IsNewResource, d.attributes⟩),
            (redshiftserverless.findEndpointAccessByName conn d.Id s).2))
    ∧ (∀ e : GoError,
      (redshiftserverless.findEndpointAccessByName conn d.Id s).1.2 = some e →
      (d.IsNewResource = true ∨ tfresource.NotFound (some e) = false) →
      redshiftserverless.resourceEndpointAccessRead conn setVPCEndpoint d s
        = (Except.ok ([⟨redshiftserverless.Severity.Error,
              "reading Redshift Serverless Endpoint Access (" ++ d.Id ++ "): " ++ e.Error⟩], d),
            (redshiftserverless.findEndpointAccessByName conn d.Id s).2)) := by
  rcases hres : redshiftserverless.findEndpointAccessByName conn d.Id s with ⟨⟨output, err⟩, s1⟩
  constructor
  · intro hnew hnf
    simp only at hnf
    simp [redshiftserverless.resourceEndpointAccessRead, hres, hnew, hnf,
      redshiftserverless.ResourceData.SetId]
  · intro e he hcase
    simp only at he
    subst he
    rcases hcase with hnew | hnf
    · simp [redshiftserverless.resourceEndpointAccessRead, hres, hnew,
        redshiftserverless.AppendErrorf]
    · simp [redshiftserverless.resourceEndpointAccessRead, hres, hnf,
        redshiftserverless.AppendErrorf]

/-- Witness for the read handler: the endpoint is gone, for a resource already in
the state and for a newly created one, and the lookup is denied. -/
theorem resourceEndpointAccessRead_not_found_and_errors_witness :
    redshiftserverless.resourceEndpointAccessRead
        (redshiftserverless.constantClient (none, some (GoError.resourceNotFound "gone")) none)
        (fun _ => none)
        ⟨"ep", false, [(redshiftserverless.AttributeKey.AttrPort,
          redshiftserverless.AttributeValue.int (some 5439))]⟩ ()
      = (Except.ok ([], ⟨"", false, [(redshiftserverless.AttributeKey.AttrPort,
          redshiftserverless.AttributeValue.int (some 5439))]⟩), ())
    ∧ redshiftserverless.resourceEndpointAccessRead
        (redshiftserverless.constantClient (none, some (GoError.resourceNotFound "gone")) none)
        (fun _ => none) ⟨"ep", true, []⟩ ()
      = (Except.ok ([⟨redshiftserverless.Severity.Error,
            "reading Redshift Serverless Endpoint Access (" ++ "ep" ++ "): "
              ++ (GoError.notFound (GoError.resourceNotFound "gone") "ep").Error⟩],
          ⟨"ep", true, []⟩), ())
    ∧ redshiftserverless.resourceEndpointAccessRead
        (redshiftserverless.constantClient (none, some (GoError.api "denied")) none)
        (fun _ => none) ⟨"ep", false, []⟩ ()
      = (Except.ok ([⟨redshiftserverless.Severity.Error,
            "reading Redshift Serverless Endpoint Access (" ++ "ep" ++ "): "
              ++ (GoError.api "denied").Error⟩],
          ⟨"ep", false, []⟩), ()) :=
  ⟨(resourceEndpointAccessRead_not_found_and_errors Unit
      (redshiftserverless.constantClient (none, some (GoError.resourceNotFound "gone")) none)
      (fun _ => none)
      ⟨"ep", false, [(redshiftserverless.AttributeKey.AttrPort,
        redshiftserverless.AttributeValue.int (some 5439))]⟩ ()).1 rfl rfl,
    (resourceEndpointAccessRead_not_found_and_errors Unit
      (redshiftserverless.constantClient (none, some (GoError.resourceNotFound "gone")) none)
      (fun _ => none) ⟨"ep", true, []⟩ ()).2
      (GoError.notFound (GoError.resourceNotFound "gone") "ep") rfl (Or.inl rfl),
    (resourceEndpointAccessRead_not_found_and_errors Unit
      (redshiftserverless.constantClient (none, some (GoError.api "denied")) none)
      (fun _ => none) ⟨"ep", false, []⟩ ()).2
      (GoError.api "denied") rfl (Or.inr rfl)⟩

/-! ### Service tags and tag sets: there and back -/

theorem foldl_set_eq_remoteTag {α : Type} (key value : α → String) (l : List α) (m : GoMap) :
    l.foldl (fun m t => m.set (key t) (value t)) m
      = remoteTag m (l.map (fun t => (key t, value t))) := by
  unfold remoteTag
  rw [List.foldl_map]

theorem lookup_remoteTag_last (front back : List (String × String)) (k v : String)
    (store : GoMap) (hback : k ∉ back.map Prod.fst) :
    (remoteTag store (front ++ (k, v) :: back)).lookup k = some v := by
  have hsplit : remoteTag store (front ++ (k, v) :: back)
      = remoteTag ((remoteTag store front).set k v) back := by
    unfold remoteTag
    rw [List.foldl_append, List.foldl_cons]
  rw [hsplit, lookup_remoteTag_of_not_mem back _ k hback, GoMap.lookup_set]
  simp

theorem lookup_remoteTag_empty (tags : GoMap) (k : String) :
    (remoteTag GoMap.empty tags.entries).lookup k = tags.lookup k := by
  rw [lookup_remoteTag]
  cases tags.lookup k <;> rfl

theorem map_pairs_entries {α : Type} (mk : String × String → α) (key value : α → String)
    (hk : ∀ e, key (mk e) = e.1) (hv : ∀ e, value (mk e) = e.2)
    (entries : List (String × String)) :
    (entries.map mk).map (fun t => (key t, value t)) = entries := by
  induction entries with
  | nil => rfl
  | cons e rest ih =>
    rw [List.map_cons, List.map_cons, ih, hk, hv]

theorem tags_there_and_back {α : Type} (mk : String × String → α) (key value : α → String)
    (hk : ∀ e, key (mk e) = e.1) (hv : ∀ e, value (mk e) = e.2) (t : GoMap) :
    (t.entries.map mk).length = t.len
    ∧ ((t.entries.map mk).map key).Nodup
    ∧ (∀ k v : String, mk (k, v) ∈ t.entries.map mk ↔ t.lookup k = some v)
    ∧ (∀ k : String,
        ((t.entries.map mk).foldl (fun m x => m.set (key x) (value x)) GoMap.empty).lookup k
          = t.lookup k) := by
  refine ⟨by simp [GoMap.len], ?_, ?_, ?_⟩
  · have hkeys : (t.entries.map mk).map key = t.entries.map Prod.fst := by
      rw [List.map_map]
      exact List.map_congr_left (fun e _ => hk e)
    rw [hkeys]
    exact t.nodup
  · intro k v
    constructor
    · intro h
      obtain ⟨e, he, heq⟩ := List.mem_map.mp h
      have h1 : e.1 = k := by rw [← hk e, heq, hk]
      have h2 : e.2 = v := by rw [← hv e, heq, hv]
      have : e = (k, v) := Prod.ext h1 h2
      exact GoMap.lookup_of_mem t k v (this ▸ he)
    · intro h
      exact List.mem_map.mpr ⟨(k, v), GoMap.mem_of_lookup t k v h, rfl⟩
  · intro k
    rw [foldl_set_eq_remoteTag, map_pairs_entries mk key value hk hv, lookup_remoteTag_empty]

theorem last_occurrence_wins {α : Type} (key value : α → String) (front back : List α) (x : α)
    (h : ∀ u ∈ back, key u ≠ key x) :
    ((front ++ x :: back).foldl (fun m y => m.set (key y) (value y)) GoMap.empty).lookup (key x)
      = some (value x) := by
  rw [foldl_set_eq_remoteTag, List.map_append, List.map_cons]
  apply lookup_remoteTag_last
  intro hmem
  rw [List.map_map] at hmem
  obtain ⟨u, hu, hku⟩ := List.mem_map.mp hmem
  exact h u hu hku

/-- C25: for every tag set `t`, in each of the list-shaped services ecrpublic,
lightsail and swf: `Tags(t)` has exactly one element per key of `t` (as many
elements as `t` has keys, with pairwise distinct keys), an element carries key
`k` and value `v` exactly when `t` maps `k` to `v`, and `keyValueTags(Tags(t))`
maps every key as `t` does.  For an input list with duplicate keys,
`keyValueTags` keeps the value of the last occurrence of a key. -/
theorem Tags_keyValueTags_roundtrip (t : KeyValueTags) :
    ((ecrpublic.Tags t).length = t.len
      ∧ ((ecrpublic.Tags t).map (fun tag => tag.Key.getD "")).Nodup
      ∧ (∀ k v : String,
          ({ Key := some k, Value := some v } : ecrpublic.Tag) ∈ ecrpublic.Tags t ↔ t.lookup k = some v)
      ∧ (∀ k : String, (ecrpublic.keyValueTags (ecrpublic.Tags t)).lookup k = t.lookup k)
      ∧ (∀ (front back : List ecrpublic.Tag) (tag : ecrpublic.Tag),
          (∀ u ∈ back, u.Key.getD "" ≠ tag.Key.getD "") →
          (ecrpublic.keyValueTags (front ++ tag :: back)).lookup (tag.Key.getD "")
            = some (tag.Value.getD "")))
    ∧
    ((lightsail.Tags t).length = t.len
      ∧ ((lightsail.Tags t).map (fun tag => tag.Key.getD "")).Nodup
      ∧ (∀ k v : String,
          ({ Key := some k, Value := some v } : lightsail.Tag) ∈ lightsail.Tags t ↔ t.lookup k = some v)
      ∧ (∀ k : String, (lightsail.keyValueTags (lightsail.Tags t)).lookup k = t.lookup k)
      ∧ (∀ (front back : List lightsail.Tag) (tag : lightsail.Tag),
          (∀ u ∈ back, u.Key.getD "" ≠ tag.Key.getD "") →
          (lightsail.keyValueTags (front ++ tag :: back)).lookup (tag.Key.getD "")
            = some (tag.Value.getD "")))
    ∧
    ((swf.Tags t).length = t.len
      ∧ ((swf.Tags t).map (fun tag => tag.Key.getD "")).Nodup
      ∧ (∀ k v : String,
          ({ Key := some k, Value := some v } : swf.ResourceTag) ∈ swf.Tags t ↔ t.lookup k = some v)
      ∧ (∀ k : String, (swf.keyValueTags (swf.Tags t)).lookup k = t.lookup k)
      ∧ (∀ (front back : List swf.ResourceTag) (tag : swf.ResourceTag),
          (∀ u ∈ back, u.Key.getD "" ≠ tag.Key.getD "") →
          (swf.keyValueTags (front ++ tag :: back)).lookup (tag.Key.getD "")
            = some (tag.Value.getD ""))) := by
  refine ⟨?_, ?_, ?_⟩
  · have h := tags_there_and_back
      (fun e : String × String => ({ Key := some e.1, Value := some e.2 } : ecrpublic.Tag))
      (fun tag => tag.Key.getD "") (fun tag => tag.Value.getD "")
      (fun _ => rfl) (fun _ => rfl) t
    exact ⟨h.1, h.2.1, h.2.2.1, h.2.2.2,
      fun front back tag hb =>
        last_occurrence_wins (fun tag : ecrpublic.Tag => tag.Key.getD "")
          (fun tag => tag.Value.getD "") front back tag hb⟩
  · have h := tags_there_and_back
      (fun e : String × String => ({ Key := some e.1, Value := some e.2 } : lightsail.Tag))
      (fun tag => tag.Key.getD "") (fun tag => tag.Value.getD "")
      (fun _ => rfl) (fun _ => rfl) t
    exact ⟨h.1, h.2.1, h.2.2.1, h.2.2.2,
      fun front back tag hb =>
        last_occurrence_wins (fun tag : lightsail.Tag => tag.Key.getD "")
          (fun tag => tag.Value.getD "") front back tag hb⟩
  · have h := tags_there_and_back
      (fun e : String × String => ({ Key := some e.1, Value := some e.2 } : swf.ResourceTag))
      (fun tag => tag.Key.getD "") (fun tag => tag.Value.getD "")
      (fun _ => rfl) (fun _ => rfl) t
    exact ⟨h.1, h.2.1, h.2.2.1, h.2.2.2,
      fun front back tag hb =>
        last_occurrence_wins (fun tag : swf.ResourceTag => tag.Key.getD "")
          (fun tag => tag.Value.getD "") front back tag hb⟩

/-- Witness for the last occurrence: the key `a` is given twice, and the tag set
holds the later value. -/
theorem Tags_keyValueTags_roundtrip_witness :
    (∀ u ∈ ([{ Key := some "b", Value := some "3" }] : List swf.ResourceTag),
        u.Key.getD "" ≠ "a")
    ∧ (swf.keyValueTags
        ([{ Key := some "a", Value := some "1" }]
          ++ { Key := some "a", Value := some "2" } :: [{ Key := some "b", Value := some "3" }])
        ).lookup "a" = some "2" :=
  ⟨by decide,
    (Tags_keyValueTags_roundtrip tagsAB).2.2.2.2.2.2
      [{ Key := some "a", Value := some "1" }] [{ Key := some "b", Value := some "3" }]
      { Key := some "a", Value := some "2" } (by decide)⟩

/-! ### Pinpoint: the extra `IgnoreAWS` -/

theorem GoMap.eq_of_entries (m1 m2 : GoMap) (h : m1.entries = m2.entries) : m1 = m2 := by
  cases m1
  cases m2
  simp only at h
  subst h
  rfl

theorem ignoreAWS_updated (isProtected : ProtectedKeySet) (oldTags newTags : KeyValueTags)
    (hSys : ∀ k : String, k.startsWith "aws:" = true → isProtected k = true) :
    KeyValueTags.IgnoreAWS ((oldTags.Updated newTags).IgnoreSystem isProtected)
      = (oldTags.Updated newTags).IgnoreSystem isProtected := by
  apply GoMap.eq_of_entries
  unfold KeyValueTags.IgnoreAWS
  show List.filter _ _ = _
  rw [List.filter_eq_self]
  intro e he
  have hk : e.1 ∈ ((oldTags.Updated newTags).IgnoreSystem isProtected).Keys :=
    List.mem_map.mpr ⟨e, he, rfl⟩
  have hp := not_protected_of_mem_updated isProtected oldTags newTags e.1 hk
  cases hs : e.1.startsWith "aws:" with
  | false => rfl
  | true =>
    have := hSys e.1 hs
    rw [hp] at this
    exact absurd this (by simp)

theorem pinpoint_run_as_lambda {σ : Type} (conn : Client pinpoint.TagsModel σ)
    (isProtected : ProtectedKeySet) (identifier : String) (oldTags newTags : KeyValueTags)
    (w : World pinpoint.TagsModel σ)
    (hSys : ∀ k : String, k.startsWith "aws:" = true → isProtected k = true) :
    lambda.updateTags (pinpoint.asMapClient conn) isProtected identifier oldTags newTags
        ⟨w.remote, w.requests.map pinpoint.unwrapRequest⟩
      = ((pinpoint.updateTags conn isProtected identifier oldTags newTags w).1,
          ⟨(pinpoint.updateTags conn isProtected identifier oldTags newTags w).2.remote,
            (pinpoint.updateTags conn isProtected identifier oldTags newTags w).2.requests.map
              pinpoint.unwrapRequest⟩) := by
  have hIgn := ignoreAWS_updated isProtected oldTags newTags hSys
  unfold lambda.updateTags pinpoint.updateTags
  by_cases h1 : 0 < ((oldTags.Removed newTags).IgnoreSystem isProtected).len <;>
    by_cases h2 : 0 < ((oldTags.Updated newTags).IgnoreSystem isProtected).len <;>
    simp only [h1, h2, if_true, if_false, Client.UntagResource, Client.TagResource,
      pinpoint.asMapClient, hIgn, lambda.Tags, pinpoint.Tags, KeyValueTags.Map] <;>
    (try cases hu : (conn.untag
        ⟨identifier, ((oldTags.Removed newTags).IgnoreSystem isProtected).Keys⟩ w.remote).1) <;>
    (try simp only []) <;>
    (try cases ht : (conn.tag
        ⟨identifier, ⟨(oldTags.Updated newTags).IgnoreSystem isProtected⟩⟩
        (conn.untag
          ⟨identifier, ((oldTags.Removed newTags).IgnoreSystem isProtected).Keys⟩
          w.remote).2).1) <;>
    (try cases ht2 : (conn.tag
        ⟨identifier, ⟨(oldTags.Updated newTags).IgnoreSystem isProtected⟩⟩ w.remote).1) <;>
    simp_all [pinpoint.unwrapRequest]

/-- C26: in pinpoint `updateTags`, when the system-key filter for Pinpoint
removes every key that starts with `aws:`, the extra `IgnoreAWS` changes nothing:
the tag map sent in a `TagResource` request is the updated non-system tag map
that guarded the call, so it is never empty; and pinpoint `updateTags` returns
the same error, leaves the same remote state and sends the same requests with
the same payloads as the generic `updateTags` (lambda) run against the same
service. -/
theorem pinpoint_updateTags_same_as_generic (σ : Type) (conn : Client pinpoint.TagsModel σ)
    (isProtected : ProtectedKeySet) (identifier : String) (oldTags newTags : KeyValueTags)
    (w : World pinpoint.TagsModel σ)
    (hSys : ∀ k : String, k.startsWith "aws:" = true → isProtected k = true) :
    KeyValueTags.IgnoreAWS ((oldTags.Updated newTags).IgnoreSystem isProtected)
        = (oldTags.Updated newTags).IgnoreSystem isProtected
    ∧ (∀ b : TagResourceInput pinpoint.TagsModel,
        Request.TagResource b
            ∈ (pinpoint.updateTags conn isProtected identifier oldTags newTags
                ⟨w.remote, []⟩).2.requests →
        b.Tags.Tags = (oldTags.Updated newTags).IgnoreSystem isProtected
        ∧ 0 < b.Tags.Tags.len)
    ∧ lambda.updateTags (pinpoint.asMapClient conn) isProtected identifier oldTags newTags
        ⟨w.remote, w.requests.map pinpoint.unwrapRequest⟩
      = ((pinpoint.updateTags conn isProtected identifier oldTags newTags w).1,
          ⟨(pinpoint.updateTags conn isProtected identifier oldTags newTags w).2.remote,
            (pinpoint.updateTags conn isProtected identifier oldTags newTags w).2.requests.map
              pinpoint.unwrapRequest⟩) := by
  have hIgn := ignoreAWS_updated isProtected oldTags newTags hSys
  refine ⟨hIgn, ?_, pinpoint_run_as_lambda conn isProtected identifier oldTags newTags w hSys⟩
  intro b hb
  rw [pinpoint_requests] at hb
  simp only [List.nil_append, List.mem_append] at hb
  rcases hb with hb | hb
  · split at hb <;> simp at hb
  · split at hb
    · simp at hb
    · split at hb
      · rename_i hpos
        rw [List.mem_singleton] at hb
        injection hb with hb
        subst hb
        simp only [pinpoint.Tags, KeyValueTags.Map, hIgn]
        exact ⟨trivial, hpos⟩
      · simp at hb

/-- Witness for the pinpoint comparison: the filter that protects exactly the
keys starting with `aws:`, old tags `{a:1,b:2}` and new tags `{a:1,c:3}`. -/
theorem pinpoint_updateTags_same_as_generic_witness :
    (∀ k : String, k.startsWith "aws:" = true → protectAWS k = true)
    ∧ KeyValueTags.IgnoreAWS ((tagsAB.Updated tagsAC).IgnoreSystem protectAWS)
        = (tagsAB.Updated tagsAC).IgnoreSystem protectAWS
    ∧ lambda.updateTags (pinpoint.asMapClient (fixedClient pinpoint.TagsModel none none))
        protectAWS "arn" tagsAB tagsAC
        ⟨(), ([] : List (Request pinpoint.TagsModel)).map pinpoint.unwrapRequest⟩
      = ((pinpoint.updateTags (fixedClient pinpoint.TagsModel none none) protectAWS "arn"
            tagsAB tagsAC ⟨(), []⟩).1,
          ⟨(pinpoint.updateTags (fixedClient pinpoint.TagsModel none none) protectAWS "arn"
            tagsAB tagsAC ⟨(), []⟩).2.remote,
            (pinpoint.updateTags (fixedClient pinpoint.TagsModel none none) protectAWS "arn"
              tagsAB tagsAC ⟨(), []⟩).2.requests.map pinpoint.unwrapRequest⟩) :=
  ⟨fun _ h => h,
    (pinpoint_updateTags_same_as_generic Unit (fixedClient pinpoint.TagsModel none none)
      protectAWS "arn" tagsAB tagsAC ⟨(), []⟩ (fun _ h => h)).1,
    (pinpoint_updateTags_same_as_generic Unit (fixedClient pinpoint.TagsModel none none)
      protectAWS "arn" tagsAB tagsAC ⟨(), []⟩ (fun _ h => h)).2.2⟩

/-! ### The destroy check -/

theorem destroy_skips (find : String → Option GoError) (front : dms_test.Resources) :
    ∀ rest : dms_test.Resources,
      (∀ r ∈ front, r.2.ResourceType = "aws_dms_replication_subnet_group" →
        tfresource.NotFound (find r.2.Primary.ID) = true) →
      dms_test.testAccCheckReplicationSubnetGroupDestroy find (front ++ rest)
        = dms_test.testAccCheckReplicationSubnetGroupDestroy find rest := by
  induction front with
  | nil => intro rest _; rfl
  | cons r front ih =>
    intro rest h
    obtain ⟨name, rs⟩ := r
    have hrest := ih rest (fun x hx => h x (List.mem_cons_of_mem _ hx))
    by_cases ht : rs.ResourceType = "aws_dms_replication_subnet_group"
    · have hnf := h (name, rs) (List.mem_cons_self _ _) ht
      simp only at hnf
      simp [dms_test.testAccCheckReplicationSubnetGroupDestroy, ht, hnf, hrest]
    · simp [dms_test.testAccCheckReplicationSubnetGroupDestroy, ht, hrest]

/-- C27: for every state, the check `testAccCheckReplicationSubnetGroupDestroy`
returns nil if and only if every resource of type
`aws_dms_replication_subnet_group` in the root module is reported not-found by
the finder.  Resources of other types are ignored.  At the first resource of
that type that is not reported not-found, a finder error is returned as it is,
and a resource that is found gives the error
"DMS Replication Subnet Group <id> still exists". -/
theorem destroy_check_result (find : String → Option GoError)
    (resources : dms_test.Resources) :
    (dms_test.testAccCheckReplicationSubnetGroupDestroy find resources = none
      ↔ ∀ r ∈ resources, r.2.ResourceType = "aws_dms_replication_subnet_group" →
          tfresource.NotFound (find r.2.Primary.ID) = true)
    ∧ dms_test.testAccCheckReplicationSubnetGroupDestroy find resources
        = dms_test.testAccCheckReplicationSubnetGroupDestroy find
            (resources.filter (fun r => r.2.ResourceType == "aws_dms_replication_subnet_group"))
    ∧ (∀ (front back : dms_test.Resources) (name : String) (rs : dms_test.ResourceState),
        resources = front ++ (name, rs) :: back →
        (∀ r ∈ front, r.2.ResourceType = "aws_dms_replication_subnet_group" →
          tfresource.NotFound (find r.2.Primary.ID) = true) →
        rs.ResourceType = "aws_dms_replication_subnet_group" →
        tfresource.NotFound (find rs.Primary.ID) = false →
        (∀ err, find rs.Primary.ID = some err →
          dms_test.testAccCheckReplicationSubnetGroupDestroy find resources = some err)
        ∧ (find rs.Primary.ID = none →
          dms_test.testAccCheckReplicationSubnetGroupDestroy find resources
            = some (GoError.api
                ("DMS Replication Subnet Group " ++ rs.Primary.ID ++ " still exists")))) := by
  refine ⟨?_, ?_, ?_⟩
  · induction resources with
    | nil => simp [dms_test.testAccCheckReplicationSubnetGroupDestroy]
    | cons r rest ih =>
      obtain ⟨name, rs⟩ := r
      by_cases ht : rs.ResourceType = "aws_dms_replication_subnet_group"
      · by_cases hnf : tfresource.NotFound (find rs.Primary.ID) = true
        · simp [dms_test.testAccCheckReplicationSubnetGroupDestroy, ht, hnf, ih]
        · have hnf2 : tfresource.NotFound (find rs.Primary.ID) = false := by simpa using hnf
          constructor
          · intro h
            exfalso
            cases hf : find rs.Primary.ID with
            | none =>
              rw [hf] at hnf2
              simp [dms_test.testAccCheckReplicationSubnetGroupDestroy, ht, hnf2, hf] at h
            | some e =>
              rw [hf] at hnf2
              simp [dms_test.testAccCheckReplicationSubnetGroupDestroy, ht, hnf2, hf] at h
          · intro h
            have := h (name, rs) (List.mem_cons_self _ _) ht
            exact absurd this hnf
      · simp [dms_test.testAccCheckReplicationSubnetGroupDestroy, ht, ih]
  · induction resources with
    | nil => rfl
    | cons r rest ih =>
      obtain ⟨name, rs⟩ := r
      by_cases ht : rs.ResourceType = "aws_dms_replication_subnet_group"
      · by_cases hnf : tfresource.NotFound (find rs.Primary.ID) = true
        · simp only [dms_test.testAccCheckReplicationSubnetGroupDestroy, ht, hnf,
            List.filter_cons, bne_self_eq_false, beq_self_eq_true, if_true, if_false,
            Bool.false_eq_true]
          exact ih
        · have hnf2 : tfresource.NotFound (find rs.Primary.ID) = false := by simpa using hnf
          simp [dms_test.testAccCheckReplicationSubnetGroupDestroy, ht, hnf2, List.filter_cons]
      · have hb : (rs.ResourceType == "aws_dms_replication_subnet_group") = false := by simpa using ht
        have hb2 : (rs.ResourceType != "aws_dms_replication_subnet_group") = true := by simp [bne, hb]
        simp only [dms_test.testAccCheckReplicationSubnetGroupDestroy, List.filter_cons, hb, hb2,
          if_true, Bool.false_eq_true, if_false]
        exact ih
  · intro front back name rs hres hfront ht hnf
    subst hres
    rw [destroy_skips find front _ hfront]
    constructor
    · intro err hf
      rw [hf] at hnf
      simp [dms_test.testAccCheckReplicationSubnetGroupDestroy, ht, hnf, hf]
    · intro hf
      simp [dms_test.testAccCheckReplicationSubnetGroupDestroy, ht, hf, tfresource.NotFound]

/-- Witness for the destroy check: a state with a VPC and one replication subnet
group `grp`; when the finder finds the group the check fails with the "still
exists" error, and when the finder reports it not-found the check passes. -/
theorem destroy_check_result_witness :
    dms_test.testAccCheckReplicationSubnetGroupDestroy (fun _ => none)
        [("aws_vpc.test", ⟨"aws_vpc", ⟨"vpc-1"⟩⟩),
          ("aws_dms_replication_subnet_group.test",
            ⟨"aws_dms_replication_subnet_group", ⟨"grp"⟩⟩)]
      = some (GoError.api ("DMS Replication Subnet Group " ++ "grp" ++ " still exists"))
    ∧ dms_test.testAccCheckReplicationSubnetGroupDestroy
        (fun id => some (GoError.notFound (GoError.api "gone") id))
        [("aws_vpc.test", ⟨"aws_vpc", ⟨"vpc-1"⟩⟩),
          ("aws_dms_replication_subnet_group.test",
            ⟨"aws_dms_replication_subnet_group", ⟨"grp"⟩⟩)]
      = none :=
  ⟨((destroy_check_result (fun _ => none)
      [("aws_vpc.test", ⟨"aws_vpc", ⟨"vpc-1"⟩⟩),
        ("aws_dms_replication_subnet_group.test",
          ⟨"aws_dms_replication_subnet_group", ⟨"grp"⟩⟩)]).2.2
      [("aws_vpc.test", ⟨"aws_vpc", ⟨"vpc-1"⟩⟩)] []
      "aws_dms_replication_subnet_group.test" ⟨"aws_dms_replication_subnet_group", ⟨"grp"⟩⟩
      rfl (by decide) rfl rfl).2 rfl,
    (destroy_check_result (fun id => some (GoError.notFound (GoError.api "gone") id))
      [("aws_vpc.test", ⟨"aws_vpc", ⟨"vpc-1"⟩⟩),
        ("aws_dms_replication_subnet_group.test",
          ⟨"aws_dms_replication_subnet_group", ⟨"grp"⟩⟩)]).1.mpr (by decide)⟩
